import Mathlib

/-!
# sg_persist: SCSI PERSISTENT RESERVE IN / OUT

A shallow embedding of `src/sg_persist.c` and theorems about it.

Conventions of the embedding:

* a C `int` is an `Int`, an `unsigned` quantity a `Nat`; bit operations on an
  `int` are taken on its 32 two's-complement bits (`bits32`);
* a byte array is a `List Nat`; an access outside an array is undefined
  behaviour in C and is the fault `Fault.oob` here;
* `printf`, `fprintf(stderr, ..)` and the `sg_lib` printing helpers become
  lines of output (`Line`) carrying the format and the values printed;
* the `SG_IO` ioctl is a parameter `execute`, a function from the request
  the code built to the outcome and the bytes the device returned.
-/

namespace SgPersist

/-! ## Constants -/

abbrev SENSE_BUFF_LEN : Nat := 32
abbrev DEF_TIMEOUT : Nat := 60000
abbrev SG_PERSISTENT_IN : Nat := 0x5e
abbrev SG_PERSISTENT_OUT : Nat := 0x5f
abbrev PRIN_RKEY_SA : Int := 0x0
abbrev PRIN_RRES_SA : Int := 0x1
abbrev PRIN_RCAP_SA : Int := 0x2
abbrev PRIN_RFSTAT_SA : Int := 0x3
abbrev PRINOUT_CMD_LEN : Nat := 10
abbrev PROUT_REG_SA : Int := 0x0
abbrev PROUT_RES_SA : Int := 0x1
abbrev PROUT_REL_SA : Int := 0x2
abbrev PROUT_CLEAR_SA : Int := 0x3
abbrev PROUT_PREE_SA : Int := 0x4
abbrev PROUT_PREE_AB_SA : Int := 0x5
abbrev PROUT_REG_IGN_SA : Int := 0x6
abbrev PROUT_REG_MOVE_SA : Int := 0x7
abbrev MX_ALLOC_LEN : Nat := 8192

def prin_sa_strs : List String :=
  ["Read keys", "Read reservation", "Report capabilities", "Read full status",
   "[reserved 0x4]", "[reserved 0x5]", "[reserved 0x6]", "[reserved 0x7]"]

def num_prin_sa_strs : Int := prin_sa_strs.length

def prout_sa_strs : List String :=
  ["Register", "Reserve", "Release", "Clear", "Preempt", "Preempt and abort",
   "Register and ignore existing key", "Register and move", "[reserved 0x8]"]

def num_prout_sa_strs : Int := prout_sa_strs.length

def pr_type_strs : List String :=
  ["obsolete [0]", "Write Exclusive", "obsolete [2]", "Exclusive Access",
   "obsolete [4]", "Write Exclusive, registrants only",
   "Exclusive Access, registrants only", "Write Exclusive, all registrants",
   "Exclusive Access, all registrants",
   "obsolete [9]", "obsolete [0xa]", "obsolete [0xb]", "obsolete [0xc]",
   "obsolete [0xd]", "obsolete [0xe]", "obsolete [0xf]"]

/-! ## Machine integers and arrays -/

/-- The 32 bits of a C int (two's complement), as a natural number below 2^32. -/
def bits32 (x : Int) : Nat := (x % 4294967296).toNat

/-- The C int that has the 32 bits of u: from 2^31 on the value is negative. -/
def toInt32 (u : Nat) : Int :=
  if u % 4294967296 < 2147483648 then ((u % 4294967296 : Nat) : Int)
  else ((u % 4294967296 : Nat) : Int) - 4294967296

/-- Undefined behaviour and divergence made explicit. -/
inductive Fault
  | oob        -- an access outside an array
  | fuel       -- the loop did not finish within the steps allowed
  | range      -- a conversion whose result does not fit its object
  deriving DecidableEq, Repr

/-- Read of `buf[i]`. -/
def rd (buf : List Nat) (i : Int) : Except Fault Nat :=
  if 0 ≤ i then
    match buf[i.toNat]? with
    | some b => .ok b
    | none => .error .oob
  else .error .oob

/-- Lookup in a table of strings, `tbl[i]`. -/
def rdStr (tbl : List String) (i : Int) : Except Fault String :=
  if 0 ≤ i then
    match tbl[i.toNat]? with
    | some s => .ok s
    | none => .error .oob
  else .error .oob

/-- The C statement `buf[i] |= v` at an index inside the array. -/
def or_byte (buf : List Nat) (i : Nat) (v : Nat) : List Nat :=
  buf.set i (buf.getD i 0 ||| v)

/-- The library call `memcpy(&dst[off], src, n)`: the first n bytes of src
replace the n bytes of dst from off on. Reading past src or writing past
dst is a fault. -/
def memcpy (dst : List Nat) (off : Nat) (src : List Nat) (n : Nat) :
    Except Fault (List Nat) :=
  if off + n ≤ dst.length ∧ n ≤ src.length then
    .ok (dst.take off ++ src.take n ++ dst.drop (off + n))
  else .error .oob

/-- The n bytes of v in big-endian order, most significant byte first: the
wire format of every multi-byte field in the spec. -/
def big_endian : Nat → Nat → List Nat
  | 0, _ => []
  | n + 1, v => (v / 256 ^ n % 256) :: big_endian n v

/-- The number that the bytes bs spell in big-endian order. -/
def be_value (bs : List Nat) : Nat :=
  bs.foldl (fun acc b => acc * 256 + b) 0

/-! ## Output and the SCSI pass-through -/

/-- One value handed to a printf conversion. -/
inductive Arg
  | int (v : Int)            -- %d, %x, %02x, %llx
  | str (s : String)         -- %s
  | chars (bs : List Nat)    -- %.*s
  deriving DecidableEq, Repr

/-- One call that produces output. -/
inductive Line
  | printf (fmt : String) (args : List Arg)
  | dStrHex (bytes : List Nat) (no_ascii : Int)
  | perror (s : String)
  | sg_chk_n_print3 (leadin : String)
  | usage
  deriving DecidableEq, Repr

inductive DxferDirection
  | SG_DXFER_TO_DEV
  | SG_DXFER_FROM_DEV
  deriving DecidableEq, Repr

/-- The fields of `struct sg_io_hdr` that the program sets. -/
structure sg_io_hdr where
  interface_id : Char
  cmd_len : Nat
  mx_sb_len : Nat
  dxfer_direction : DxferDirection
  dxfer_len : Int
  dxferp : List Nat
  cmdp : List Nat
  timeout : Nat
  deriving DecidableEq, Repr

/-- Modelled from the spec: the outcome of the external transport primitive of
section 6, which stands for `ioctl(sg_fd, SG_IO, &io_hdr)` followed by
`sg_err_category3` of sg_lib (not under src/). `TransportError` is a negative
ioctl result, `Success` is SG_LIB_CAT_CLEAN, `RecoveredError` is
SG_LIB_CAT_RECOVERED and `CheckCondition` every other category. -/
inductive Outcome
  | Success
  | RecoveredError
  | CheckCondition
  | TransportError
  deriving DecidableEq, Repr

/-- The device behind `sg_fd`: for each request, the outcome and the bytes it
transfers into the data buffer of a from-device request. -/
abbrev Transport := sg_io_hdr → Outcome × List Nat

/-- What a run of a function leaves behind: its return value, the lines on
stdout and stderr, and the SG_IO requests it submitted, in order. -/
structure Run (α : Type) where
  ret : α
  out : List Line
  err : List Line
  sg_io : List sg_io_hdr
  deriving Repr

/-- Modelled from the spec: `dStrHex(&buf[off], len, no_ascii)` of sg_lib (not
under src/) dumps exactly the len bytes it is given and nothing for len <= 0. -/
def dStrHex (buf : List Nat) (off : Int) (len : Int) (no_ascii : Int) :
    Except Fault Line :=
  if len ≤ 0 then .ok (.dStrHex [] no_ascii)
  else if 0 ≤ off ∧ off + len ≤ buf.length then
    .ok (.dStrHex ((buf.drop off.toNat).take len.toNat) no_ascii)
  else .error .oob

/-- The data buffer after a from-device transfer: the device overwrites at most
`mx_resp_len` bytes from the start, the rest keeps its content. -/
def fill_resp (resp : List Nat) (data : List Nat) (mx_resp_len : Int) : List Nat :=
  let got := (data.take mx_resp_len.toNat).take resp.length
  got ++ resp.drop got.length

/-! ## do_prin and do_prout -/

/-- The command block of `do_prin` as it stands when the ioctl is issued. -/
def prinCmdBlk (rq_servact : Int) (mx_resp_len : Int) : List Nat :=
  let blk : List Nat := [SG_PERSISTENT_IN, 0, 0, 0, 0, 0, 0, 0, 0, 0]
  let blk := if rq_servact > 0 then blk.set 1 (bits32 rq_servact &&& 0x1f) else blk
  let blk := blk.set 7 ((bits32 mx_resp_len >>> 8) &&& 0xff)
  blk.set 8 (bits32 mx_resp_len &&& 0xff)

/-- The request `do_prin` sets up in `io_hdr` and hands to the ioctl. -/
def prin_io_hdr (rq_servact : Int) (resp : List Nat) (mx_resp_len : Int) : sg_io_hdr :=
  { interface_id := 'S', cmd_len := PRINOUT_CMD_LEN, mx_sb_len := SENSE_BUFF_LEN,
    dxfer_direction := .SG_DXFER_FROM_DEV, dxfer_len := mx_resp_len,
    dxferp := resp, cmdp := prinCmdBlk rq_servact mx_resp_len, timeout := DEF_TIMEOUT }

/-- The lines `fprintf(stderr, "%02x ", blk[k])` for k = 0 .. PRINOUT_CMD_LEN-1. -/
def cmd_dump (title : String) (blk : List Nat) : List Line :=
  [Line.printf title []] ++
  (blk.take PRINOUT_CMD_LEN).map (fun b => Line.printf "%02x " [Arg.int b]) ++
  [Line.printf "\n" []]

/-- `do_prin`: returns 0 when successful, else -1; the second component is the
response buffer after the call. -/
def do_prin (execute : Transport) (rq_servact : Int) (resp : List Nat)
    (mx_resp_len : Int) (noisy : Int) (verbose : Int) :
    Except Fault (Run Int × List Nat) := do
  let prinCmdBlk := prinCmdBlk rq_servact mx_resp_len
  let err1 :=
    if verbose ≠ 0 then cmd_dump "    Persistent Reservation In cmd: " prinCmdBlk else []
  let io_hdr := prin_io_hdr rq_servact resp mx_resp_len
  match execute io_hdr with
  | (.TransportError, _) =>
    pure ({ ret := -1, out := [], err := err1 ++ [.perror "SG_IO (PR In) error"],
            sg_io := [io_hdr] }, resp)
  | (.Success, data) =>
    pure ({ ret := 0, out := [], err := err1, sg_io := [io_hdr] },
          fill_resp resp data mx_resp_len)
  | (.RecoveredError, data) =>
    pure ({ ret := 0, out := [], err := err1, sg_io := [io_hdr] },
          fill_resp resp data mx_resp_len)
  | (.CheckCondition, data) =>
    if noisy ≠ 0 then do
      let sa ← if rq_servact < num_prin_sa_strs then rdStr prin_sa_strs rq_servact
               else pure "??"
      pure ({ ret := -1, out := [],
              err := err1 ++ [.sg_chk_n_print3 ("PRIN error, service_action: " ++ sa)],
              sg_io := [io_hdr] }, fill_resp resp data mx_resp_len)
    else
      pure ({ ret := -1, out := [], err := err1, sg_io := [io_hdr] },
            fill_resp resp data mx_resp_len)

/-- The command block of `do_prout` as it stands when the ioctl is issued. -/
def proutCmdBlk (rq_servact : Int) (rq_scope : Int) (rq_type : Nat)
    (param_len : Int) : List Nat :=
  let blk : List Nat := [SG_PERSISTENT_OUT, 0, 0, 0, 0, 0, 0, 0, 0, 0]
  let blk := if rq_servact > 0 then blk.set 1 (bits32 rq_servact &&& 0x1f) else blk
  let blk := blk.set 2 ((((bits32 rq_scope &&& 0xf) <<< 4) ||| (rq_type &&& 0xf)) % 256)
  let blk := blk.set 7 ((bits32 param_len >>> 8) &&& 0xff)
  blk.set 8 (bits32 param_len &&& 0xff)

/-- The request `do_prout` sets up in `io_hdr` and hands to the ioctl. -/
def prout_io_hdr (rq_servact : Int) (rq_scope : Int) (rq_type : Nat) (paramp : List Nat)
    (param_len : Int) : sg_io_hdr :=
  { interface_id := 'S', cmd_len := PRINOUT_CMD_LEN, mx_sb_len := SENSE_BUFF_LEN,
    dxfer_direction := .SG_DXFER_TO_DEV, dxfer_len := param_len,
    dxferp := paramp, cmdp := proutCmdBlk rq_servact rq_scope rq_type param_len,
    timeout := DEF_TIMEOUT }

/-- `do_prout`: returns 0 when successful, else -1. -/
def do_prout (execute : Transport) (rq_servact : Int) (rq_scope : Int)
    (rq_type : Nat) (paramp : List Nat) (param_len : Int) (noisy : Int)
    (verbose : Int) : Except Fault (Run Int) := do
  let proutCmdBlk := proutCmdBlk rq_servact rq_scope rq_type param_len
  let (out1, err1) ←
    if verbose ≠ 0 then do
      let d := cmd_dump "    Persistent Reservation Out cmd: " proutCmdBlk
      if verbose > 1 then do
        let h ← dStrHex paramp 0 param_len 0
        pure ([h], d ++ [.printf "    Persistent Reservation Out parameters:\n" []])
      else pure ([], d)
    else pure ([], [])
  let io_hdr := prout_io_hdr rq_servact rq_scope rq_type paramp param_len
  match (execute io_hdr).1 with
  | .TransportError =>
    pure { ret := -1, out := out1, err := err1 ++ [.perror "SG_IO (PR Out) error"],
           sg_io := [io_hdr] }
  | .Success => pure { ret := 0, out := out1, err := err1, sg_io := [io_hdr] }
  | .RecoveredError => pure { ret := 0, out := out1, err := err1, sg_io := [io_hdr] }
  | .CheckCondition =>
    if noisy ≠ 0 then do
      let sa ← if rq_servact < num_prout_sa_strs then rdStr prout_sa_strs rq_servact
               else pure "??"
      pure { ret := -1, out := out1,
             err := err1 ++ [.sg_chk_n_print3 ("PROUT error, service_action: " ++ sa)],
             sg_io := [io_hdr] }
    else pure { ret := -1, out := out1, err := err1, sg_io := [io_hdr] }

/-! ## prout_work and prout_rmove_work -/

/-- The loop `for (j = 7; j >= 0; --j) { pr_buff[base + j] = (param & 0xff);
param >>= 8; }`; the state is the buffer and what is left of the parameter. -/
def key_loop (pr_buff : List Nat) (base : Nat) (param : Nat) : List Nat × Nat :=
  [7, 6, 5, 4, 3, 2, 1, 0].foldl
    (fun st j => (st.1.set (base + j) (st.2 &&& 0xff), st.2 >>> 8))
    (pr_buff, param)

/-- `prout_work`: PR-Out service actions other than register-and-move. -/
def prout_work (execute : Transport) (prout_sa : Int) (prout_type : Nat)
    (param_rk : Nat) (param_sark : Nat) (param_alltgpt : Int) (param_aptpl : Int)
    (transportidp : List Nat) (transportid_len : Int) (do_verbose : Int) :
    Except Fault (Run Int) := do
  let pr_buff := List.replicate MX_ALLOC_LEN 0
  let pr_buff := (key_loop pr_buff 0 param_rk).1
  let pr_buff := (key_loop pr_buff 8 param_sark).1
  let pr_buff := if param_alltgpt ≠ 0 then or_byte pr_buff 20 0x4 else pr_buff
  let pr_buff := if param_aptpl ≠ 0 then or_byte pr_buff 20 0x1 else pr_buff
  let len : Int := 24
  let (pr_buff, len) ←
    if transportid_len > 0 then do
      let pr_buff := or_byte pr_buff 20 0x8     -- set SPEC_I_PT bit
      let pr_buff ← memcpy pr_buff 28 transportidp transportid_len.toNat
      let len := len + (transportid_len + 4)
      let pr_buff := pr_buff.set 24 ((bits32 transportid_len >>> 24) &&& 0xff)
      let pr_buff := pr_buff.set 25 ((bits32 transportid_len >>> 16) &&& 0xff)
      let pr_buff := pr_buff.set 26 ((bits32 transportid_len >>> 8) &&& 0xff)
      let pr_buff := pr_buff.set 27 (bits32 transportid_len &&& 0xff)
      pure (pr_buff, len)
    else pure (pr_buff, len)
  let r ← do_prout execute prout_sa 0 prout_type pr_buff len 1 do_verbose
  if r.ret ≠ 0 then
    pure { r with ret := 1 }
  else if do_verbose ≠ 0 then do
    let buff ←
      if prout_sa < num_prout_sa_strs then rdStr prout_sa_strs prout_sa
      else pure ("service action=0x" ++ String.mk (Nat.toDigits 16 (bits32 prout_sa)))
    pure { r with
           ret := 0,
           err := r.err ++
             [.printf "Persistent Reservation Out command (%s) successful\n" [.str buff]] }
  else pure { r with ret := 0 }

/-- `prout_rmove_work`: the register-and-move service action. -/
def prout_rmove_work (execute : Transport) (prout_type : Nat) (param_rk : Nat)
    (param_sark : Nat) (param_unreg : Int) (param_aptpl : Int)
    (rel_target_port : Nat) (transportidp : List Nat) (transportid_len : Int)
    (do_verbose : Int) : Except Fault (Run Int) := do
  let pr_buff := List.replicate MX_ALLOC_LEN 0
  let pr_buff := (key_loop pr_buff 0 param_rk).1
  let pr_buff := (key_loop pr_buff 8 param_sark).1
  let pr_buff := if param_unreg ≠ 0 then or_byte pr_buff 17 0x2 else pr_buff
  let pr_buff := if param_aptpl ≠ 0 then or_byte pr_buff 17 0x1 else pr_buff
  let pr_buff := pr_buff.set 18 ((rel_target_port >>> 8) &&& 0xff)
  let pr_buff := pr_buff.set 19 (rel_target_port &&& 0xff)
  let len : Int := 24
  let (pr_buff, len) ←
    if transportid_len > 0 then do
      let pr_buff ← memcpy pr_buff 24 transportidp transportid_len.toNat
      let len := len + transportid_len
      let pr_buff := pr_buff.set 20 ((bits32 transportid_len >>> 24) &&& 0xff)
      let pr_buff := pr_buff.set 21 ((bits32 transportid_len >>> 16) &&& 0xff)
      let pr_buff := pr_buff.set 22 ((bits32 transportid_len >>> 8) &&& 0xff)
      let pr_buff := pr_buff.set 23 (bits32 transportid_len &&& 0xff)
      pure (pr_buff, len)
    else pure (pr_buff, len)
  let r ← do_prout execute PROUT_REG_MOVE_SA 0 prout_type pr_buff len 1 do_verbose
  if r.ret ≠ 0 then
    pure { r with ret := 1 }
  else if do_verbose ≠ 0 then
    pure { r with
           ret := 0,
           err := r.err ++
             [.printf "Persistent Reservation Out 'register and move' command successful\n" []] }
  else pure { r with ret := 0 }

/-! ## Decoding: decode_transport_id and prin_work -/

/-- The loop `ull = 0; for (j = 0; j < 8; ++j) { if (j > 0) ull <<= 8;
ull |= ucp[j]; }` on an unsigned long long, `ucp` being `&buf[ucp]`. -/
def ull_loop (buf : List Nat) (ucp : Int) : Except Fault Nat :=
  ([0, 1, 2, 3, 4, 5, 6, 7] : List Int).foldlM
    (fun (ull : Nat) (j : Int) => do
      let ull := if j > 0 then (ull <<< 8) % 18446744073709551616 else ull
      let b ← rd buf (ucp + j)
      pure (ull ||| b))
    0

/-- The characters printed by the conversion `%.*s` for `(num, &buf[off])`: at
most num bytes, stopping before the first NUL byte. -/
def rd_chars (buf : List Nat) (off : Int) : Nat → Except Fault (List Nat)
  | 0 => .ok []
  | num + 1 => do
    let b ← rd buf off
    if b = 0 then pure []
    else do
      let rest ← rd_chars buf (off + 1) num
      pure (b :: rest)

/-- The line `[Unexpected format code: %d]` printed when the code is not 0. -/
def unexpected_format (format_code : Nat) : List Line :=
  if 0 ≠ format_code then
    [.printf "        [Unexpected format code: %d]\n" [.int format_code]]
  else []

/-- One pass through the body of the loop of `decode_transport_id`, the record
being at `&buf[ucp]`: the lines on stdout, the lines on stderr, and `bump`. -/
def decode_transport_id_body (buf : List Nat) (ucp : Int) (len : Int) :
    Except Fault (List Line × List Line × Int) := do
  let head : Line :=
    if len < 24 ∨ 0 ≠ Int.tmod len 4 then
      .printf "      Transport Id short or not multiple of 4 [length=%d]:\n" [.int len]
    else .printf "      Transport Id of initiator:\n" []
  let b0 ← rd buf ucp
  let format_code := (b0 >>> 6) &&& 0x3
  let proto_id := b0 &&& 0xf
  match proto_id with
  | 0 => do   -- Fibre channel
    let d ← dStrHex buf (ucp + 8) 8 0
    pure ([head, .printf "        FCP-2 World Wide Name:\n" []] ++
            unexpected_format format_code ++ [d], [], 24)
  | 1 => do   -- Parallel SCSI
    let b2 ← rd buf (ucp + 2)
    let b3 ← rd buf (ucp + 3)
    let b6 ← rd buf (ucp + 6)
    let b7 ← rd buf (ucp + 7)
    pure ([head,
           .printf "        Parallel SCSI initiator SCSI address: 0x%x\n"
             [.int (((b2 <<< 8) ||| b3 : Nat) : Int)]] ++
            unexpected_format format_code ++
          [.printf "        relative port number (of target): 0x%x\n"
             [.int (((b6 <<< 8) ||| b7 : Nat) : Int)]], [], 24)
  | 2 => do   -- SSA
    let d ← dStrHex buf ucp (if len > 24 then 24 else len) 0
    pure ([head, .printf "        SSA (transport id not defined):\n" [],
           .printf "        format code: %d\n" [.int format_code], d], [], 24)
  | 3 => do   -- IEEE 1394
    let d ← dStrHex buf (ucp + 8) 8 0
    pure ([head, .printf "        IEEE 1394 EUI-64 name:\n" []] ++
            unexpected_format format_code ++ [d], [], 24)
  | 4 => do   -- Remote Direct Memory Access (RDMA)
    let d ← dStrHex buf (ucp + 8) 16 0
    pure ([head, .printf "        RDMA initiator port identifier:\n" []] ++
            unexpected_format format_code ++ [d], [], 24)
  | 5 => do   -- iSCSI
    let b2 ← rd buf (ucp + 2)
    let b3 ← rd buf (ucp + 3)
    let num : Int := (((b2 <<< 8) ||| b3 : Nat) : Int)
    let bump : Int := if num + 4 < 24 then 24 else num + 4
    if 0 = format_code then do
      let cs ← rd_chars buf (ucp + 4) num.toNat
      pure ([head, .printf "        iSCSI " [],
             .printf "name: %.*s\n" [.int num, .chars cs]], [], bump)
    else if 1 = format_code then do
      let cs ← rd_chars buf (ucp + 4) num.toNat
      pure ([head, .printf "        iSCSI " [],
             .printf "world wide unique port id: %.*s\n" [.int num, .chars cs]], [], bump)
    else do
      let d ← dStrHex buf ucp (num + 4) 0
      pure ([head, .printf "        iSCSI " [],
             .printf "        [Unexpected format code: %d]\n" [.int format_code], d], [], bump)
  | 6 => do   -- SAS
    let ull ← ull_loop buf (ucp + 4)
    pure ([head, .printf "        SAS address: 0x%llx\n" [.int ull]] ++
            unexpected_format format_code, [], 24)
  | 7 => do   -- Automation/Drive Interface Transport Protocol
    let d ← dStrHex buf ucp (if len > 24 then 24 else len) 0
    pure ([head, .printf "        ADT:\n" [],
           .printf "        format code: %d\n" [.int format_code], d], [], 24)
  | 8 => do   -- ATAPI
    let d ← dStrHex buf ucp (if len > 24 then 24 else len) 0
    pure ([head, .printf "        ATAPI:\n" [],
           .printf "        format code: %d\n" [.int format_code], d], [], 24)
  | _ => do
    let d ← dStrHex buf ucp (if len > 24 then 24 else len) 0
    pure ([head, d],
          [.printf "        unknown protocol id=0x%x  format_code=%d\n"
             [.int proto_id, .int format_code]], 24)

/-- The loop `for (k = 0, bump; k < len; k += bump, ucp += bump)` of
`decode_transport_id`, from the state (k, ucp) on, for at most fuel passes. -/
def decode_transport_id_loop (buf : List Nat) (len : Int) :
    Nat → Int → Int → Except Fault (List Line × List Line)
  | 0, k, _ => if k < len then .error .fuel else .ok ([], [])
  | fuel + 1, k, ucp =>
    if k < len then do
      let (o, e, bump) ← decode_transport_id_body buf ucp len
      let (o2, e2) ← decode_transport_id_loop buf len fuel (k + bump) (ucp + bump)
      pure (o ++ o2, e ++ e2)
    else .ok ([], [])

/-- `decode_transport_id(&buf[ucp], len)`: the lines on stdout and on stderr.
Every pass adds at least 24 to k, so len passes are enough. -/
def decode_transport_id (buf : List Nat) (ucp : Int) (len : Int) :
    Except Fault (List Line × List Line) :=
  decode_transport_id_loop buf len len.toNat 0 ucp

/-- The value of `(b0 << 24) | (b1 << 16) | (b2 << 8) | b3` for four bytes read
at `&buf[off]`, as 32 bits. -/
def rd_32 (buf : List Nat) (off : Int) : Except Fault Nat := do
  let b0 ← rd buf off
  let b1 ← rd buf (off + 1)
  let b2 ← rd buf (off + 2)
  let b3 ← rd buf (off + 3)
  pure (((b0 <<< 24) ||| (b1 <<< 16) ||| (b2 <<< 8) ||| b3) % 4294967296)

/-- The C expression `!!(b & mask)`. -/
def bit_set (b : Nat) (mask : Nat) : Int := if b &&& mask ≠ 0 then 1 else 0

/-- The lines `scope: ..` and `type: ..` printed from the byte `ucp[13]`. -/
def scope_type_lines (indent : String) (b13 : Nat) : Except Fault (List Line) := do
  let j := (b13 >>> 4) &&& 0xf
  let scope : Line :=
    if 0 = j then .printf (indent ++ "scope: LU_SCOPE, ") []
    else .printf (indent ++ "scope: %d ") [.int j]
  let j := b13 &&& 0xf
  let ty ← rdStr pr_type_strs j
  pure [scope, .printf " type: %s\n" [.str ty]]

/-- The branch `PRIN_RCAP_SA == prin_sa` of `prin_work`: return value and
the lines on stdout and stderr. -/
def prin_work_rcap (pr_buff : List Nat) (do_hex : Int) :
    Except Fault (Int × List Line × List Line) := do
  let b1 ← rd pr_buff 1
  if 8 ≠ b1 then
    pure (1, [], [.printf "Unexpected response for PRIN Report Capabilities\n" []])
  else if do_hex ≠ 0 then do
    let d ← dStrHex pr_buff 0 8 1
    pure (0, [d], [])
  else do
    let b2 ← rd pr_buff 2
    let b3 ← rd pr_buff 3
    let flags : List Line :=
      [.printf "Report capabilities response:\n" [],
       .printf "  Compatible Reservation handling(CRH): %d\n" [.int (bit_set b2 0x10)],
       .printf "  Specify Initiator Ports capable(SIP_C): %d\n" [.int (bit_set b2 0x8)],
       .printf "  All target ports capable(ATP_C): %d\n" [.int (bit_set b2 0x4)],
       .printf "  Persist Through Power Loss capable(PTPL_C): %d\n" [.int (bit_set b2 0x1)],
       .printf "  Type Mask Valid(TMV): %d\n" [.int (bit_set b3 0x80)],
       .printf "  Persist Through Power Loss active(PTPL_A): %d\n" [.int (bit_set b3 0x1)]]
    if b3 &&& 0x80 ≠ 0 then do
      let b4 ← rd pr_buff 4
      let b5 ← rd pr_buff 5
      let s7 ← rdStr pr_type_strs 7
      let s6 ← rdStr pr_type_strs 6
      let s5 ← rdStr pr_type_strs 5
      let s3 ← rdStr pr_type_strs 3
      let s1 ← rdStr pr_type_strs 1
      let s8 ← rdStr pr_type_strs 8
      pure (0, flags ++
        [.printf "    Support indicated in Type mask:\n" [],
         .printf "      %s: %d\n" [.str s7, .int (bit_set b4 0x80)],
         .printf "      %s: %d\n" [.str s6, .int (bit_set b4 0x40)],
         .printf "      %s: %d\n" [.str s5, .int (bit_set b4 0x20)],
         .printf "      %s: %d\n" [.str s3, .int (bit_set b4 0x8)],
         .printf "      %s: %d\n" [.str s1, .int (bit_set b4 0x2)],
         .printf "      %s: %d\n" [.str s8, .int (bit_set b5 0x1)]], [])
    else pure (0, flags, [])

/-- The `do_hex` branch of `prin_work` for the other service actions. -/
def prin_work_hex (pr_buff : List Nat) (pr_gen : Nat) (add_len : Int) :
    Except Fault (List Line) := do
  let l1 : List Line := [.printf "  PR generation=0x%x, " [.int pr_gen]]
  let l2 : List Line :=
    if add_len ≤ 0 then [.printf "Additional length=%d\n" [.int add_len]] else []
  if add_len > (MX_ALLOC_LEN : Int) - 8 then do
    let d ← dStrHex pr_buff 8 ((MX_ALLOC_LEN : Int) - 8) 1
    pure (l1 ++ l2 ++
      [.printf "Additional length too large=%d, truncate\n" [.int add_len], d])
  else do
    let d ← dStrHex pr_buff 8 add_len 1
    pure (l1 ++ l2 ++ [.printf "Additional length=%d\n" [.int add_len], d])

/-- The loop `for (k = 0; k < num; ++k, ucp += 8)` of the Read Keys branch, from
pass k on for the `todo` passes that are left (k + todo = num). -/
def prin_work_rkey_loop (pr_buff : List Nat) : Nat → Int → Except Fault (List Line)
  | 0, _ => .ok []
  | todo + 1, ucp => do
    let ull ← ull_loop pr_buff ucp
    let rest ← prin_work_rkey_loop pr_buff todo (ucp + 8)
    pure (.printf "    0x%llx\n" [.int ull] :: rest)

/-- The branch `PRIN_RKEY_SA == prin_sa` of `prin_work`. -/
def prin_work_rkey (pr_buff : List Nat) (pr_gen : Nat) (add_len : Int) :
    Except Fault (List Line) := do
  let l1 : Line := .printf "  PR generation=0x%x, " [.int pr_gen]
  let num := Int.tdiv add_len 8
  if num > 0 then do
    let l2 : Line :=
      if 1 = num then .printf "1 registered reservation key follows:\n" []
      else .printf "%d registered reservation keys follow:\n" [.int num]
    let keys ← prin_work_rkey_loop pr_buff num.toNat 8
    pure (l1 :: l2 :: keys)
  else pure [l1, .printf "there are NO registered reservation keys\n" []]

/-- The branch `PRIN_RRES_SA == prin_sa` of `prin_work`. -/
def prin_work_rres (pr_buff : List Nat) (pr_gen : Nat) (add_len : Int) :
    Except Fault (List Line) := do
  let l1 : Line := .printf "  PR generation=0x%x, " [.int pr_gen]
  let num := Int.tdiv add_len 16
  if num > 0 then do
    let ucp : Int := 8
    let ull ← ull_loop pr_buff ucp
    let b13 ← rd pr_buff (ucp + 13)
    let st ← scope_type_lines "    " b13
    pure ([l1, .printf "Reservation follows:\n" [], .printf "    Key=0x%llx\n" [.int ull]] ++ st)
  else pure [l1, .printf "there is NO reservation held\n" []]

/-- The loop `for (k = 0; k < add_len; k += num, ucp += num)` of the Read Full
Status branch, from the state (k, ucp) on, for at most fuel passes; `num` is
`24 + add_desc_len` computed in 32-bit int arithmetic. -/
def prin_work_rfstat_loop (pr_buff : List Nat) (add_len : Int) :
    Nat → Int → Int → Except Fault (List Line × List Line)
  | 0, k, _ => if k < add_len then .error .fuel else .ok ([], [])
  | fuel + 1, k, ucp =>
    if k < add_len then do
      let d ← rd_32 pr_buff (ucp + 20)
      let add_desc_len := toInt32 d
      let num := toInt32 (bits32 (24 + add_desc_len))
      let ull ← ull_loop pr_buff ucp
      let b12 ← rd pr_buff (ucp + 12)
      let tg ←
        if b12 &&& 0x2 ≠ 0 then
          pure [Line.printf "      All target ports bit set\n" []]
        else do
          let b18 ← rd pr_buff (ucp + 18)
          let b19 ← rd pr_buff (ucp + 19)
          let rel_pt_addr : Int := (((b18 <<< 8) ||| b19 : Nat) : Int)
          pure [Line.printf "      All target ports bit clear\n" [],
                Line.printf "      Relative port address: 0x%x\n" [.int rel_pt_addr]]
      let holder ←
        if b12 &&& 0x1 ≠ 0 then do
          let b13 ← rd pr_buff (ucp + 13)
          let st ← scope_type_lines "      " b13
          pure (Line.printf "      << Reservation holder >>\n" [] :: st)
        else pure [Line.printf "      not reservation holder\n" []]
      let (tout, terr) ←
        if add_desc_len > 0 then decode_transport_id pr_buff (ucp + 24) add_desc_len
        else pure ([], [])
      let (o2, e2) ←
        prin_work_rfstat_loop pr_buff add_len fuel (toInt32 (bits32 (k + num))) (ucp + num)
      pure ([Line.printf "    Key=0x%llx\n" [.int ull]] ++ tg ++ holder ++ tout ++ o2, terr ++ e2)
    else .ok ([], [])

/-- `prin_work`: issue PR-In and decode the response; fuel bounds the number
of passes of the Read Full Status loop. -/
def prin_work (execute : Transport) (prin_sa : Int) (do_verbose : Int) (do_hex : Int)
    (fuel : Nat) : Except Fault (Run Int) := do
  let pr_buff := List.replicate MX_ALLOC_LEN 0
  let (r, pr_buff) ← do_prin execute prin_sa pr_buff MX_ALLOC_LEN 1 do_verbose
  if 0 ≠ r.ret then
    pure { r with ret := 1 }
  else if PRIN_RCAP_SA = prin_sa then do
    let (ret, o, e) ← prin_work_rcap pr_buff do_hex
    pure { r with ret := ret, out := r.out ++ o, err := r.err ++ e }
  else do
    let pr_gen ← rd_32 pr_buff 0
    let a ← rd_32 pr_buff 4
    let add_len := toInt32 a
    if do_hex ≠ 0 then do
      let o ← prin_work_hex pr_buff pr_gen add_len
      pure { r with ret := 0, out := r.out ++ o }
    else if PRIN_RKEY_SA = prin_sa then do
      let o ← prin_work_rkey pr_buff pr_gen add_len
      pure { r with ret := 0, out := r.out ++ o }
    else if PRIN_RRES_SA = prin_sa then do
      let o ← prin_work_rres pr_buff pr_gen add_len
      pure { r with ret := 0, out := r.out ++ o }
    else if PRIN_RFSTAT_SA = prin_sa then do
      let (o, e) ← prin_work_rfstat_loop pr_buff add_len fuel 0 8
      pure { r with ret := 0,
                    out := r.out ++ [.printf "  PR generation=0x%x\n" [.int pr_gen]] ++ o,
                    err := r.err ++ e }
    else pure { r with ret := 0 }

/-! ## main -/

def scsi_ptype_strs : List String :=
  ["disk", "tape", "printer", "processor", "write once optical disk", "cd/dvd",
   "scanner", "optical memory device", "medium changer", "communications",
   "graphics", "graphics", "storage array controller", "enclosure services device",
   "simplified direct access device", "optical card reader/writer device",
   "bridging expander", "object based storage", "automation/driver interface"]

/-- The fields of `struct sg_simple_inquiry_resp` that main prints. -/
structure sg_simple_inquiry_resp where
  vendor : String
  product : String
  revision : String
  peripheral_type : Nat
  deriving Repr

/-- What main meets outside the program: whether the two `open` calls
succeed, the answer of `sg_simple_inquiry` (none when it does not return 0),
and the device. -/
structure Env where
  open_ro : Bool
  inquiry : Option sg_simple_inquiry_resp
  open_rw : Bool
  execute : Transport

/-- The local variables of `main` as the getopt loop leaves them, with
`args` the arguments left from `optind` on. -/
structure MainVars where
  prout_type : Nat
  param_rk : Nat
  param_sark : Nat
  param_rtp : Nat
  device_name : String
  num_prin_sa : Int
  num_prout_sa : Int
  num_prout_param : Int
  want_prin : Int
  want_prout : Int
  prin_sa : Int
  prout_sa : Int
  param_alltgpt : Int
  param_aptpl : Int
  param_unreg : Int
  do_inquiry : Int
  do_hex : Int
  do_verbose : Int
  transportid_arr : List Nat
  transportid_arr_len : Int
  num_transportids : Int
  args : List String

/-- A return from main before any device is opened. -/
def reject (err : List Line) : Except Fault (Run Int) :=
  .ok { ret := 1, out := [], err := err, sg_io := [] }

/-- The part of `main` that follows the getopt loop (from `if (optind < argc)`
on): the checks of the arguments, the INQUIRY, and the dispatch to
`prin_work`, `prout_rmove_work` or `prout_work`. -/
def main (v : MainVars) (env : Env) (fuel : Nat) : Except Fault (Run Int) := do
  let (device_name, args) :=
    match v.args with
    | [] => (v.device_name, [])
    | a :: rest =>
      if v.device_name = "" then (a.take 255, rest) else (v.device_name, a :: rest)
  if args ≠ [] then
    reject (args.map (fun a => Line.printf "Unexpected extra argument: %s\n" [.str a]) ++
            [.usage])
  else if device_name = "" then
    reject [.printf "No device name given\n" [], .usage]
  else if v.want_prout + v.want_prin > 1 then
    reject [.printf "choose '--in' _or_ '--out' (not both)\n" [], .usage]
  else if v.want_prout ≠ 0 ∧ (1 ≠ v.num_prout_sa ∨ 0 ≠ v.num_prin_sa) then
    reject [.printf (">> For Persistent Reservation Out one and only one appropriate\n" ++
                     ">> service action must be chosen (e.g. '--register')\n") []]
  else if v.want_prout = 0 ∧ v.num_prout_sa > 0 then
    reject [.printf (">> When a service action for Persistent Reservation Out is chosen the\n" ++
                     ">> '--out' option must be given (as a safeguard)\n") []]
  else if v.want_prout = 0 ∧ v.num_prin_sa > 1 then
    reject [.printf "Too many service actions given; choose one only\n" [], .usage]
  else
    -- syntax check passed
    let prin : Int := if v.want_prout ≠ 0 then 0 else 1
    let (prin_sa, err0) : Int × List Line :=
      if v.want_prout = 0 ∧ 0 = v.num_prin_sa then
        (0, [.printf (">> No service action given; assume Persistent Reservations In command\n" ++
                      ">> with Read Keys service action\n") []])
      else (v.prin_sa, [])
    if (v.param_unreg ≠ 0 ∨ v.param_rtp ≠ 0) ∧ PROUT_REG_MOVE_SA ≠ v.prout_sa then
      reject (err0 ++
        [.printf "--unreg or --relative-target-port only useful with --register-move\n" [],
         .usage])
    else if PROUT_REG_MOVE_SA = v.prout_sa ∧ 1 ≠ v.num_transportids then
      reject (err0 ++
        [.printf "with --register-move one (and only one) --transport-id should be given\n" [],
         .usage])
    else do
      let err1 : List Line :=
        if (PROUT_RES_SA = v.prout_sa ∨ PROUT_REL_SA = v.prout_sa ∨
            PROUT_PREE_SA = v.prout_sa ∨ PROUT_PREE_AB_SA = v.prout_sa) ∧ 0 = v.prout_type then
          [.printf "warning>>> --prout-type probably needs to be given\n" []]
        else []
      let (out2, err2) ←
        if v.do_verbose > 2 ∧ v.num_transportids ≠ 0 then do
          let (o, e) ← decode_transport_id v.transportid_arr 0 v.transportid_arr_len
          pure (o,
            [Line.printf "number of tranport-ids decoded from command line (or stdin): %d\n"
               [.int v.num_transportids],
             Line.printf "  Decode given transport-ids:\n" []] ++ e)
        else pure ([], [])
      let err := err0 ++ err1 ++ err2
      -- INQUIRY
      let inq : Option (List Line) ⊕ List Line :=
        if v.do_inquiry ≠ 0 then
          if ¬ env.open_ro then
            .inr [.perror ("sg_persist: error opening file: " ++ device_name ++ "  (ro)")]
          else
            match env.inquiry with
            | some inq_resp =>
              .inl (some
                [.printf "  %.8s  %.16s  %.4s\n"
                   [.str (inq_resp.vendor.take 8), .str (inq_resp.product.take 16),
                    .str (inq_resp.revision.take 4)],
                 match scsi_ptype_strs[inq_resp.peripheral_type]? with
                 | none => .printf "  Peripheral device type: 0x%x\n"
                             [.int inq_resp.peripheral_type]
                 | some s => .printf "  Peripheral device type: %s\n" [.str s]])
            | none => .inl none
        else .inl (some [])
      match inq with
      | .inr e => pure { ret := 1, out := out2, err := err ++ e, sg_io := [] }
      | .inl none =>
        pure { ret := 1,
               out := out2 ++ [.printf "sg_persist: %s doesn't respond to a SCSI INQUIRY\n"
                                 [.str device_name]],
               err := err, sg_io := [] }
      | .inl (some out3) =>
        if ¬ env.open_rw then
          pure { ret := 1, out := out2 ++ out3,
                 err := err ++
                   [.perror ("sg_persist: error opening file: " ++ device_name ++ " (rw)")],
                 sg_io := [] }
        else do
          let r ←
            if prin ≠ 0 then
              prin_work env.execute prin_sa v.do_verbose v.do_hex fuel
            else if PROUT_REG_MOVE_SA = v.prout_sa then
              prout_rmove_work env.execute v.prout_type v.param_rk v.param_sark
                v.param_unreg v.param_aptpl v.param_rtp v.transportid_arr
                v.transportid_arr_len v.do_verbose
            else  -- PROUT commands other than 'register and move'
              prout_work env.execute v.prout_sa v.prout_type v.param_rk v.param_sark
                v.param_alltgpt v.param_aptpl v.transportid_arr v.transportid_arr_len
                v.do_verbose
          pure { r with out := out2 ++ out3 ++ r.out, err := err ++ r.err }

/-! ## build_transportid -/

/-- The library call `strspn(s, accept)`: the length of the longest prefix of s
made of characters of accept. -/
def strspn (s : List Char) (accept : List Char) : Nat :=
  (s.takeWhile (fun c => accept.contains c)).length

/-- The library call `strchr(s, c)` as an offset into s; none stands for NULL. -/
def strchr (s : List Char) (c : Char) : Option Nat :=
  let i := s.findIdx (fun d => d == c)
  if i < s.length then some i else none

/-- The library call `strpbrk(s, accept)` as an offset into s; none stands for
NULL. -/
def strpbrk (s : List Char) (accept : List Char) : Option Nat :=
  let i := s.findIdx (fun d => accept.contains d)
  if i < s.length then some i else none

/-- The value of a hexadecimal digit. -/
def hex_digit (c : Char) : Option Nat :=
  if '0' ≤ c ∧ c ≤ '9' then some (c.toNat - 48)
  else if 'a' ≤ c ∧ c ≤ 'f' then some (c.toNat - 87)
  else if 'A' ≤ c ∧ c ≤ 'F' then some (c.toNat - 55)
  else none

/-- The characters for which `isspace` holds in the C locale. -/
def isspace (c : Char) : Bool :=
  c == ' ' || c == '\t' || c == '\n' || c.toNat == 11 || c.toNat == 12 || c == '\r'

/-- The library call `sscanf(s, "%x", &h)` with h an unsigned int: white space
is skipped and the longest run of hexadecimal digits is converted. The result
is none when the call does not return 1 (no digit follows: a matching failure
or the end of the string). A value that an unsigned int cannot hold is
undefined behaviour in C and the fault `Fault.range` here. Every call is
behind a `strspn` guard that admits hexadecimal digits, blanks, tabs and
commas only, so the sign and the 0x prefix that `%x` accepts cannot occur. -/
def sscanf_x (s : List Char) : Except Fault (Option Nat) :=
  let s := s.dropWhile isspace
  let ds := s.takeWhile (fun c => (hex_digit c).isSome)
  if ds = [] then .ok none
  else
    let v := ds.foldl (fun acc c => acc * 16 + (hex_digit c).getD 0) 0
    if v < 4294967296 then .ok (some v) else .error .range

/-- The library call `fgets(line, size, stdin)` on what is left of stdin: the
line read (with its newline, at most size - 1 characters) and the rest of
stdin; none stands for NULL (end of input). -/
def fgets (size : Nat) (stdin : List Char) : Option (List Char × List Char) :=
  if stdin = [] then none
  else
    let pre := stdin.takeWhile (fun c => c != '\n')
    let line := if pre.length < stdin.length then pre ++ ['\n'] else pre
    let line := line.take (size - 1)
    some (line, stdin.drop line.length)

/-- The assignment `tid_arr[i] = h` for h <= 0xff; outside the array it is a
fault. -/
def wr (tid_arr : List Nat) (i : Nat) (h : Nat) : Except Fault (List Nat) :=
  if i < tid_arr.length then .ok (tid_arr.set i h) else .error .oob

/-- The statement `if (k < 24) k = 24; else if (0 != (k % 4)) k = ((k / 4) + 1) * 4;`
that follows both token loops of `build_transportid`. -/
def pad_k (k : Nat) : Nat :=
  if k < 24 then 24
  else if 0 ≠ k % 4 then ((k / 4) + 1) * 4
  else k

/-- The loop `for (k = 0; k < 1024; ++k)` of the command-line branch of
`build_transportid`, from pass k on with `lcp = inp + lcp` and todo = 1024 - k
passes left. The result is the array and either the message of a `return 1`
from inside the loop or the value of k when the loop is left. -/
def build_transportid_hex_loop (inp : List Char) :
    Nat → Nat → Nat → List Nat → Except Fault (List Nat × (Line ⊕ Nat))
  | 0, k, _, tid_arr => .ok (tid_arr, .inr k)
  | todo + 1, k, lcp, tid_arr => do
    match ← sscanf_x (inp.drop lcp) with
    | some h =>
      if h > 0xff then
        pure (tid_arr, .inl (.printf
          "build_transportid: hex number larger than 0xff at pos %d\n" [.int (lcp + 1 : Nat)]))
      else do
        let tid_arr ← wr tid_arr k h
        match strchr (inp.drop lcp) ',' with
        | none => pure (tid_arr, .inr k)
        | some cp => build_transportid_hex_loop inp todo (k + 1) (lcp + cp + 1) tid_arr
    | none =>
      pure (tid_arr, .inl (.printf "build_transportid: error at pos %d\n"
        [.int (lcp + 1 : Nat)]))

/-- The loop `for (k = 0; k < 1024; ++k)` of the stdin branch of
`build_transportid` for line j, from pass k on with `lcp = line + lcp` and
todo = 1024 - k passes left; bytes go to `tid_arr[off + k]`. -/
def build_transportid_line_loop (line : List Char) (j : Nat) (off : Nat) :
    Nat → Nat → Nat → List Nat → Except Fault (List Nat × (Line ⊕ Nat))
  | 0, k, _, tid_arr => .ok (tid_arr, .inr k)
  | todo + 1, k, lcp, tid_arr => do
    match ← sscanf_x (line.drop lcp) with
    | some h =>
      if h > 0xff then
        pure (tid_arr, .inl (.printf
          "build_transportid: hex number larger than 0xff in line %d, pos %d\n"
          [.int (j + 1 : Nat), .int (lcp + 1 : Nat)]))
      else do
        let tid_arr ← wr tid_arr (off + k) h
        match strpbrk (line.drop lcp) [' ', ',', '\t'] with
        | none => pure (tid_arr, .inr k)
        | some sep =>
          let lcp := lcp + sep
          let lcp := lcp + strspn (line.drop lcp) [' ', ',', '\t']
          if line.drop lcp = [] then pure (tid_arr, .inr k)
          else build_transportid_line_loop line j off todo (k + 1) lcp tid_arr
    | none =>
      pure (tid_arr, .inl (.printf "build_transportid: error in line %d, at pos %d\n"
        [.int (j + 1 : Nat), .int (lcp + 1 : Nat)]))

/-- What `build_transportid` leaves behind: its return value, the caller's
array, `*tid_arr_len`, `*num_tids` and the lines on stderr. -/
structure TidResult where
  ret : Int
  tid_arr : List Nat
  tid_arr_len : Int
  num_tids : Int
  err : List Line
  deriving Repr

/-- The loop `for (j = 0, off = 0; j < 512; ++j)` of the stdin branch of
`build_transportid`, from pass j on with todo = 512 - j passes left. The
result is the array and either the message of a `return 1` or the values of
off and num when the loop is left. -/
def build_transportid_stdin_loop :
    Nat → Nat → List Char → Nat → Nat → List Nat →
      Except Fault (List Nat × (Line ⊕ (Nat × Nat)))
  | 0, _, _, off, num, tid_arr => .ok (tid_arr, .inr (off, num))
  | todo + 1, j, stdin, off, num, tid_arr =>
    match fgets 512 stdin with
    | none => .ok (tid_arr, .inr (off, num))
    | some (line, stdin) =>
      let line := if line.getLast? = some '\n' then line.dropLast else line
      let in_len := line.length
      if 0 = in_len then
        build_transportid_stdin_loop todo (j + 1) stdin off num tid_arr
      else
        let m := strspn line [' ', '\t']
        if m = in_len then
          build_transportid_stdin_loop todo (j + 1) stdin off num tid_arr
        else
          let lcp := m
          let in_len := in_len - m
          if (line.drop lcp).head? = some '#' then
            build_transportid_stdin_loop todo (j + 1) stdin off num tid_arr
          else
            let k := strspn (line.drop lcp) "0123456789aAbBcCdDeEfF ,\t".toList
            if in_len ≠ k then
              .ok (tid_arr, .inl (.printf
                "build_transportid: syntax error at line %d, pos %d\n"
                [.int (j + 1 : Nat), .int (m + k + 1 : Nat)]))
            else do
              let (tid_arr, r) ← build_transportid_line_loop line j off 1024 0 lcp tid_arr
              match r with
              | .inl msg => pure (tid_arr, .inl msg)
              | .inr k =>
                let k := pad_k k
                build_transportid_stdin_loop todo (j + 1) stdin (off + k) (num + 1) tid_arr

/-- `build_transportid(inp, tid_arr, &tid_arr_len, &num_tids)` with none of the
pointers NULL; stdin is what is left to read on standard input, and
tid_arr_len and num_tids are the values the two int objects hold before the
call. -/
def build_transportid (inp : List Char) (stdin : List Char) (tid_arr : List Nat)
    (tid_arr_len : Int) (num_tids : Int) : Except Fault TidResult := do
  let in_len := inp.length
  let (tid_arr_len, num_tids) : Int × Int :=
    if 0 = in_len then (0, 0) else (tid_arr_len, num_tids)
  if inp.head? = some '-' then do        -- read from stdin
    let (tid_arr, r) ← build_transportid_stdin_loop 512 0 stdin 0 0 tid_arr
    match r with
    | .inl msg =>
      pure { ret := 1, tid_arr := tid_arr, tid_arr_len := tid_arr_len,
             num_tids := num_tids, err := [msg] }
    | .inr (off, num) =>
      pure { ret := 0, tid_arr := tid_arr, tid_arr_len := off, num_tids := num, err := [] }
  else do                                -- hex string on command line
    let k := strspn inp "0123456789aAbBcCdDeEfF,".toList
    if in_len ≠ k then
      pure { ret := 1, tid_arr := tid_arr, tid_arr_len := tid_arr_len, num_tids := num_tids,
             err := [.printf "build_transportid: error at pos %d\n" [.int (k + 1 : Nat)]] }
    else do
      let (tid_arr, r) ← build_transportid_hex_loop inp 1024 0 0 tid_arr
      match r with
      | .inl msg =>
        pure { ret := 1, tid_arr := tid_arr, tid_arr_len := tid_arr_len,
               num_tids := num_tids, err := [msg] }
      | .inr k =>
        let k := pad_k k
        pure { ret := 0, tid_arr := tid_arr, tid_arr_len := k, num_tids := 1, err := [] }

/-! ## Words of the spec used in the statements -/

/-- The device answers the PR-In request that `prin_work` makes for the service
action prin_sa with success or a recovered error, and leaves the bytes buf
(unsigned chars) in the 8192-byte response buffer `pr_buff`. -/
def prin_response (execute : Transport) (prin_sa : Int) (buf : List Nat) : Prop :=
  ((execute (prin_io_hdr prin_sa (List.replicate MX_ALLOC_LEN 0) MX_ALLOC_LEN)).1 = .Success ∨
   (execute (prin_io_hdr prin_sa (List.replicate MX_ALLOC_LEN 0) MX_ALLOC_LEN)).1
     = .RecoveredError) ∧
  fill_resp (List.replicate MX_ALLOC_LEN 0)
    (execute (prin_io_hdr prin_sa (List.replicate MX_ALLOC_LEN 0) MX_ALLOC_LEN)).2
    MX_ALLOC_LEN = buf ∧
  ∀ b ∈ buf, b < 256

/-- Bit i of x as the number 0 or 1. -/
def bit_of (x : Nat) (i : Nat) : Int := if x.testBit i then 1 else 0

/-! ## The layout of a Read Full Status response, as the spec words it -/

/-- The number that a token of hexadecimal digits spells. -/
def hex_value (t : List Char) : Nat :=
  t.foldl (fun acc c => acc * 16 + (hex_digit c).getD 0) 0

/-- The text of a comma-separated list: the tokens in order, with one comma
between two neighbours. A token may be empty. -/
def hex_list : List (List Char) → List Char
  | [] => []
  | [t] => t
  | t :: u :: ts => t ++ ',' :: hex_list (u :: ts)

/-- The array after the bytes bs have been stored from index i on. -/
def store (arr : List Nat) (i : Nat) : List Nat → List Nat
  | [] => arr
  | b :: bs => store (arr.set i b) (i + 1) bs

/-- A data line of the line-oriented input, piece by piece: leading blanks, a
first token, further tokens each after a run of separators, and separators
after the last token. -/
structure DataLine where
  blanks : List Char
  first : List Char
  more : List (List Char × List Char)
  trail : List Char

/-- The text of a data line, without its newline. -/
def DataLine.text (d : DataLine) : List Char :=
  d.blanks ++ (d.first ++ ((d.more.map (fun p => p.1 ++ p.2)).flatten ++ d.trail))

/-- The tokens of a data line, in order. -/
def DataLine.tokens (d : DataLine) : List (List Char) :=
  d.first :: d.more.map Prod.snd

/-- The bytes that the tokens of a data line spell. -/
def DataLine.bytes (d : DataLine) : List Nat :=
  d.tokens.map hex_value

/-- A data line is a well-formed list of hex byte tokens: the blanks are
spaces and tabs, every token is a non-empty run of hexadecimal digits with a
value of at most 0xff, and the separators are non-empty runs of spaces,
commas and tabs (the run after the last token may be empty). -/
def DataLine.wf (d : DataLine) : Prop :=
  (∀ c ∈ d.blanks, [' ', '\t'].contains c = true) ∧
  (∀ t ∈ d.tokens, t ≠ [] ∧ (∀ c ∈ t, (hex_digit c).isSome = true) ∧ hex_value t ≤ 0xff) ∧
  (∀ p ∈ d.more, p.1 ≠ [] ∧ ∀ c ∈ p.1, [' ', ',', '\t'].contains c = true) ∧
  (∀ c ∈ d.trail, [' ', ',', '\t'].contains c = true)

/-- A line of the line-oriented input: a line that is skipped (empty, blank,
or a comment) or a data line. -/
inductive InLine
  | skip (text : List Char)
  | data (d : DataLine)

/-- The text of a line, without its newline. -/
def InLine.text : InLine → List Char
  | .skip l => l
  | .data d => d.text

/-- A skipped line holds nothing but spaces and tabs (or nothing at all), or
its first character that is not a space or a tab is `#`; a data line is a
well-formed list of hex byte tokens. No line holds a newline. -/
def InLine.wf : InLine → Prop
  | .skip l =>
    (∀ c ∈ l, c ≠ '\n') ∧
    ((∀ c ∈ l, [' ', '\t'].contains c = true) ∨
     (l.dropWhile (fun c => [' ', '\t'].contains c)).head? = some '#')
  | .data d => d.wf

/-- The records of an input: the bytes of its data lines, in order. -/
def records : List InLine → List (List Nat)
  | [] => []
  | .skip _ :: ls => records ls
  | .data d :: ls => d.bytes :: records ls

/-- The text of an input on standard input: every line followed by a newline. -/
def stream (ls : List InLine) : List Char :=
  (ls.map (fun x => x.text ++ ['\n'])).flatten

/-- The array and the total length after the records recs have been placed
from offset off on: a record of n bytes is stored at the current offset and
the offset moves on by the padded value of n - 1, as the padding statement of
the code computes it. -/
def place : List (List Nat) → Nat → List Nat → List Nat × Nat
  | [], off, arr => (arr, off)
  | bs :: recs, off, arr => place recs (off + pad_k (bs.length - 1)) (store arr off bs)

/-- Every record, placed as `place` does, lies inside an array of n bytes. -/
def records_fit : List (List Nat) → Nat → Nat → Prop
  | [], _, _ => True
  | bs :: recs, off, n => off + bs.length ≤ n ∧ records_fit recs (off + pad_k (bs.length - 1)) n

/-! ## Lemmas on arrays and machine integers -/

theorem rdStr_ok (tbl : List String) (i : Int) (h0 : 0 ≤ i) (h1 : i < tbl.length) :
    ∃ s, rdStr tbl i = .ok s := by
  have hlt : i.toNat < tbl.length := by omega
  refine ⟨tbl[i.toNat], ?_⟩
  simp [rdStr, h0, List.getElem?_eq_getElem hlt]

theorem sa_str_ok (tbl : List String) (i : Int) (h0 : 0 ≤ i) :
    ∃ s, (if i < (tbl.length : Int) then rdStr tbl i else pure "??") = Except.ok s := by
  by_cases h : i < (tbl.length : Int)
  · obtain ⟨s, hs⟩ := rdStr_ok tbl i h0 h
    exact ⟨s, by rw [if_pos h, hs]⟩
  · exact ⟨"??", by rw [if_neg h]; rfl⟩

theorem dStrHex_ok (buf : List Nat) (len no_ascii : Int) (h : len ≤ buf.length) :
    ∃ l, dStrHex buf 0 len no_ascii = .ok l := by
  unfold dStrHex
  by_cases h0 : len ≤ 0
  · exact ⟨_, if_pos h0⟩
  · rw [if_neg h0, if_pos ⟨le_refl _, by omega⟩]
    exact ⟨_, rfl⟩

theorem replicate_split (k : Nat) (hk : k ≤ MX_ALLOC_LEN) :
    List.replicate MX_ALLOC_LEN (0 : Nat) =
      List.replicate k 0 ++ List.replicate (MX_ALLOC_LEN - k) 0 := by
  rw [← List.replicate_add]; congr 1; omega

theorem and_255 (x : Nat) : x &&& 255 = x % 256 := Nat.and_pow_two_sub_one_eq_mod x 8

theorem and_31 (x : Nat) : x &&& 31 = x % 32 := Nat.and_pow_two_sub_one_eq_mod x 5

theorem and_15 (x : Nat) : x &&& 15 = x % 16 := Nat.and_pow_two_sub_one_eq_mod x 4

theorem shr_8 (x : Nat) : x >>> 8 = x / 256 := Nat.shiftRight_eq_div_pow x 8

theorem shr_16 (x : Nat) : x >>> 16 = x / 65536 := Nat.shiftRight_eq_div_pow x 16

theorem shr_24 (x : Nat) : x >>> 24 = x / 16777216 := Nat.shiftRight_eq_div_pow x 24

theorem bits32_nat (n : Nat) (h : n < 4294967296) : bits32 (n : Int) = n := by
  unfold bits32
  have : ((n : Int) % 4294967296) = (n : Int) := Int.emod_eq_of_lt (by omega) (by omega)
  rw [this]; simp

theorem memcpy_append (p t src : List Nat) (n : Nat) (hn : n ≤ t.length)
    (hs : n ≤ src.length) :
    memcpy (p ++ t) p.length src n = .ok (p ++ src.take n ++ t.drop n) := by
  unfold memcpy
  rw [if_pos ⟨by simp; omega, hs⟩, List.take_left, List.drop_append]

theorem or_byte_append (p t : List Nat) (i v : Nat) (h : i < p.length) :
    or_byte (p ++ t) i v = or_byte p i v ++ t := by
  unfold or_byte
  rw [List.set_append, if_pos h]
  congr 2
  simp [List.getD_eq_getElem?_getD, List.getElem?_append_left h]

/-! ## The parameter block of prout_work and prout_rmove_work -/

theorem keys_buf (rk sark : Nat) (n : Nat) (t : List Nat) :
    (key_loop (key_loop (List.replicate (16 + n) 0 ++ t) 0 rk).1 8 sark).1 =
      big_endian 8 rk ++ big_endian 8 sark ++ List.replicate n 0 ++ t := by
  rw [List.replicate_add]
  generalize List.replicate n 0 = z
  simp [List.replicate, key_loop, List.foldl, List.set_append, big_endian, and_255, shr_8,
    Nat.div_div_eq_div_mul]

theorem len_buf (p t : List Nat) (L : Nat) (hL : L < 4294967296) :
    ((((p ++ [0, 0, 0, 0] ++ t).set (p.length) (bits32 (L : Int) >>> 24 &&& 255)).set
      (p.length + 1) (bits32 (L : Int) >>> 16 &&& 255)).set (p.length + 2)
      (bits32 (L : Int) >>> 8 &&& 255)).set (p.length + 3) (bits32 (L : Int) &&& 255)
      = p ++ big_endian 4 L ++ t := by
  rw [bits32_nat L hL]
  simp [List.set_append, big_endian, and_255, shr_8, shr_16, shr_24]

/-- The flag byte 20 of `prout_work` before the SPEC_I_PT bit. -/
theorem flags_buf (rk sark : Nat) (t : List Nat) (alltgpt aptpl : Int) :
    (if aptpl ≠ 0 then
        or_byte (if alltgpt ≠ 0 then
          or_byte (big_endian 8 rk ++ big_endian 8 sark ++ List.replicate 12 0 ++ t) 20 4
          else big_endian 8 rk ++ big_endian 8 sark ++ List.replicate 12 0 ++ t) 20 1
      else
        if alltgpt ≠ 0 then
          or_byte (big_endian 8 rk ++ big_endian 8 sark ++ List.replicate 12 0 ++ t) 20 4
        else big_endian 8 rk ++ big_endian 8 sark ++ List.replicate 12 0 ++ t) =
      big_endian 8 rk ++ big_endian 8 sark ++
        [0, 0, 0, 0, ((if alltgpt ≠ 0 then 4 else 0) ||| (if aptpl ≠ 0 then 1 else 0)), 0, 0, 0,
         0, 0, 0, 0] ++ t := by
  by_cases h1 : alltgpt = 0 <;> by_cases h2 : aptpl = 0 <;>
    simp [h1, h2, or_byte, List.replicate, big_endian, List.set_append]


/-! ## do_prin and do_prout -/

theorem do_prout_ok (execute : Transport) (rq_servact rq_scope : Int) (rq_type : Nat)
    (paramp : List Nat) (param_len noisy verbose : Int)
    (hsa : 0 ≤ rq_servact) (hlen : verbose ≤ 1 ∨ param_len ≤ paramp.length) :
    ∃ r, do_prout execute rq_servact rq_scope rq_type paramp param_len noisy verbose = .ok r ∧
      r.sg_io = [prout_io_hdr rq_servact rq_scope rq_type paramp param_len] ∧
      (r.ret = 0 ↔
        ((execute (prout_io_hdr rq_servact rq_scope rq_type paramp param_len)).1 = .Success ∨
         (execute (prout_io_hdr rq_servact rq_scope rq_type paramp param_len)).1
           = .RecoveredError)) := by
  obtain ⟨s, hs⟩ := sa_str_ok prout_sa_strs rq_servact hsa
  unfold do_prout
  simp only [num_prout_sa_strs, hs]
  rcases hlen with hv | hl
  · have hv1 : ¬ verbose > 1 := by omega
    simp only [hv1, if_false]
    cases (execute _).1 <;> split_ifs <;> simp_all [bind, Except.bind, pure, Except.pure]
  · obtain ⟨l, hl⟩ := dStrHex_ok paramp param_len 0 hl
    simp only [hl]
    cases (execute _).1 <;> split_ifs <;> simp_all [bind, Except.bind, pure, Except.pure]

theorem do_prout_sg_io (execute : Transport) (rq_servact rq_scope : Int) (rq_type : Nat)
    (paramp : List Nat) (param_len noisy verbose : Int) (r : Run Int)
    (h : do_prout execute rq_servact rq_scope rq_type paramp param_len noisy verbose = .ok r) :
    r.sg_io = [prout_io_hdr rq_servact rq_scope rq_type paramp param_len] := by
  unfold do_prout at h
  simp only [bind, Except.bind, pure, Except.pure] at h
  cases hd : dStrHex paramp 0 param_len 0 <;>
    cases hr : rdStr prout_sa_strs rq_servact <;>
    cases ho : (execute (prout_io_hdr rq_servact rq_scope rq_type paramp param_len)).1 <;>
    simp only [hd, hr, ho] at h <;> split_ifs at h <;>
    (injection h with h; subst h; rfl)

theorem do_prin_ok (execute : Transport) (rq_servact : Int) (resp : List Nat)
    (mx_resp_len noisy verbose : Int) (hsa : 0 ≤ rq_servact) :
    ∃ r, do_prin execute rq_servact resp mx_resp_len noisy verbose = .ok r ∧
      r.1.out = [] ∧
      r.1.sg_io = [prin_io_hdr rq_servact resp mx_resp_len] ∧
      (r.1.ret = 0 ↔
        ((execute (prin_io_hdr rq_servact resp mx_resp_len)).1 = .Success ∨
         (execute (prin_io_hdr rq_servact resp mx_resp_len)).1 = .RecoveredError)) ∧
      (r.1.ret = 0 →
        r.2 = fill_resp resp (execute (prin_io_hdr rq_servact resp mx_resp_len)).2 mx_resp_len) := by
  obtain ⟨s, hs⟩ := sa_str_ok prin_sa_strs rq_servact hsa
  unfold do_prin
  simp only [num_prin_sa_strs, hs]
  rcases hex : execute (prin_io_hdr rq_servact resp mx_resp_len) with ⟨o, d⟩
  cases o <;> simp only [] <;> split_ifs <;> simp_all [bind, Except.bind, pure, Except.pure]


/-! ## prout_work and prout_rmove_work: what is handed to do_prout -/

/-- What `prout_work` hands to `do_prout` when transportid_len <= 0. -/
theorem prout_work_no_tid (execute : Transport) (prout_sa : Int) (prout_type rk sark : Nat)
    (alltgpt aptpl : Int) (tid : List Nat) (tlen v : Int) (h0 : 0 ≤ prout_sa)
    (hL : tlen ≤ 0) :
    ∃ r, prout_work execute prout_sa prout_type rk sark alltgpt aptpl tid tlen v = .ok r ∧
      r.sg_io = [prout_io_hdr prout_sa 0 prout_type
        (big_endian 8 rk ++ big_endian 8 sark ++
          [0, 0, 0, 0, ((if alltgpt ≠ 0 then 4 else 0) ||| (if aptpl ≠ 0 then 1 else 0)),
           0, 0, 0] ++ List.replicate (MX_ALLOC_LEN - 24) 0) 24] := by
  have hpos : ¬ tlen > 0 := by omega
  obtain ⟨s, hs⟩ := sa_str_ok prout_sa_strs prout_sa h0
  obtain ⟨r, hr, hio, -⟩ := do_prout_ok execute prout_sa 0 prout_type
    (big_endian 8 rk ++ big_endian 8 sark ++
      [0, 0, 0, 0, ((if alltgpt ≠ 0 then 4 else 0) ||| (if aptpl ≠ 0 then 1 else 0)),
       0, 0, 0] ++ List.replicate (MX_ALLOC_LEN - 24) 0) 24 1 v h0
    (Or.inr (by simp [big_endian]; omega))
  have hfl := flags_buf rk sark (List.replicate (MX_ALLOC_LEN - 28) 0) alltgpt aptpl
  have e1 : big_endian 8 rk ++ big_endian 8 sark ++
        [0, 0, 0, 0, ((if alltgpt ≠ 0 then 4 else 0) ||| (if aptpl ≠ 0 then 1 else 0)), 0, 0, 0,
         0, 0, 0, 0] ++ List.replicate (MX_ALLOC_LEN - 28) 0 =
      big_endian 8 rk ++ big_endian 8 sark ++
        [0, 0, 0, 0, ((if alltgpt ≠ 0 then 4 else 0) ||| (if aptpl ≠ 0 then 1 else 0)), 0, 0, 0]
        ++ List.replicate (MX_ALLOC_LEN - 24) 0 := by
    have : List.replicate (MX_ALLOC_LEN - 24) (0 : Nat) =
        [0, 0, 0, 0] ++ List.replicate (MX_ALLOC_LEN - 28) 0 := by
      show List.replicate (4 + (MX_ALLOC_LEN - 28)) (0 : Nat) = _
      rw [List.replicate_add]; rfl
    rw [this]
    simp only [List.append_assoc, List.cons_append, List.nil_append]
  rw [e1] at hfl
  unfold prout_work
  rw [replicate_split 28 (by decide)]
  simp only [hpos, if_false, keys_buf rk sark 12, hfl, bind, Except.bind, pure,
    Except.pure, hr, num_prout_sa_strs]
  split_ifs <;> simp_all [pure, Except.pure]


/-- What `prout_work` hands to `do_prout` for a transport-id block of L bytes. -/
theorem prout_work_tid (execute : Transport) (prout_sa : Int) (prout_type rk sark : Nat)
    (alltgpt aptpl : Int) (tid : List Nat) (L : Nat) (v : Int) (h0 : 0 ≤ prout_sa)
    (hL0 : 0 < L) (hL : L ≤ MX_ALLOC_LEN - 28) (hLt : L ≤ tid.length) :
    ∃ r, prout_work execute prout_sa prout_type rk sark alltgpt aptpl tid (L : Int) v = .ok r ∧
      r.sg_io = [prout_io_hdr prout_sa 0 prout_type
        (big_endian 8 rk ++ big_endian 8 sark ++
          [0, 0, 0, 0,
           ((if alltgpt ≠ 0 then 4 else 0) ||| (if aptpl ≠ 0 then 1 else 0)) ||| 8, 0, 0, 0] ++
          big_endian 4 L ++ (tid.take L ++ List.replicate (MX_ALLOC_LEN - 28 - L) 0))
        (24 + ((L : Int) + 4))] := by
  have hL' : L ≤ 8164 := hL
  have hpos : (L : Int) > 0 := by omega
  obtain ⟨s, hs⟩ := sa_str_ok prout_sa_strs prout_sa h0
  obtain ⟨r, hr, hio, -⟩ := do_prout_ok execute prout_sa 0 prout_type
    (big_endian 8 rk ++ big_endian 8 sark ++
      [0, 0, 0, 0, ((if alltgpt ≠ 0 then 4 else 0) ||| (if aptpl ≠ 0 then 1 else 0)) ||| 8,
       0, 0, 0] ++ big_endian 4 L ++
      (tid.take L ++ List.replicate (MX_ALLOC_LEN - 28 - L) 0))
    (24 + ((L : Int) + 4)) 1 v h0
    (Or.inr (by
      simp only [List.length_append, List.length_take, List.length_replicate, big_endian,
        List.length_cons, List.length_nil, Nat.min_eq_left hLt]
      show _ ≤ (((8 + 8 + 8 + 4 + (L + (8192 - 28 - L)) : Nat)) : Int)
      omega))
  have hfl := flags_buf rk sark (List.replicate (MX_ALLOC_LEN - 28) 0) alltgpt aptpl
  generalize hF : ((if alltgpt ≠ 0 then 4 else 0) ||| (if aptpl ≠ 0 then 1 else 0) : Nat) = F
    at hfl hr hio ⊢
  have hor : or_byte (big_endian 8 rk ++ big_endian 8 sark ++
        [0, 0, 0, 0, F, 0, 0, 0, 0, 0, 0, 0] ++ List.replicate (MX_ALLOC_LEN - 28) 0) 20 8 =
      (big_endian 8 rk ++ big_endian 8 sark ++ [0, 0, 0, 0, F ||| 8, 0, 0, 0, 0, 0, 0, 0]) ++
        List.replicate (MX_ALLOC_LEN - 28) 0 := by
    rw [or_byte_append _ _ _ _ (by simp [big_endian])]
    simp [or_byte, big_endian]
  have hcp := memcpy_append
    (big_endian 8 rk ++ big_endian 8 sark ++ [0, 0, 0, 0, F ||| 8, 0, 0, 0, 0, 0, 0, 0])
    (List.replicate (MX_ALLOC_LEN - 28) 0) tid L
    (by rw [List.length_replicate]; exact hL) hLt
  have hlen28 : (big_endian 8 rk ++ big_endian 8 sark ++
      [0, 0, 0, 0, F ||| 8, 0, 0, 0, 0, 0, 0, 0]).length = 28 := by simp [big_endian]
  rw [hlen28, List.drop_replicate] at hcp
  have e1 : big_endian 8 rk ++ big_endian 8 sark ++
        [0, 0, 0, 0, F ||| 8, 0, 0, 0, 0, 0, 0, 0] ++ List.take L tid ++
          List.replicate (MX_ALLOC_LEN - 28 - L) 0 =
        (big_endian 8 rk ++ big_endian 8 sark ++ [0, 0, 0, 0, F ||| 8, 0, 0, 0]) ++ [0, 0, 0, 0] ++
          (tid.take L ++ List.replicate (MX_ALLOC_LEN - 28 - L) 0) := by
    simp only [List.append_assoc, List.cons_append, List.nil_append]
  have hset := len_buf (big_endian 8 rk ++ big_endian 8 sark ++ [0, 0, 0, 0, F ||| 8, 0, 0, 0])
    (tid.take L ++ List.replicate (MX_ALLOC_LEN - 28 - L) 0) L (by omega)
  have hlen24 : (big_endian 8 rk ++ big_endian 8 sark ++
      [0, 0, 0, 0, F ||| 8, 0, 0, 0]).length = 24 := by simp [big_endian]
  rw [hlen24, ← e1] at hset
  unfold prout_work
  rw [replicate_split 28 (by decide)]
  simp only [hpos, if_true, keys_buf rk sark 12, hfl, hor, Int.toNat_ofNat, hcp, bind,
    Except.bind, pure, Except.pure, hset, hr, num_prout_sa_strs]
  split_ifs <;> simp_all [pure, Except.pure]


/-- Bytes 16 to 23 of `prout_rmove_work` before the transport id is looked at. -/
theorem rmove_flags_buf (rk sark rtp : Nat) (t : List Nat) (unreg aptpl : Int) :
    ((if aptpl ≠ 0 then
        or_byte (if unreg ≠ 0 then
          or_byte (big_endian 8 rk ++ big_endian 8 sark ++ List.replicate 8 0 ++ t) 17 2
          else big_endian 8 rk ++ big_endian 8 sark ++ List.replicate 8 0 ++ t) 17 1
      else
        if unreg ≠ 0 then
          or_byte (big_endian 8 rk ++ big_endian 8 sark ++ List.replicate 8 0 ++ t) 17 2
        else big_endian 8 rk ++ big_endian 8 sark ++ List.replicate 8 0 ++ t).set 18
          (rtp >>> 8 &&& 255)).set 19 (rtp &&& 255) =
      big_endian 8 rk ++ big_endian 8 sark ++
        [0, ((if unreg ≠ 0 then 2 else 0) ||| (if aptpl ≠ 0 then 1 else 0))] ++
        big_endian 2 rtp ++ [0, 0, 0, 0] ++ t := by
  by_cases h1 : unreg = 0 <;> by_cases h2 : aptpl = 0 <;>
    simp [h1, h2, or_byte, List.replicate, big_endian, List.set_append, and_255, shr_8]

theorem prout_rmove_work_tid (execute : Transport) (prout_type rk sark : Nat)
    (unreg aptpl : Int) (rtp : Nat) (tid : List Nat) (L : Nat) (v : Int)
    (hL0 : 0 < L) (hL : L ≤ MX_ALLOC_LEN - 24) (hLt : L ≤ tid.length) :
    ∃ r, prout_rmove_work execute prout_type rk sark unreg aptpl rtp tid (L : Int) v = .ok r ∧
      r.sg_io = [prout_io_hdr PROUT_REG_MOVE_SA 0 prout_type
        (big_endian 8 rk ++ big_endian 8 sark ++
          [0, ((if unreg ≠ 0 then 2 else 0) ||| (if aptpl ≠ 0 then 1 else 0))] ++
          big_endian 2 rtp ++ big_endian 4 L ++
          (tid.take L ++ List.replicate (MX_ALLOC_LEN - 24 - L) 0))
        (24 + (L : Int))] := by
  have hL' : L ≤ 8168 := hL
  have hpos : (L : Int) > 0 := by omega
  obtain ⟨r, hr, hio, -⟩ := do_prout_ok execute PROUT_REG_MOVE_SA 0 prout_type
    (big_endian 8 rk ++ big_endian 8 sark ++
      [0, ((if unreg ≠ 0 then 2 else 0) ||| (if aptpl ≠ 0 then 1 else 0))] ++
      big_endian 2 rtp ++ big_endian 4 L ++
      (tid.take L ++ List.replicate (MX_ALLOC_LEN - 24 - L) 0))
    (24 + (L : Int)) 1 v (by decide)
    (Or.inr (by
      simp only [List.length_append, List.length_take, List.length_replicate, big_endian,
        List.length_cons, List.length_nil, Nat.min_eq_left hLt]
      show _ ≤ (((8 + 8 + 2 + 2 + 4 + (L + (8192 - 24 - L)) : Nat)) : Int)
      omega))
  have hfl := rmove_flags_buf rk sark rtp (List.replicate (MX_ALLOC_LEN - 24) 0) unreg aptpl
  generalize hF : ((if unreg ≠ 0 then 2 else 0) ||| (if aptpl ≠ 0 then 1 else 0) : Nat) = F
    at hfl hr hio ⊢
  have hcp := memcpy_append
    (big_endian 8 rk ++ big_endian 8 sark ++ [0, F] ++ big_endian 2 rtp ++ [0, 0, 0, 0])
    (List.replicate (MX_ALLOC_LEN - 24) 0) tid L
    (by rw [List.length_replicate]; exact hL) hLt
  have hlen24 : (big_endian 8 rk ++ big_endian 8 sark ++ [0, F] ++ big_endian 2 rtp ++
      [0, 0, 0, 0]).length = 24 := by simp [big_endian]
  rw [hlen24, List.drop_replicate] at hcp
  have e1 : big_endian 8 rk ++ big_endian 8 sark ++ [0, F] ++ big_endian 2 rtp ++
        [0, 0, 0, 0] ++ List.take L tid ++ List.replicate (MX_ALLOC_LEN - 24 - L) 0 =
        (big_endian 8 rk ++ big_endian 8 sark ++ [0, F] ++ big_endian 2 rtp) ++ [0, 0, 0, 0] ++
          (tid.take L ++ List.replicate (MX_ALLOC_LEN - 24 - L) 0) := by
    simp only [List.append_assoc, List.cons_append, List.nil_append]
  have hset := len_buf (big_endian 8 rk ++ big_endian 8 sark ++ [0, F] ++ big_endian 2 rtp)
    (tid.take L ++ List.replicate (MX_ALLOC_LEN - 24 - L) 0) L (by omega)
  have hlen20 : (big_endian 8 rk ++ big_endian 8 sark ++ [0, F] ++
      big_endian 2 rtp).length = 20 := by simp [big_endian]
  rw [hlen20, ← e1] at hset
  unfold prout_rmove_work
  rw [replicate_split 24 (by decide)]
  simp only [hpos, if_true, keys_buf rk sark 8, hfl, Int.toNat_ofNat, hcp, bind,
    Except.bind, pure, Except.pure, hset, hr]
  split_ifs <;> simp_all [pure, Except.pure]

/-- Whenever `prout_rmove_work` returns, it has submitted one request. -/
theorem prout_rmove_work_sg_io (execute : Transport) (prout_type rk sark : Nat)
    (unreg aptpl : Int) (rtp : Nat) (tid : List Nat) (tlen v : Int) (r : Run Int)
    (h : prout_rmove_work execute prout_type rk sark unreg aptpl rtp tid tlen v = .ok r) :
    r.sg_io.length = 1 := by
  unfold prout_rmove_work at h
  simp only [bind, Except.bind, pure, Except.pure] at h
  by_cases hpos : tlen > 0
  · simp only [hpos, if_true] at h
    split at h
    · cases h
    · split at h
      · cases h
      · rename_i r1 h1
        have := do_prout_sg_io _ _ _ _ _ _ _ _ _ h1
        split_ifs at h <;> (injection h with h; subst h; simp [this])
  · simp only [hpos, if_false] at h
    split at h
    · cases h
    · rename_i r1 h1
      have := do_prout_sg_io _ _ _ _ _ _ _ _ _ h1
      split_ifs at h <;> (injection h with h; subst h; simp [this])


/-! ## The key decoder -/

theorem shl_or (x b : Nat) (hx : x < 72057594037927936) (hb : b < 256) :
    (x <<< 8) % 18446744073709551616 ||| b = x * 256 + b := by
  rw [Nat.shiftLeft_eq, Nat.mod_eq_of_lt (by omega)]
  have := Nat.mul_add_lt_is_or (i := 8) (b := b) (by simpa using hb) x
  simp only [Nat.reducePow] at this
  rw [Nat.mul_comm x 256, this]

theorem ull_loop_bytes (buf : List Nat) (ucp : Int) (b0 b1 b2 b3 b4 b5 b6 b7 : Nat)
    (h0 : rd buf ucp = .ok b0) (h1 : rd buf (ucp + 1) = .ok b1)
    (h2 : rd buf (ucp + 2) = .ok b2) (h3 : rd buf (ucp + 3) = .ok b3)
    (h4 : rd buf (ucp + 4) = .ok b4) (h5 : rd buf (ucp + 5) = .ok b5)
    (h6 : rd buf (ucp + 6) = .ok b6) (h7 : rd buf (ucp + 7) = .ok b7)
    (hb0 : b0 < 256) (hb1 : b1 < 256) (hb2 : b2 < 256) (hb3 : b3 < 256)
    (hb4 : b4 < 256) (hb5 : b5 < 256) (hb6 : b6 < 256) (hb7 : b7 < 256) :
    ull_loop buf ucp = .ok (be_value [b0, b1, b2, b3, b4, b5, b6, b7]) := by
  unfold ull_loop
  simp only [List.foldlM, bind, Except.bind, pure, Except.pure, add_zero, h0, h1, h2, h3, h4,
    h5, h6, h7, gt_iff_lt, lt_self_iff_false, if_false, Nat.zero_or, be_value, List.foldl,
    Nat.zero_mul, Nat.zero_add]
  norm_num
  rw [shl_or b0 b1 (by omega) hb1, shl_or _ b2 (by omega) hb2, shl_or _ b3 (by omega) hb3,
    shl_or _ b4 (by omega) hb4, shl_or _ b5 (by omega) hb5, shl_or _ b6 (by omega) hb6,
    shl_or _ b7 (by omega) hb7]


theorem rd_nat (buf : List Nat) (i : Nat) (b : Nat) (h : buf[i]? = some b) :
    rd buf (i : Int) = .ok b := by
  simp [rd, h]

/-- C2: with transportid_len = 0, prout_work hands do_prout the parameter
length 24 and a buffer that is rk big-endian (bytes 0-7), sark big-endian
(bytes 8-15), zero except for byte 20, which holds 0x4 for ALL_TG_PT and 0x1
for APTPL and nothing else; for rk = 0x1122334455667788, sark = 0 and no flag
the first 24 bytes are 11 22 33 44 55 66 77 88 and sixteen zero bytes. -/
theorem register_block_no_transport_ids (execute : Transport) (prout_sa : Int)
    (prout_type rk sark : Nat) (alltgpt aptpl : Int) (tid : List Nat) (v : Int)
    (hsa : 0 ≤ prout_sa) :
    (∃ r h, prout_work execute prout_sa prout_type rk sark alltgpt aptpl tid 0 v = .ok r ∧
        r.sg_io = [h] ∧ h.dxfer_len = 24 ∧
        h.dxferp = big_endian 8 rk ++ big_endian 8 sark ++
          [0, 0, 0, 0, (if alltgpt ≠ 0 then 0x4 else 0) ||| (if aptpl ≠ 0 then 0x1 else 0),
           0, 0, 0] ++ List.replicate (MX_ALLOC_LEN - 24) 0) ∧
    (∃ r h, prout_work execute prout_sa prout_type 0x1122334455667788 0 0 0 tid 0 v = .ok r ∧
        r.sg_io = [h] ∧ h.dxfer_len = 24 ∧
        h.dxferp.take 24 = [0x11, 0x22, 0x33, 0x44, 0x55, 0x66, 0x77, 0x88,
                            0, 0, 0, 0, 0, 0, 0, 0, 0, 0, 0, 0, 0, 0, 0, 0]) := by
  constructor
  · obtain ⟨r, hr, hio⟩ := prout_work_no_tid execute prout_sa prout_type rk sark alltgpt
      aptpl tid 0 v hsa (le_refl 0)
    exact ⟨r, _, hr, hio, rfl, rfl⟩
  · obtain ⟨r, hr, hio⟩ := prout_work_no_tid execute prout_sa prout_type
      0x1122334455667788 0 0 0 tid 0 v hsa (le_refl 0)
    refine ⟨r, _, hr, hio, rfl, ?_⟩
    simp [prout_io_hdr, big_endian]

theorem register_block_no_transport_ids_witness :
    (∃ r h, prout_work (fun _ => (Outcome.Success, [])) 0 0 5 6 1 1 [] 0 0 = .ok r ∧
        r.sg_io = [h] ∧ h.dxfer_len = 24 ∧
        h.dxferp = big_endian 8 5 ++ big_endian 8 6 ++
          [0, 0, 0, 0, (if (1 : Int) ≠ 0 then 0x4 else 0) ||| (if (1 : Int) ≠ 0 then 0x1 else 0),
           0, 0, 0] ++ List.replicate (MX_ALLOC_LEN - 24) 0) ∧
    (∃ r h, prout_work (fun _ => (Outcome.Success, [])) 0 0 0x1122334455667788 0 0 0 [] 0 0
          = .ok r ∧
        r.sg_io = [h] ∧ h.dxfer_len = 24 ∧
        h.dxferp.take 24 = [0x11, 0x22, 0x33, 0x44, 0x55, 0x66, 0x77, 0x88,
                            0, 0, 0, 0, 0, 0, 0, 0, 0, 0, 0, 0, 0, 0, 0, 0]) :=
  register_block_no_transport_ids (fun _ => (Outcome.Success, [])) 0 0 5 6 1 1 [] 0 (by decide)

/-- C3: for a transport-id block of L bytes, 0 < L <= 8192 - 28, prout_work
writes L big-endian into bytes 24-27, copies the L bytes unchanged and in order
to bytes 28 .. 28+L-1, and hands do_prout the parameter length 24 + 4 + L. -/
theorem general_path_transport_id_layout (execute : Transport) (prout_sa : Int)
    (prout_type rk sark : Nat) (alltgpt aptpl : Int) (tid : List Nat) (L : Nat) (v : Int)
    (hsa : 0 ≤ prout_sa) (hL0 : 0 < L) (hL : L ≤ 8192 - 28) (hLt : L ≤ tid.length) :
    ∃ r h, prout_work execute prout_sa prout_type rk sark alltgpt aptpl tid (L : Int) v = .ok r ∧
      r.sg_io = [h] ∧ h.dxfer_len = 24 + 4 + (L : Int) ∧
      (h.dxferp.drop 24).take 4 = big_endian 4 L ∧
      (h.dxferp.drop 28).take L = tid.take L ∧
      (∀ i, i < L → h.dxferp[28 + i]? = tid[i]?) := by
  obtain ⟨r, hr, hio⟩ := prout_work_tid execute prout_sa prout_type rk sark alltgpt aptpl
    tid L v hsa hL0 hL hLt
  refine ⟨r, _, hr, hio, ?_, ?_, ?_, ?_⟩
  · simp only [prout_io_hdr]; ring
  · simp [prout_io_hdr, big_endian]
  · simp [prout_io_hdr, big_endian, List.take_append_eq_append_take, Nat.min_eq_left hLt]
  · intro i hi
    simp only [prout_io_hdr]
    rw [List.getElem?_append_right (by simp [big_endian])]
    have e : 28 + i - (big_endian 8 rk ++ big_endian 8 sark ++
        [0, 0, 0, 0, ((if alltgpt ≠ 0 then 4 else 0) ||| (if aptpl ≠ 0 then 1 else 0)) ||| 8,
          0, 0, 0] ++ big_endian 4 L).length = i := by
      simp [big_endian]
    rw [e, List.getElem?_append_left (by simp; omega), List.getElem?_take, if_pos hi]

theorem general_path_transport_id_layout_witness :
    ∃ r h, prout_work (fun _ => (Outcome.Success, [])) 0 0 1 2 0 0 [0x61, 0x62, 0x63]
        ((3 : Nat) : Int) 0 = .ok r ∧
      r.sg_io = [h] ∧ h.dxfer_len = 24 + 4 + ((3 : Nat) : Int) ∧
      (h.dxferp.drop 24).take 4 = big_endian 4 3 ∧
      (h.dxferp.drop 28).take 3 = [0x61, 0x62, 0x63].take 3 ∧
      (∀ i, i < 3 → h.dxferp[28 + i]? = [0x61, 0x62, 0x63][i]?) :=
  general_path_transport_id_layout (fun _ => (Outcome.Success, [])) 0 0 1 2 0 0
    [0x61, 0x62, 0x63] 3 0 (by decide) (by decide) (by decide) (by decide)


/-- C5: for a transport-id block of L bytes, 0 < L <= 8192 - 24, a relative
target port p and flags unreg and aptpl, prout_rmove_work writes L big-endian
into bytes 20-23, copies the L bytes unchanged to bytes 24 .. 24+L-1, sets
byte 17 to (unreg ? 0x2 : 0) | (aptpl ? 0x1 : 0), writes p big-endian into
bytes 18-19, leaves byte 16 zero, and hands do_prout service action 7 and the
parameter length 24 + L. -/
theorem register_and_move_layout (execute : Transport) (prout_type rk sark : Nat)
    (unreg aptpl : Int) (p : Nat) (tid : List Nat) (L : Nat) (v : Int)
    (hp : p < 65536) (hL0 : 0 < L) (hL : L ≤ 8192 - 24) (hLt : L ≤ tid.length) :
    ∃ r h, prout_rmove_work execute prout_type rk sark unreg aptpl p tid (L : Int) v = .ok r ∧
      r.sg_io = [h] ∧ h.dxfer_len = 24 + (L : Int) ∧
      h.cmdp[1]? = some 7 ∧
      h.dxferp[16]? = some 0 ∧
      h.dxferp[17]? = some ((if unreg ≠ 0 then 0x2 else 0) ||| (if aptpl ≠ 0 then 0x1 else 0)) ∧
      (h.dxferp.drop 18).take 2 = [p / 256, p % 256] ∧
      (h.dxferp.drop 20).take 4 = big_endian 4 L ∧
      (h.dxferp.drop 24).take L = tid.take L ∧
      (∀ i, i < L → h.dxferp[24 + i]? = tid[i]?) := by
  obtain ⟨r, hr, hio⟩ := prout_rmove_work_tid execute prout_type rk sark unreg aptpl p
    tid L v hL0 hL hLt
  have hp1 : p / 256 % 256 = p / 256 := Nat.mod_eq_of_lt (by omega)
  refine ⟨r, _, hr, hio, rfl, ?_, ?_, ?_, ?_, ?_, ?_, ?_⟩
  · simp [prout_io_hdr, proutCmdBlk, bits32]
    decide
  · simp only [prout_io_hdr]
    rw [List.getElem?_append_left (by simp [big_endian])]
    simp [big_endian]
  · simp only [prout_io_hdr]
    rw [List.getElem?_append_left (by simp [big_endian])]
    simp [big_endian]
  · simp [prout_io_hdr, big_endian, hp1]
  · simp [prout_io_hdr, big_endian]
  · simp [prout_io_hdr, big_endian, List.take_append_eq_append_take, Nat.min_eq_left hLt]
  · intro i hi
    simp only [prout_io_hdr]
    rw [List.getElem?_append_right (by simp [big_endian])]
    have e : 24 + i - (big_endian 8 rk ++ big_endian 8 sark ++
        [0, ((if unreg ≠ 0 then 2 else 0) ||| (if aptpl ≠ 0 then 1 else 0))] ++
        big_endian 2 p ++ big_endian 4 L).length = i := by
      simp [big_endian]
    rw [e, List.getElem?_append_left (by simp; omega), List.getElem?_take, if_pos hi]

theorem register_and_move_layout_witness :
    ∃ r h, prout_rmove_work (fun _ => (Outcome.Success, [])) 0 1 2 1 0 0x1234
        [0x61, 0x62, 0x63] ((3 : Nat) : Int) 0 = .ok r ∧
      r.sg_io = [h] ∧ h.dxfer_len = 24 + ((3 : Nat) : Int) ∧
      h.cmdp[1]? = some 7 ∧
      h.dxferp[16]? = some 0 ∧
      h.dxferp[17]? =
        some ((if (1 : Int) ≠ 0 then 0x2 else 0) ||| (if (0 : Int) ≠ 0 then 0x1 else 0)) ∧
      (h.dxferp.drop 18).take 2 = [0x1234 / 256, 0x1234 % 256] ∧
      (h.dxferp.drop 20).take 4 = big_endian 4 3 ∧
      (h.dxferp.drop 24).take 3 = [0x61, 0x62, 0x63].take 3 ∧
      (∀ i, i < 3 → h.dxferp[24 + i]? = [0x61, 0x62, 0x63][i]?) :=
  register_and_move_layout (fun _ => (Outcome.Success, [])) 0 1 2 1 0 0x1234
    [0x61, 0x62, 0x63] 3 0 (by decide) (by decide) (by decide) (by decide)


/-! ## Claims on the command blocks -/

theorem prinCmdBlk_eq (sa n : Nat) (hsa : sa < 4294967296) (hn : n < 4294967296) :
    prinCmdBlk (sa : Int) (n : Int) =
      [0x5E, sa % 32, 0, 0, 0, 0, 0, n / 256 % 256, n % 256, 0] := by
  unfold prinCmdBlk
  rw [bits32_nat sa hsa, bits32_nat n hn]
  by_cases h : (sa : Int) > 0
  · simp [h, and_31, and_255, shr_8]
  · have : sa = 0 := by omega
    subst this
    simp [and_255, shr_8]

theorem proutCmdBlk_eq (sa t n : Nat) (hsa : sa < 4294967296) (hn : n < 4294967296) :
    proutCmdBlk (sa : Int) 0 t (n : Int) =
      [0x5F, sa % 32, t % 16, 0, 0, 0, 0, n / 256 % 256, n % 256, 0] := by
  unfold proutCmdBlk
  rw [bits32_nat sa hsa, bits32_nat n hn]
  have h0 : bits32 0 = 0 := by decide
  have ht : t % 16 % 256 = t % 16 := Nat.mod_eq_of_lt (by omega)
  by_cases h : (sa : Int) > 0
  · simp [h, h0, and_31, and_15, and_255, shr_8, ht]
  · have : sa = 0 := by omega
    subst this
    simp [h0, and_15, and_255, shr_8, ht]

/-- A negative service action leaves byte 1 of the command block at 0: the
assignment is guarded by `rq_servact > 0`. -/
theorem prinCmdBlk_neg (neg : Int) (n : Nat) (hneg : neg < 0) (hn : n < 4294967296) :
    prinCmdBlk neg (n : Int) = [0x5E, 0, 0, 0, 0, 0, 0, n / 256 % 256, n % 256, 0] := by
  unfold prinCmdBlk
  rw [bits32_nat n hn]
  have h : ¬ neg > 0 := by omega
  simp [h, and_255, shr_8]

theorem proutCmdBlk_neg (neg : Int) (t n : Nat) (hneg : neg < 0) (hn : n < 4294967296) :
    proutCmdBlk neg 0 t (n : Int) =
      [0x5F, 0, t % 16, 0, 0, 0, 0, n / 256 % 256, n % 256, 0] := by
  unfold proutCmdBlk
  rw [bits32_nat n hn]
  have h0 : bits32 0 = 0 := by decide
  have ht : t % 16 % 256 = t % 16 := Nat.mod_eq_of_lt (by omega)
  have h : ¬ neg > 0 := by omega
  simp [h, h0, and_15, and_255, shr_8, ht]

/-- C7: for a service action sa <= 0x1f and an allocation length n <= 65535,
do_prin submits the 10-byte command block [0x5E, sa, 0, 0, 0, 0, 0, n >> 8,
n & 0xff, 0]; the low 5 bits of byte 1 are sa and bytes 7-8 read big-endian
give n. -/
theorem prin_command_block (execute : Transport) (sa n : Nat) (resp : List Nat)
    (noisy verbose : Int) (hsa : sa ≤ 0x1f) (hn : n ≤ 65535) :
    ∃ r h, do_prin execute (sa : Int) resp (n : Int) noisy verbose = .ok r ∧
      r.1.sg_io = [h] ∧ h.cmd_len = 10 ∧
      h.cmdp = [0x5E, sa, 0, 0, 0, 0, 0, n >>> 8, n &&& 0xff, 0] ∧
      h.cmdp.getD 1 0 &&& 0x1f = sa ∧
      be_value ((h.cmdp.drop 7).take 2) = n := by
  obtain ⟨r, hr, -, hio, -⟩ := do_prin_ok execute (sa : Int) resp (n : Int) noisy verbose
    (by omega)
  have hc := prinCmdBlk_eq sa n (by omega) (by omega)
  have e1 : sa % 32 = sa := Nat.mod_eq_of_lt (by omega)
  have e2 : n / 256 % 256 = n / 256 := Nat.mod_eq_of_lt (by omega)
  rw [e1, e2] at hc
  refine ⟨r, _, hr, hio, rfl, ?_, ?_, ?_⟩
  · simp only [prin_io_hdr, hc, and_255, shr_8]
  · simp only [prin_io_hdr, hc, and_31]
    simp [e1]
  · simp only [prin_io_hdr, hc]
    simp only [be_value, List.drop, List.take, List.foldl]
    omega

theorem prin_command_block_witness :
    ∃ r h, do_prin (fun _ => (Outcome.Success, [])) ((3 : Nat) : Int) [] ((8192 : Nat) : Int) 1 0
        = .ok r ∧
      r.1.sg_io = [h] ∧ h.cmd_len = 10 ∧
      h.cmdp = [0x5E, 3, 0, 0, 0, 0, 0, 8192 >>> 8, 8192 &&& 0xff, 0] ∧
      h.cmdp.getD 1 0 &&& 0x1f = 3 ∧
      be_value ((h.cmdp.drop 7).take 2) = 8192 :=
  prin_command_block (fun _ => (Outcome.Success, [])) 3 8192 [] 1 0 (by decide) (by decide)

/-- C9 (as stated, refuted): with service action 0x20 and length 0x10000 both
do_prin and do_prout return 0 and submit a command block, in which the
service action and the length read 0. -/
theorem command_encoder_accepts_out_of_range :
    (∃ r, do_prin (fun _ => (Outcome.Success, [])) 0x20 [] 0x10000 1 0 = .ok r ∧
        r.1.ret = 0 ∧ r.1.err = [] ∧
        r.1.sg_io.map (fun h => h.cmdp) = [[0x5E, 0, 0, 0, 0, 0, 0, 0, 0, 0]]) ∧
    (∃ r, do_prout (fun _ => (Outcome.Success, [])) 0x20 0 0 [] 0x10000 1 0 = .ok r ∧
        r.ret = 0 ∧ r.err = [] ∧
        r.sg_io.map (fun h => h.cmdp) = [[0x5F, 0, 0, 0, 0, 0, 0, 0, 0, 0]]) := by
  constructor
  · exact ⟨_, rfl, rfl, rfl, by decide⟩
  · exact ⟨_, rfl, rfl, rfl, by decide⟩

/-- C9 (amended): for every service action sa and every length n with
0 <= sa <= INT_MAX and 0 <= n <= INT_MAX, above 0x1f and above 65535
included, do_prin and do_prout (scope 0, any type t; with verbose > 1 the
parameter buffer holds the n bytes that are dumped) do not reject their
arguments: each submits one command block, whose byte 1 is sa modulo 32, whose
bytes 7-8 are n modulo 65536, big-endian, and whose byte 2 in do_prout is
t modulo 16, and returns 0 exactly when the device reports success or a
recovered error. For a negative service action the command block that is
built has 0 in byte 1, not the low five bits: the guard rq_servact > 0 skips
the assignment; the other bytes are as above. -/
theorem command_encoder_masks_arguments (execute : Transport) (sa n t : Nat)
    (resp paramp : List Nat) (noisy verbose : Int)
    (hsa : sa < 2 ^ 31) (hn : n < 2 ^ 31) (hv : verbose ≤ 1 ∨ (n : Int) ≤ paramp.length) :
    (∃ r h, do_prin execute (sa : Int) resp (n : Int) noisy verbose = .ok r ∧
        r.1.sg_io = [h] ∧
        h.cmdp = [0x5E, sa % 32, 0, 0, 0, 0, 0, n / 256 % 256, n % 256, 0] ∧
        (r.1.ret = 0 ↔ ((execute h).1 = .Success ∨ (execute h).1 = .RecoveredError))) ∧
    (∃ r h, do_prout execute (sa : Int) 0 t paramp (n : Int) noisy verbose = .ok r ∧
        r.sg_io = [h] ∧
        h.cmdp = [0x5F, sa % 32, t % 16, 0, 0, 0, 0, n / 256 % 256, n % 256, 0] ∧
        (r.ret = 0 ↔ ((execute h).1 = .Success ∨ (execute h).1 = .RecoveredError))) ∧
    (∀ neg : Int, neg < 0 →
        prinCmdBlk neg (n : Int) = [0x5E, 0, 0, 0, 0, 0, 0, n / 256 % 256, n % 256, 0] ∧
        proutCmdBlk neg 0 t (n : Int) =
          [0x5F, 0, t % 16, 0, 0, 0, 0, n / 256 % 256, n % 256, 0]) := by
  have hsa' : sa < 4294967296 := by
    have : (2 : Nat) ^ 31 = 2147483648 := by norm_num
    omega
  have hn' : n < 4294967296 := by
    have : (2 : Nat) ^ 31 = 2147483648 := by norm_num
    omega
  refine ⟨?_, ?_, ?_⟩
  · obtain ⟨r, hr, -, hio, hret, -⟩ := do_prin_ok execute (sa : Int) resp (n : Int) noisy
      verbose (by omega)
    exact ⟨r, _, hr, hio, prinCmdBlk_eq sa n hsa' hn', hret⟩
  · obtain ⟨r, hr, hio, hret⟩ := do_prout_ok execute (sa : Int) 0 t paramp (n : Int) noisy
      verbose (by omega) hv
    exact ⟨r, _, hr, hio, proutCmdBlk_eq sa t n hsa' hn', hret⟩
  · intro neg hneg
    exact ⟨prinCmdBlk_neg neg n hneg hn', proutCmdBlk_neg neg t n hneg hn'⟩

theorem command_encoder_masks_arguments_witness :
    (∃ r h, do_prin (fun _ => (Outcome.CheckCondition, [])) ((0x21 : Nat) : Int) []
          ((0x10203 : Nat) : Int) 1 0 = .ok r ∧
        r.1.sg_io = [h] ∧
        h.cmdp = [0x5E, 0x21 % 32, 0, 0, 0, 0, 0, 0x10203 / 256 % 256, 0x10203 % 256, 0] ∧
        (r.1.ret = 0 ↔
          (((fun _ => (Outcome.CheckCondition, [])) h : Outcome × List Nat).1 = .Success ∨
           ((fun _ => (Outcome.CheckCondition, [])) h : Outcome × List Nat).1
             = .RecoveredError))) ∧
    (∃ r h, do_prout (fun _ => (Outcome.CheckCondition, [])) ((0x21 : Nat) : Int) 0 0x13 []
          ((0x10203 : Nat) : Int) 1 0 = .ok r ∧
        r.sg_io = [h] ∧
        h.cmdp = [0x5F, 0x21 % 32, 0x13 % 16, 0, 0, 0, 0, 0x10203 / 256 % 256,
                  0x10203 % 256, 0] ∧
        (r.ret = 0 ↔
          (((fun _ => (Outcome.CheckCondition, [])) h : Outcome × List Nat).1 = .Success ∨
           ((fun _ => (Outcome.CheckCondition, [])) h : Outcome × List Nat).1
             = .RecoveredError))) ∧
    (∀ neg : Int, neg < 0 →
        prinCmdBlk neg ((0x10203 : Nat) : Int) =
          [0x5E, 0, 0, 0, 0, 0, 0, 0x10203 / 256 % 256, 0x10203 % 256, 0] ∧
        proutCmdBlk neg 0 0x13 ((0x10203 : Nat) : Int) =
          [0x5F, 0, 0x13 % 16, 0, 0, 0, 0, 0x10203 / 256 % 256, 0x10203 % 256, 0]) :=
  command_encoder_masks_arguments (fun _ => (Outcome.CheckCondition, [])) 0x21 0x10203 0x13
    [] [] 1 0 (by norm_num) (by norm_num) (Or.inl (by decide))


/-! ## main: the register-and-move check -/

theorem main_reg_move_reject (v : MainVars) (env : Env) (fuel : Nat)
    (hsa : v.prout_sa = PROUT_REG_MOVE_SA) (hout : v.want_prout = 1) (hin : v.want_prin = 0)
    (hn1 : v.num_prout_sa = 1) (hn2 : v.num_prin_sa = 0)
    (hdev : v.device_name ≠ "") (hargs : v.args = [])
    (hnum : v.num_transportids ≠ 1) :
    main v env fuel = .ok
      { ret := 1, out := [],
        err := [.printf
          "with --register-move one (and only one) --transport-id should be given\n" [],
          .usage],
        sg_io := [] } := by
  have hnum' : ¬ (1 = v.num_transportids) := fun h => hnum h.symm
  unfold main
  simp [hsa, hout, hin, hn1, hn2, hdev, hargs, hnum', reject]

theorem main_reg_move_dispatch (v : MainVars) (env : Env) (fuel : Nat)
    (hsa : v.prout_sa = PROUT_REG_MOVE_SA) (hout : v.want_prout = 1) (hin : v.want_prin = 0)
    (hn1 : v.num_prout_sa = 1) (hn2 : v.num_prin_sa = 0)
    (hdev : v.device_name ≠ "") (hargs : v.args = [])
    (hinq : v.do_inquiry = 0 ∨ (env.open_ro = true ∧ env.inquiry.isSome = true))
    (hrw : env.open_rw = true)
    (hnum : v.num_transportids = 1) (r : Run Int)
    (h : main v env fuel = .ok r) :
    ∃ r1, prout_rmove_work env.execute v.prout_type v.param_rk v.param_sark
        v.param_unreg v.param_aptpl v.param_rtp v.transportid_arr
        v.transportid_arr_len v.do_verbose = .ok r1 ∧ r.sg_io = r1.sg_io ∧ r.ret = r1.ret := by
  unfold main at h
  have hq : v.do_inquiry = 0 ∨ ∃ q, env.open_ro = true ∧ env.inquiry = some q := by
    rcases hinq with hi | ⟨hro, hiq⟩
    · exact Or.inl hi
    · obtain ⟨q, hq⟩ := Option.isSome_iff_exists.mp hiq
      exact Or.inr ⟨q, hro, hq⟩
  cases hw : prout_rmove_work env.execute v.prout_type v.param_rk v.param_sark
        v.param_unreg v.param_aptpl v.param_rtp v.transportid_arr
        v.transportid_arr_len v.do_verbose <;>
    cases hd : decode_transport_id v.transportid_arr 0 v.transportid_arr_len <;>
    rcases hq with hi | ⟨q, hro, hq⟩ <;>
    simp [hsa, hout, hin, hn1, hn2, hdev, hargs, hnum, reject, hrw, hw, hd, bind,
      Except.bind, Functor.map, Except.map, pure, Except.pure, *] at h <;>
    split_ifs at h <;>
    (try simp at h) <;>
    (try (subst h; exact ⟨_, rfl, rfl, rfl⟩))

theorem main_reg_move_run (v : MainVars) (env : Env) (fuel : Nat)
    (hsa : v.prout_sa = PROUT_REG_MOVE_SA) (hout : v.want_prout = 1) (hin : v.want_prin = 0)
    (hn1 : v.num_prout_sa = 1) (hn2 : v.num_prin_sa = 0)
    (hdev : v.device_name ≠ "") (hargs : v.args = [])
    (hinq : v.do_inquiry = 0 ∨ (env.open_ro = true ∧ env.inquiry.isSome = true))
    (hrw : env.open_rw = true) (hverb : v.do_verbose ≤ 2)
    (hnum : v.num_transportids = 1) (r1 : Run Int)
    (hw : prout_rmove_work env.execute v.prout_type v.param_rk v.param_sark
        v.param_unreg v.param_aptpl v.param_rtp v.transportid_arr
        v.transportid_arr_len v.do_verbose = .ok r1) :
    ∃ r, main v env fuel = .ok r ∧ r.sg_io = r1.sg_io ∧ r.ret = r1.ret := by
  have hv : ¬ (2 < v.do_verbose) := by omega
  have hq : v.do_inquiry = 0 ∨ ∃ q, env.open_ro = true ∧ env.inquiry = some q := by
    rcases hinq with hi | ⟨hro, hiq⟩
    · exact Or.inl hi
    · obtain ⟨q, hq⟩ := Option.isSome_iff_exists.mp hiq
      exact Or.inr ⟨q, hro, hq⟩
  unfold main
  rcases hq with hi | ⟨q, hro, hq⟩ <;>
    simp [hsa, hout, hin, hn1, hn2, hdev, hargs, hnum, reject, hrw, hw, hv, bind,
      Except.bind, Functor.map, Except.map, pure, Except.pure, *] <;>
    split_ifs <;> simp

/-- C6: in an invocation that selects register-and-move (--out with the one
service action --register-move, a device named and nothing left over on the
command line) and whose device can be opened (and answers the INQUIRY unless
that is skipped), main returns 1 without submitting any command if and only
if the number of transport ids is not 1; it then stops at the check of that
number. With exactly one transport id that fits the parameter block, the
register-and-move command (service action 7) is submitted. -/
theorem register_move_requires_one_transport_id (v : MainVars) (env : Env) (fuel : Nat)
    (hsa : v.prout_sa = PROUT_REG_MOVE_SA) (hout : v.want_prout = 1) (hin : v.want_prin = 0)
    (hn1 : v.num_prout_sa = 1) (hn2 : v.num_prin_sa = 0)
    (hdev : v.device_name ≠ "") (hargs : v.args = [])
    (hinq : v.do_inquiry = 0 ∨ (env.open_ro = true ∧ env.inquiry.isSome = true))
    (hrw : env.open_rw = true) :
    ((∃ r, main v env fuel = .ok r ∧ r.ret = 1 ∧ r.sg_io = []) ↔ v.num_transportids ≠ 1) ∧
    (v.num_transportids ≠ 1 →
      main v env fuel = .ok
        { ret := 1, out := [],
          err := [.printf
            "with --register-move one (and only one) --transport-id should be given\n" [],
            .usage],
          sg_io := [] }) ∧
    (v.num_transportids = 1 → v.do_verbose ≤ 2 →
      0 < v.transportid_arr_len → v.transportid_arr_len ≤ 8192 - 24 →
      v.transportid_arr_len ≤ v.transportid_arr.length →
      ∃ r h, main v env fuel = .ok r ∧ r.sg_io = [h] ∧ h.cmdp[1]? = some 7 ∧
        h.dxfer_len = 24 + v.transportid_arr_len) := by
  refine ⟨⟨?_, ?_⟩, ?_, ?_⟩
  · rintro ⟨r, hr, -, hio⟩ hnum
    obtain ⟨r1, h1, h2, -⟩ := main_reg_move_dispatch v env fuel hsa hout hin hn1 hn2 hdev
      hargs hinq hrw hnum r hr
    have := prout_rmove_work_sg_io _ _ _ _ _ _ _ _ _ _ _ h1
    rw [← h2, hio] at this
    simp at this
  · intro hnum
    exact ⟨_, main_reg_move_reject v env fuel hsa hout hin hn1 hn2 hdev hargs hnum, rfl, rfl⟩
  · exact main_reg_move_reject v env fuel hsa hout hin hn1 hn2 hdev hargs
  · intro hnum hverb hpos hfit hlen
    obtain ⟨L, hL⟩ := Int.eq_ofNat_of_zero_le (le_of_lt hpos)
    obtain ⟨r1, hr1, hio1⟩ := prout_rmove_work_tid env.execute v.prout_type v.param_rk
      v.param_sark v.param_unreg v.param_aptpl v.param_rtp v.transportid_arr L v.do_verbose
      (by omega) (by show L ≤ 8192 - 24; omega) (by omega)
    rw [← hL] at hr1
    obtain ⟨r, hr, hio, -⟩ := main_reg_move_run v env fuel hsa hout hin hn1 hn2 hdev hargs
      hinq hrw hverb hnum r1 hr1
    refine ⟨r, _, hr, hio.trans hio1, ?_, ?_⟩
    · simp [prout_io_hdr, proutCmdBlk, bits32]
      decide
    · simp [prout_io_hdr, hL]

theorem register_move_requires_one_transport_id_witness :
    ((∃ r, main
        { prout_type := 0, param_rk := 1, param_sark := 2, param_rtp := 0,
          device_name := "/dev/sg0", num_prin_sa := 0, num_prout_sa := 1,
          num_prout_param := 3, want_prin := 0, want_prout := 1, prin_sa := -1,
          prout_sa := 7, param_alltgpt := 0, param_aptpl := 0, param_unreg := 0,
          do_inquiry := 0, do_hex := 0, do_verbose := 0, transportid_arr := [],
          transportid_arr_len := 0, num_transportids := 2, args := [] }
        { open_ro := true, inquiry := none, open_rw := true,
          execute := fun _ => (Outcome.Success, []) } 0 = .ok r ∧ r.ret = 1 ∧ r.sg_io = []) ↔
      (2 : Int) ≠ 1) ∧
    ((2 : Int) ≠ 1 →
      main
        { prout_type := 0, param_rk := 1, param_sark := 2, param_rtp := 0,
          device_name := "/dev/sg0", num_prin_sa := 0, num_prout_sa := 1,
          num_prout_param := 3, want_prin := 0, want_prout := 1, prin_sa := -1,
          prout_sa := 7, param_alltgpt := 0, param_aptpl := 0, param_unreg := 0,
          do_inquiry := 0, do_hex := 0, do_verbose := 0, transportid_arr := [],
          transportid_arr_len := 0, num_transportids := 2, args := [] }
        { open_ro := true, inquiry := none, open_rw := true,
          execute := fun _ => (Outcome.Success, []) } 0 = .ok
        { ret := 1, out := [],
          err := [.printf
            "with --register-move one (and only one) --transport-id should be given\n" [],
            .usage],
          sg_io := [] }) ∧
    ((2 : Int) = 1 → (0 : Int) ≤ 2 →
      (0 : Int) < 0 → (0 : Int) ≤ 8192 - 24 →
      (0 : Int) ≤ ([] : List Nat).length →
      ∃ r h, main
        { prout_type := 0, param_rk := 1, param_sark := 2, param_rtp := 0,
          device_name := "/dev/sg0", num_prin_sa := 0, num_prout_sa := 1,
          num_prout_param := 3, want_prin := 0, want_prout := 1, prin_sa := -1,
          prout_sa := 7, param_alltgpt := 0, param_aptpl := 0, param_unreg := 0,
          do_inquiry := 0, do_hex := 0, do_verbose := 0, transportid_arr := [],
          transportid_arr_len := 0, num_transportids := 2, args := [] }
        { open_ro := true, inquiry := none, open_rw := true,
          execute := fun _ => (Outcome.Success, []) } 0 = .ok r ∧ r.sg_io = [h] ∧
        h.cmdp[1]? = some 7 ∧ h.dxfer_len = 24 + (0 : Int)) :=
  register_move_requires_one_transport_id
    { prout_type := 0, param_rk := 1, param_sark := 2, param_rtp := 0,
      device_name := "/dev/sg0", num_prin_sa := 0, num_prout_sa := 1,
      num_prout_param := 3, want_prin := 0, want_prout := 1, prin_sa := -1,
      prout_sa := 7, param_alltgpt := 0, param_aptpl := 0, param_unreg := 0,
      do_inquiry := 0, do_hex := 0, do_verbose := 0, transportid_arr := [],
      transportid_arr_len := 0, num_transportids := 2, args := [] }
    { open_ro := true, inquiry := none, open_rw := true,
      execute := fun _ => (Outcome.Success, []) } 0
    rfl rfl rfl rfl rfl (by decide) rfl (Or.inl rfl) rfl

/-! ## prin_work: Read Keys -/

theorem rd_at (buf : List Nat) (off j : Nat) (h : off + j < buf.length) :
    rd buf ((off : Int) + (j : Int)) = .ok (buf[off + j]) := by
  have e : ((off : Int) + (j : Int)).toNat = off + j := by omega
  have h0 : (0 : Int) ≤ (off : Int) + (j : Int) := by omega
  simp only [rd, h0, if_true, e, List.getElem?_eq_getElem h]

theorem drop_take_8 (buf : List Nat) (off : Nat) (h : off + 8 ≤ buf.length) :
    (buf.drop off).take 8 =
      [buf[off], buf[off + 1], buf[off + 2], buf[off + 3], buf[off + 4], buf[off + 5],
       buf[off + 6], buf[off + 7]] := by
  apply List.ext_getElem?
  intro i
  rw [List.getElem?_take, List.getElem?_drop]
  by_cases hi : i < 8
  · rw [if_pos hi, List.getElem?_eq_getElem (by omega)]
    interval_cases i <;> simp
  · rw [if_neg hi]
    symm
    apply List.getElem?_eq_none
    simp; omega

theorem drop_take_4 (buf : List Nat) (off : Nat) (h : off + 4 ≤ buf.length) :
    (buf.drop off).take 4 = [buf[off], buf[off + 1], buf[off + 2], buf[off + 3]] := by
  apply List.ext_getElem?
  intro i
  rw [List.getElem?_take, List.getElem?_drop]
  by_cases hi : i < 4
  · rw [if_pos hi, List.getElem?_eq_getElem (by omega)]
    interval_cases i <;> simp
  · rw [if_neg hi]
    symm
    apply List.getElem?_eq_none
    simp; omega

theorem ull_loop_eq (buf : List Nat) (off : Nat) (h : off + 8 ≤ buf.length)
    (hb : ∀ b ∈ buf, b < 256) :
    ull_loop buf (off : Int) = .ok (be_value ((buf.drop off).take 8)) := by
  rw [drop_take_8 buf off h]
  have r0 := rd_at buf off 0 (by omega)
  simp only [Nat.cast_zero, add_zero, Nat.add_zero] at r0
  exact ull_loop_bytes buf off _ _ _ _ _ _ _ _ r0
    (by simpa using rd_at buf off 1 (by omega)) (by simpa using rd_at buf off 2 (by omega))
    (by simpa using rd_at buf off 3 (by omega)) (by simpa using rd_at buf off 4 (by omega))
    (by simpa using rd_at buf off 5 (by omega)) (by simpa using rd_at buf off 6 (by omega))
    (by simpa using rd_at buf off 7 (by omega))
    (hb _ (List.getElem_mem _)) (hb _ (List.getElem_mem _)) (hb _ (List.getElem_mem _))
    (hb _ (List.getElem_mem _)) (hb _ (List.getElem_mem _)) (hb _ (List.getElem_mem _))
    (hb _ (List.getElem_mem _)) (hb _ (List.getElem_mem _))

theorem or_bytes_4 (b0 b1 b2 b3 : Nat) (h0 : b0 < 256) (h1 : b1 < 256) (h2 : b2 < 256)
    (h3 : b3 < 256) :
    ((b0 <<< 24) ||| (b1 <<< 16) ||| (b2 <<< 8) ||| b3) % 4294967296 =
      ((b0 * 256 + b1) * 256 + b2) * 256 + b3 := by
  simp only [Nat.shiftLeft_eq]
  have e1 : b0 * 2 ^ 24 ||| b1 * 2 ^ 16 = 2 ^ 16 * (b0 * 256 + b1) := by
    have := Nat.mul_add_lt_is_or (i := 24) (b := b1 * 2 ^ 16) (by omega) b0
    rw [Nat.mul_comm b0, ← this]; ring
  have e2 : 2 ^ 16 * (b0 * 256 + b1) ||| b2 * 2 ^ 8 = 2 ^ 8 * ((b0 * 256 + b1) * 256 + b2) := by
    have := Nat.mul_add_lt_is_or (i := 16) (b := b2 * 2 ^ 8) (by omega) (b0 * 256 + b1)
    rw [← this]; ring
  have e3 : 2 ^ 8 * ((b0 * 256 + b1) * 256 + b2) ||| b3 =
      ((b0 * 256 + b1) * 256 + b2) * 256 + b3 := by
    have := Nat.mul_add_lt_is_or (i := 8) (b := b3) (by omega) ((b0 * 256 + b1) * 256 + b2)
    rw [← this]; ring
  rw [e1, e2, e3]
  omega

theorem rd_32_eq (buf : List Nat) (off : Nat) (h : off + 4 ≤ buf.length)
    (hb : ∀ b ∈ buf, b < 256) :
    rd_32 buf (off : Int) = .ok (be_value ((buf.drop off).take 4)) := by
  rw [drop_take_4 buf off h]
  have r0 := rd_at buf off 0 (by omega)
  simp only [Nat.cast_zero, add_zero, Nat.add_zero] at r0
  have r1 : rd buf ((off : Int) + 1) = .ok (buf[off + 1]) := by
    simpa using rd_at buf off 1 (by omega)
  have r2 : rd buf ((off : Int) + 2) = .ok (buf[off + 2]) := by
    simpa using rd_at buf off 2 (by omega)
  have r3 : rd buf ((off : Int) + 3) = .ok (buf[off + 3]) := by
    simpa using rd_at buf off 3 (by omega)
  unfold rd_32
  simp only [r0, r1, r2, r3, bind, Except.bind, pure, Except.pure]
  rw [or_bytes_4 _ _ _ _ (hb _ (List.getElem_mem _)) (hb _ (List.getElem_mem _))
    (hb _ (List.getElem_mem _)) (hb _ (List.getElem_mem _))]
  simp [be_value]

theorem fill_resp_length (resp data : List Nat) (mx : Int) :
    (fill_resp resp data mx).length = resp.length := by
  simp only [fill_resp, List.length_append, List.length_drop, List.length_take]
  omega

theorem toInt32_small (a : Nat) (h : a < 2147483648) : toInt32 a = (a : Int) := by
  unfold toInt32
  have e : a % 4294967296 = a := Nat.mod_eq_of_lt (by omega)
  rw [e, if_pos h]

theorem prin_work_rkey_loop_eq (buf : List Nat) (hb : ∀ b ∈ buf, b < 256) :
    ∀ (todo off : Nat), off + 8 * todo ≤ buf.length →
      prin_work_rkey_loop buf todo (off : Int) = .ok
        ((List.range todo).map (fun i =>
          Line.printf "    0x%llx\n" [.int (be_value ((buf.drop (off + 8 * i)).take 8))])) := by
  intro todo
  induction todo with
  | zero => intro off _; rfl
  | succ n ih =>
    intro off h
    have h8 := ull_loop_eq buf off (by omega) hb
    have hrest := ih (off + 8) (by omega)
    have e : ((off + 8 : Nat) : Int) = (off : Int) + 8 := by push_cast; rfl
    rw [e] at hrest
    simp only [prin_work_rkey_loop, h8, hrest, bind, Except.bind, pure, Except.pure,
      List.range_succ_eq_map, List.map_cons, List.map_map, Nat.mul_zero, Nat.add_zero]
    congr 2
    apply List.map_congr_left
    intro i _
    simp only [Function.comp, Nat.succ_eq_add_one]
    congr 4
    ring_nf


theorem prin_work_rkey_eq (buf : List Nat) (hb : ∀ b ∈ buf, b < 256) (pr_gen N r : Nat)
    (hr : r < 8) (hfit : 8 + 8 * N + r ≤ buf.length) :
    prin_work_rkey buf pr_gen ((8 * N + r : Nat) : Int) = .ok
      (Line.printf "  PR generation=0x%x, " [.int pr_gen] ::
        (if N = 0 then [Line.printf "there are NO registered reservation keys\n" []]
         else
           (if N = 1 then Line.printf "1 registered reservation key follows:\n" []
            else Line.printf "%d registered reservation keys follow:\n" [.int N]) ::
           (List.range N).map (fun i =>
             Line.printf "    0x%llx\n" [.int (be_value ((buf.drop (8 + 8 * i)).take 8))]))) := by
  have hnum : Int.tdiv ((8 * N + r : Nat) : Int) 8 = (N : Int) := by
    rw [Int.tdiv_eq_ediv (by omega) (by decide)]
    omega
  have hloop := prin_work_rkey_loop_eq buf hb N 8 (by omega)
  unfold prin_work_rkey
  simp only [hnum, Int.toNat_ofNat]
  by_cases hN : N = 0
  · subst hN
    simp
    rfl
  · have hpos : (N : Int) > 0 := by omega
    have h1 : ((1 : Int) = (N : Int)) ↔ N = 1 := by omega
    simp only [hpos, if_true, hN, if_false, h1, bind, Except.bind, pure, Except.pure]
    have e : ((8 : Nat) : Int) = 8 := rfl
    rw [e] at hloop
    rw [hloop]

/-- C10: when the additional-length field of the response is 8N + r with
r < 8 and 8 + 8N + r <= 8192, the Read Keys branch of prin_work returns 0 and
prints the generation, the count line for N keys and then exactly N keys, the
i-th being the big-endian value of bytes 8+8i .. 15+8i; the r bytes after the
last key are not looked at. -/
theorem read_keys_decode (execute : Transport) (buf : List Nat) (N r : Nat)
    (do_verbose : Int) (fuel : Nat)
    (hdev : (execute (prin_io_hdr PRIN_RKEY_SA (List.replicate MX_ALLOC_LEN 0)
        MX_ALLOC_LEN)).1 = .Success ∨
      (execute (prin_io_hdr PRIN_RKEY_SA (List.replicate MX_ALLOC_LEN 0)
        MX_ALLOC_LEN)).1 = .RecoveredError)
    (hbuf : fill_resp (List.replicate MX_ALLOC_LEN 0)
      (execute (prin_io_hdr PRIN_RKEY_SA (List.replicate MX_ALLOC_LEN 0) MX_ALLOC_LEN)).2
      MX_ALLOC_LEN = buf)
    (hb : ∀ b ∈ buf, b < 256)
    (hlen : be_value ((buf.drop 4).take 4) = 8 * N + r) (hr : r < 8)
    (hfit : 8 + 8 * N + r ≤ 8192) :
    ∃ R, prin_work execute PRIN_RKEY_SA do_verbose 0 fuel = .ok R ∧ R.ret = 0 ∧
      R.out =
        Line.printf "  PR generation=0x%x, " [.int (be_value (buf.take 4))] ::
        (if N = 0 then [Line.printf "there are NO registered reservation keys\n" []]
         else
           (if N = 1 then Line.printf "1 registered reservation key follows:\n" []
            else Line.printf "%d registered reservation keys follow:\n" [.int N]) ::
           (List.range N).map (fun i =>
             Line.printf "    0x%llx\n" [.int (be_value ((buf.drop (8 + 8 * i)).take 8))])) := by
  obtain ⟨r0, hr0, hout0, -, hret0, hresp0⟩ := do_prin_ok execute PRIN_RKEY_SA
    (List.replicate MX_ALLOC_LEN 0) MX_ALLOC_LEN 1 do_verbose (by decide)
  have hz : r0.1.ret = 0 := hret0.mpr hdev
  have hb2 : r0.2 = buf := by rw [hresp0 hz]; exact hbuf
  have hlen8192 : buf.length = 8192 := by
    rw [← hbuf, fill_resp_length]; simp
  have hgen := rd_32_eq buf 0 (by omega) hb
  have hadd := rd_32_eq buf 4 (by omega) hb
  rw [hlen] at hadd
  have hkeys := prin_work_rkey_eq buf hb (be_value ((buf.drop 0).take 4)) N r hr (by omega)
  have hti : toInt32 (8 * N + r) = ((8 * N + r : Nat) : Int) := toInt32_small _ (by omega)
  rcases r0 with ⟨run0, resp0⟩
  simp only at hz hb2 hout0
  subst hb2
  unfold prin_work
  simp only [hr0, bind, Except.bind, pure, Except.pure, hz]
  simp only [Nat.cast_zero, Nat.cast_ofNat, List.drop_zero] at hgen hadd hkeys
  have hne : ¬ (PRIN_RCAP_SA = PRIN_RKEY_SA) := by decide
  simp only [ne_eq, not_true_eq_false, if_false, hgen, hadd, hti, hkeys, hout0,
    List.nil_append, hne, if_true]
  exact ⟨_, rfl, rfl, rfl⟩

theorem fill_resp_short (n : Nat) (data : List Nat) (mx : Int) (h1 : data.length ≤ n)
    (h2 : data.length ≤ mx.toNat) :
    fill_resp (List.replicate n 0) data mx = data ++ List.replicate (n - data.length) 0 := by
  simp only [fill_resp, List.length_replicate]
  rw [List.take_of_length_le h2, List.take_of_length_le h1, List.drop_replicate]

theorem read_keys_decode_witness :
    ∃ R, prin_work (fun _ => (Outcome.Success,
        [0, 0, 0, 5, 0, 0, 0, 17, 1, 2, 3, 4, 5, 6, 7, 8, 0xff, 0xfe, 0, 0, 0, 0, 0, 1, 9]))
        PRIN_RKEY_SA 0 0 0 = .ok R ∧ R.ret = 0 ∧
      R.out =
        Line.printf "  PR generation=0x%x, " [.int (be_value ((
          [0, 0, 0, 5, 0, 0, 0, 17, 1, 2, 3, 4, 5, 6, 7, 8, 0xff, 0xfe, 0, 0, 0, 0, 0, 1, 9] ++
            List.replicate 8167 0).take 4))] ::
        (if 2 = 0 then [Line.printf "there are NO registered reservation keys\n" []]
         else
           (if 2 = 1 then Line.printf "1 registered reservation key follows:\n" []
            else Line.printf "%d registered reservation keys follow:\n" [.int (2 : Nat)]) ::
           (List.range 2).map (fun i =>
             Line.printf "    0x%llx\n" [.int (be_value (((
               [0, 0, 0, 5, 0, 0, 0, 17, 1, 2, 3, 4, 5, 6, 7, 8, 0xff, 0xfe, 0, 0, 0, 0, 0, 1,
                9] ++ List.replicate 8167 0).drop (8 + 8 * i)).take 8))])) :=
  read_keys_decode (fun _ => (Outcome.Success,
      [0, 0, 0, 5, 0, 0, 0, 17, 1, 2, 3, 4, 5, 6, 7, 8, 0xff, 0xfe, 0, 0, 0, 0, 0, 1, 9]))
    ([0, 0, 0, 5, 0, 0, 0, 17, 1, 2, 3, 4, 5, 6, 7, 8, 0xff, 0xfe, 0, 0, 0, 0, 0, 1, 9] ++
      List.replicate 8167 0)
    2 1 0 0 (Or.inl rfl)
    (fill_resp_short MX_ALLOC_LEN _ _ (by decide) (by decide))
    (by
      intro b hb
      rcases List.mem_append.mp hb with h | h
      · simp only [List.mem_cons, List.mem_singleton, List.not_mem_nil, or_false] at h
        omega
      · rw [List.eq_of_mem_replicate h]; decide)
    (by rfl) (by decide) (by decide)

/-! ## prin_work: the state after do_prin -/

/-- After a successful `do_prin` the buffer holds the response, and the two
32-bit fields at its start are read as their big-endian values. -/
theorem prin_work_after (execute : Transport) (prin_sa : Int) (buf : List Nat)
    (do_verbose : Int) (hsa : 0 ≤ prin_sa) (h : prin_response execute prin_sa buf) :
    ∃ r0 : Run Int,
      do_prin execute prin_sa (List.replicate MX_ALLOC_LEN 0) MX_ALLOC_LEN 1 do_verbose
        = .ok (r0, buf) ∧
      r0.ret = 0 ∧ r0.out = [] ∧
      r0.sg_io = [prin_io_hdr prin_sa (List.replicate MX_ALLOC_LEN 0) MX_ALLOC_LEN] ∧
      buf.length = 8192 ∧
      rd_32 buf 0 = .ok (be_value (buf.take 4)) ∧
      rd_32 buf 4 = .ok (be_value ((buf.drop 4).take 4)) := by
  obtain ⟨hdev, hbuf, hb⟩ := h
  obtain ⟨r0, hr0, hout0, hio0, hret0, hresp0⟩ := do_prin_ok execute prin_sa
    (List.replicate MX_ALLOC_LEN 0) MX_ALLOC_LEN 1 do_verbose hsa
  have hz : r0.1.ret = 0 := hret0.mpr hdev
  have hb2 : r0.2 = buf := by rw [hresp0 hz]; exact hbuf
  have hlen : buf.length = 8192 := by
    rw [← hbuf, fill_resp_length]; simp
  have hgen := rd_32_eq buf 0 (by omega) hb
  have hadd := rd_32_eq buf 4 (by omega) hb
  simp only [Nat.cast_zero, Nat.cast_ofNat, List.drop_zero] at hgen hadd
  rcases r0 with ⟨run0, resp0⟩
  simp only at hz hb2 hout0 hio0
  subst hb2
  exact ⟨run0, hr0, hz, hout0, hio0, hlen, hgen, hadd⟩

/-- `prin_work` for a service action other than Report Capabilities, once
the response is in the buffer: what is left is the decoding branch. -/
theorem prin_work_noncap (execute : Transport) (prin_sa : Int) (buf : List Nat)
    (do_verbose do_hex : Int) (fuel : Nat) (hsa : 0 ≤ prin_sa) (hne : ¬ (PRIN_RCAP_SA = prin_sa))
    (h : prin_response execute prin_sa buf) :
    ∃ r0 : Run Int,
      r0.sg_io = [prin_io_hdr prin_sa (List.replicate MX_ALLOC_LEN 0) MX_ALLOC_LEN] ∧
      prin_work execute prin_sa do_verbose do_hex fuel =
        (if do_hex ≠ 0 then do
          let o ← prin_work_hex buf (be_value (buf.take 4))
            (toInt32 (be_value ((buf.drop 4).take 4)))
          pure { ret := 0, out := o, err := r0.err, sg_io := r0.sg_io }
        else if PRIN_RKEY_SA = prin_sa then do
          let o ← prin_work_rkey buf (be_value (buf.take 4))
            (toInt32 (be_value ((buf.drop 4).take 4)))
          pure { ret := 0, out := o, err := r0.err, sg_io := r0.sg_io }
        else if PRIN_RRES_SA = prin_sa then do
          let o ← prin_work_rres buf (be_value (buf.take 4))
            (toInt32 (be_value ((buf.drop 4).take 4)))
          pure { ret := 0, out := o, err := r0.err, sg_io := r0.sg_io }
        else if PRIN_RFSTAT_SA = prin_sa then do
          let (o, e) ← prin_work_rfstat_loop buf
            (toInt32 (be_value ((buf.drop 4).take 4))) fuel 0 8
          pure { ret := 0,
                 out := [.printf "  PR generation=0x%x\n" [.int (be_value (buf.take 4))]] ++ o,
                 err := r0.err ++ e, sg_io := r0.sg_io }
        else pure { ret := 0, out := [], err := r0.err, sg_io := r0.sg_io }) := by
  obtain ⟨r0, hr0, hz, hout0, hio0, -, hgen, hadd⟩ :=
    prin_work_after execute prin_sa buf do_verbose hsa h
  refine ⟨r0, hio0, ?_⟩
  unfold prin_work
  simp only [hr0, bind, Except.bind, pure, Except.pure, hz, ne_eq, not_true_eq_false,
    if_false, hne, hgen, hadd, hout0, List.nil_append]


/-- `prin_work` for Report Capabilities, once the response is in the buffer. -/
theorem prin_work_cap (execute : Transport) (buf : List Nat)
    (do_verbose do_hex : Int) (fuel : Nat) (h : prin_response execute PRIN_RCAP_SA buf) :
    ∃ r0 : Run Int,
      r0.sg_io = [prin_io_hdr PRIN_RCAP_SA (List.replicate MX_ALLOC_LEN 0) MX_ALLOC_LEN] ∧
      prin_work execute PRIN_RCAP_SA do_verbose do_hex fuel =
        (do
          let (ret, o, e) ← prin_work_rcap buf do_hex
          pure { ret := ret, out := o, err := r0.err ++ e, sg_io := r0.sg_io }) := by
  obtain ⟨r0, hr0, hz, hout0, hio0, -, -, -⟩ :=
    prin_work_after execute PRIN_RCAP_SA buf do_verbose (by decide) h
  refine ⟨r0, hio0, ?_⟩
  unfold prin_work
  simp only [hr0, bind, Except.bind, pure, Except.pure, hz, ne_eq, not_true_eq_false,
    if_false, if_true, hout0, List.nil_append]


/-! ## Bits, nibbles and table lookups -/

theorem bit_set_eq (b k : Nat) : bit_set b (2 ^ k) = bit_of b k := by
  unfold bit_set bit_of
  rw [Nat.and_two_pow]
  cases h : b.testBit k <;> simp

theorem testBit_low (lo hi t : Nat) (h : lo < 256) (ht : t < 8) :
    (lo + 256 * hi).testBit t = lo.testBit t := by
  have := Nat.testBit_mul_pow_two_add hi (i := 8) (b := lo) (by simpa using h) t
  rw [Nat.add_comm]
  simp only [Nat.reducePow] at this
  rw [this, if_pos ht]

theorem testBit_high (lo hi t : Nat) (h : lo < 256) :
    (lo + 256 * hi).testBit (8 + t) = hi.testBit t := by
  have := Nat.testBit_mul_pow_two_add hi (i := 8) (b := lo) (by simpa using h) (8 + t)
  rw [Nat.add_comm]
  simp only [Nat.reducePow] at this
  rw [this, if_neg (by omega)]
  congr 1
  omega

theorem scope_type_lines_eq (indent : String) (b : Nat) (hb : b < 256) :
    scope_type_lines indent b = .ok
      [(if b / 16 = 0 then Line.printf (indent ++ "scope: LU_SCOPE, ") []
        else Line.printf (indent ++ "scope: %d ") [.int (b / 16 : Nat)]),
       Line.printf " type: %s\n" [.str (pr_type_strs.getD (b % 16) "")]] := by
  have e1 : (b >>> 4) &&& 0xf = b / 16 := by
    have e : b >>> 4 = b / 16 := Nat.shiftRight_eq_div_pow b 4
    rw [and_15, e]
    exact Nat.mod_eq_of_lt (by omega)
  have e2 : b &&& 0xf = b % 16 := and_15 b
  have hlt : b % 16 < pr_type_strs.length := by
    have : pr_type_strs.length = 16 := rfl
    rw [this]; exact Nat.mod_lt _ (by decide)
  have e3 : rdStr pr_type_strs ((b % 16 : Nat) : Int) = .ok (pr_type_strs.getD (b % 16) "") := by
    unfold rdStr
    rw [if_pos (by omega)]
    simp only [Int.toNat_ofNat, List.getElem?_eq_getElem hlt, List.getD_eq_getElem?_getD,
      Option.getD_some]
  unfold scope_type_lines
  simp only [e1, e2, e3, bind, Except.bind, pure, Except.pure]
  by_cases h0 : b / 16 = 0
  · simp [h0]
  · rw [if_neg h0, if_neg (Ne.symm h0)]

/-! ## prin_work: Read Reservation -/

theorem getD_eq_getElem (buf : List Nat) (i : Nat) (h : i < buf.length) :
    buf.getD i 0 = buf[i] := by
  simp [List.getD_eq_getElem?_getD, List.getElem?_eq_getElem h]

theorem rd_getD (buf : List Nat) (i : Nat) (h : i < buf.length) :
    rd buf (i : Int) = .ok (buf.getD i 0) := by
  rw [getD_eq_getElem buf i h]
  simpa using rd_at buf i 0 (by omega)

theorem getD_lt (buf : List Nat) (hb : ∀ b ∈ buf, b < 256) (i : Nat) : buf.getD i 0 < 256 := by
  by_cases h : i < buf.length
  · rw [getD_eq_getElem buf i h]; exact hb _ (List.getElem_mem _)
  · simp [List.getD_eq_getElem?_getD, List.getElem?_eq_none (by omega : buf.length ≤ i)]

/-- The Read Reservation branch on a buffer of at least 24 bytes: a descriptor
is reported when the additional length, as an int, is 16 or more. -/
theorem prin_work_rres_eq (buf : List Nat) (hb : ∀ b ∈ buf, b < 256) (pr_gen A : Nat)
    (hlen : 24 ≤ buf.length) (hA : A < 4294967296) :
    prin_work_rres buf pr_gen (toInt32 A) = .ok
      (if 16 ≤ A ∧ A < 2147483648 then
        [Line.printf "  PR generation=0x%x, " [.int pr_gen],
         Line.printf "Reservation follows:\n" [],
         Line.printf "    Key=0x%llx\n" [.int (be_value ((buf.drop 8).take 8))],
         (if buf.getD 21 0 / 16 = 0 then Line.printf "    scope: LU_SCOPE, " []
          else Line.printf "    scope: %d " [.int (buf.getD 21 0 / 16 : Nat)]),
         Line.printf " type: %s\n" [.str (pr_type_strs.getD (buf.getD 21 0 % 16) "")]]
       else
        [Line.printf "  PR generation=0x%x, " [.int pr_gen],
         Line.printf "there is NO reservation held\n" []]) := by
  unfold prin_work_rres
  by_cases h : 16 ≤ A ∧ A < 2147483648
  · have hti : toInt32 A = (A : Int) := toInt32_small A h.2
    have hnum : Int.tdiv (A : Int) 16 > 0 := by
      rw [Int.tdiv_eq_ediv (by omega) (by decide)]
      omega
    have h8 := ull_loop_eq buf 8 (by omega) hb
    have h21 : rd buf ((8 : Int) + 13) = .ok (buf.getD 21 0) := rd_getD buf 21 (by omega)
    have hst := scope_type_lines_eq "    " (buf.getD 21 0) (getD_lt buf hb 21)
    have e8 : ((8 : Nat) : Int) = 8 := rfl
    rw [e8] at h8
    simp only [hti, hnum, if_true, h8, h21, hst, bind, Except.bind, pure, Except.pure, h,
      and_self]
    rfl
  · have hnum : ¬ (Int.tdiv (toInt32 A) 16 > 0) := by
      unfold toInt32
      rw [Nat.mod_eq_of_lt hA]
      split_ifs with h1
      · rw [Int.tdiv_eq_ediv (by omega) (by decide)]
        omega
      · have e : ((A : Int) - 4294967296) = -(4294967296 - (A : Int)) := by ring
        have := Int.tdiv_nonneg (by omega : (0 : Int) ≤ 4294967296 - (A : Int))
          (by decide : (0 : Int) ≤ 16)
        rw [e, Int.neg_tdiv]
        omega
    simp only [hnum, if_false, h, pure, Except.pure]


theorem be_value_4_lt (buf : List Nat) (off : Nat) (h : off + 4 ≤ buf.length)
    (hb : ∀ b ∈ buf, b < 256) : be_value ((buf.drop off).take 4) < 4294967296 := by
  rw [drop_take_4 buf off h]
  have h0 := hb _ (List.getElem_mem (by omega : off < buf.length))
  have h1 := hb _ (List.getElem_mem (by omega : off + 1 < buf.length))
  have h2 := hb _ (List.getElem_mem (by omega : off + 2 < buf.length))
  have h3 := hb _ (List.getElem_mem (by omega : off + 3 < buf.length))
  simp only [be_value, List.foldl_cons, List.foldl_nil]
  omega

theorem prin_response_length (execute : Transport) (prin_sa : Int) (buf : List Nat)
    (h : prin_response execute prin_sa buf) : buf.length = 8192 := by
  obtain ⟨-, hbuf, -⟩ := h
  rw [← hbuf, fill_resp_length]; simp

/-- A device that answers with the bytes data leaves them at the start of the
zeroed response buffer. -/
theorem prin_response_short (prin_sa : Int) (data : List Nat) (h1 : data.length ≤ MX_ALLOC_LEN)
    (hb : ∀ b ∈ data, b < 256) :
    prin_response (fun _ => (Outcome.Success, data)) prin_sa
      (data ++ List.replicate (MX_ALLOC_LEN - data.length) 0) := by
  refine ⟨Or.inl rfl, fill_resp_short MX_ALLOC_LEN data MX_ALLOC_LEN h1 (by simpa using h1), ?_⟩
  intro b hmem
  rcases List.mem_append.mp hmem with h | h
  · exact hb b h
  · rw [List.eq_of_mem_replicate h]; decide

/-- The run of `prin_work` for Read Reservation without `--hex`. -/
theorem prin_work_rres_run (execute : Transport) (buf : List Nat) (do_verbose : Int)
    (fuel : Nat) (h : prin_response execute PRIN_RRES_SA buf) :
    ∃ R, prin_work execute PRIN_RRES_SA do_verbose 0 fuel = .ok R ∧ R.ret = 0 ∧
      R.out =
        (if 16 ≤ be_value ((buf.drop 4).take 4) ∧ be_value ((buf.drop 4).take 4) < 2147483648 then
          [Line.printf "  PR generation=0x%x, " [.int (be_value (buf.take 4))],
           Line.printf "Reservation follows:\n" [],
           Line.printf "    Key=0x%llx\n" [.int (be_value ((buf.drop 8).take 8))],
           (if buf.getD 21 0 / 16 = 0 then Line.printf "    scope: LU_SCOPE, " []
            else Line.printf "    scope: %d " [.int (buf.getD 21 0 / 16 : Nat)]),
           Line.printf " type: %s\n" [.str (pr_type_strs.getD (buf.getD 21 0 % 16) "")]]
         else
          [Line.printf "  PR generation=0x%x, " [.int (be_value (buf.take 4))],
           Line.printf "there is NO reservation held\n" []]) := by
  have hlen := prin_response_length execute _ buf h
  obtain ⟨r0, -, hwork⟩ := prin_work_noncap execute PRIN_RRES_SA buf do_verbose 0 fuel
    (by decide) (by decide) h
  have hrres := prin_work_rres_eq buf h.2.2 (be_value (buf.take 4))
    (be_value ((buf.drop 4).take 4)) (by omega) (be_value_4_lt buf 4 (by omega) h.2.2)
  have hne : ¬ (PRIN_RKEY_SA = PRIN_RRES_SA) := by decide
  rw [hwork]
  simp only [ne_eq, not_true_eq_false, if_false, hne, if_true, hrres, bind, Except.bind,
    pure, Except.pure]
  exact ⟨_, rfl, rfl, rfl⟩

/-- C12: when the additional-length field of the response is 0, whatever the
generation and the other bytes, the Read Reservation branch of prin_work
returns 0 and prints the generation followed by the line that no reservation
is held, and no descriptor. -/
theorem read_reservation_none (execute : Transport) (buf : List Nat) (do_verbose : Int)
    (fuel : Nat) (h : prin_response execute PRIN_RRES_SA buf)
    (hlen : be_value ((buf.drop 4).take 4) = 0) :
    ∃ R, prin_work execute PRIN_RRES_SA do_verbose 0 fuel = .ok R ∧ R.ret = 0 ∧
      R.out = [Line.printf "  PR generation=0x%x, " [.int (be_value (buf.take 4))],
               Line.printf "there is NO reservation held\n" []] := by
  obtain ⟨R, hR, hret, hout⟩ := prin_work_rres_run execute buf do_verbose fuel h
  refine ⟨R, hR, hret, ?_⟩
  rw [hout, hlen, if_neg (by omega)]

theorem read_reservation_none_witness :
    ∃ R, prin_work (fun _ => (Outcome.Success, [0, 0, 0, 7, 0, 0, 0, 0, 0xaa, 0xbb, 0xcc]))
        PRIN_RRES_SA 0 0 0 = .ok R ∧ R.ret = 0 ∧
      R.out = [Line.printf "  PR generation=0x%x, " [.int 7],
               Line.printf "there is NO reservation held\n" []] :=
  read_reservation_none (fun _ => (Outcome.Success, [0, 0, 0, 7, 0, 0, 0, 0, 0xaa, 0xbb, 0xcc]))
    ([0, 0, 0, 7, 0, 0, 0, 0, 0xaa, 0xbb, 0xcc] ++ List.replicate (MX_ALLOC_LEN - 11) 0) 0 0
    (prin_response_short PRIN_RRES_SA _ (by decide) (by decide)) (by rfl)

/-- C13, counterexample: a Read Reservation response whose additional-length
field is 8, which is not zero, is reported as holding no reservation; no
descriptor is decoded. -/
theorem read_reservation_short_length_no_descriptor :
    ∃ R, prin_work (fun _ => (Outcome.Success,
        [0, 0, 0, 1, 0, 0, 0, 8, 1, 2, 3, 4, 5, 6, 7, 8])) PRIN_RRES_SA 0 0 0 = .ok R ∧
      R.ret = 0 ∧
      R.out = [Line.printf "  PR generation=0x%x, " [.int 1],
               Line.printf "there is NO reservation held\n" []] := by
  obtain ⟨R, hR, hret, hout⟩ := prin_work_rres_run
    (fun _ => (Outcome.Success, [0, 0, 0, 1, 0, 0, 0, 8, 1, 2, 3, 4, 5, 6, 7, 8]))
    ([0, 0, 0, 1, 0, 0, 0, 8, 1, 2, 3, 4, 5, 6, 7, 8] ++ List.replicate (MX_ALLOC_LEN - 16) 0)
    0 0 (prin_response_short PRIN_RRES_SA _ (by decide) (by decide))
  refine ⟨R, hR, hret, ?_⟩
  rw [hout]
  rfl

/-- C13, amended: when the additional-length field of the response is at least
16 (and below 2^31, so that it is positive as an int), the Read Reservation
branch of prin_work returns 0 and reports exactly one descriptor: the key is
the big-endian value of buffer bytes 8-15, the scope is the high nibble of
buffer byte 21 (0 is printed as LU_SCOPE) and the type is the entry of
pr_type_strs at the low nibble of buffer byte 21. -/
theorem read_reservation_descriptor (execute : Transport) (buf : List Nat) (do_verbose : Int)
    (fuel : Nat) (h : prin_response execute PRIN_RRES_SA buf)
    (hlo : 16 ≤ be_value ((buf.drop 4).take 4))
    (hhi : be_value ((buf.drop 4).take 4) < 2147483648) :
    ∃ R, prin_work execute PRIN_RRES_SA do_verbose 0 fuel = .ok R ∧ R.ret = 0 ∧
      R.out =
        [Line.printf "  PR generation=0x%x, " [.int (be_value (buf.take 4))],
         Line.printf "Reservation follows:\n" [],
         Line.printf "    Key=0x%llx\n" [.int (be_value ((buf.drop 8).take 8))],
         (if buf.getD 21 0 / 16 = 0 then Line.printf "    scope: LU_SCOPE, " []
          else Line.printf "    scope: %d " [.int (buf.getD 21 0 / 16 : Nat)]),
         Line.printf " type: %s\n" [.str (pr_type_strs.getD (buf.getD 21 0 % 16) "")]] := by
  obtain ⟨R, hR, hret, hout⟩ := prin_work_rres_run execute buf do_verbose fuel h
  refine ⟨R, hR, hret, ?_⟩
  rw [hout, if_pos ⟨hlo, hhi⟩]

theorem read_reservation_descriptor_witness :
    ∃ R, prin_work (fun _ => (Outcome.Success,
        [0, 0, 0, 2, 0, 0, 0, 16, 0, 0, 0, 0, 0, 0, 0xab, 0xcd, 0, 0, 0, 0, 0, 0x03, 0, 0]))
        PRIN_RRES_SA 0 0 0 = .ok R ∧ R.ret = 0 ∧
      R.out =
        [Line.printf "  PR generation=0x%x, " [.int 2],
         Line.printf "Reservation follows:\n" [],
         Line.printf "    Key=0x%llx\n" [.int 0xabcd],
         Line.printf "    scope: LU_SCOPE, " [],
         Line.printf " type: %s\n" [.str "Exclusive Access"]] :=
  read_reservation_descriptor (fun _ => (Outcome.Success,
      [0, 0, 0, 2, 0, 0, 0, 16, 0, 0, 0, 0, 0, 0, 0xab, 0xcd, 0, 0, 0, 0, 0, 0x03, 0, 0]))
    ([0, 0, 0, 2, 0, 0, 0, 16, 0, 0, 0, 0, 0, 0, 0xab, 0xcd, 0, 0, 0, 0, 0, 0x03, 0, 0] ++
      List.replicate (MX_ALLOC_LEN - 24) 0) 0 0
    (prin_response_short PRIN_RRES_SA _ (by decide) (by decide)) (by decide) (by decide)

/-! ## prin_work: an additional length beyond the buffer -/

theorem rd_oob (buf : List Nat) (i : Nat) (h : buf.length ≤ i) :
    rd buf (i : Int) = .error .oob := by
  unfold rd
  rw [if_pos (by omega)]
  simp only [Int.toNat_ofNat, List.getElem?_eq_none h]

theorem ull_loop_oob (buf : List Nat) (off : Nat) (h : buf.length ≤ off) :
    ull_loop buf (off : Int) = .error .oob := by
  have r0 := rd_oob buf off h
  unfold ull_loop
  simp only [List.foldlM, bind, Except.bind, add_zero, r0]

/-- The loop of the Read Keys branch with more passes to make than keys fit
between ucp and the end of the buffer: the pass after the last key that fits
reads outside the buffer. -/
theorem prin_work_rkey_loop_oob (buf : List Nat) (hb : ∀ b ∈ buf, b < 256) :
    ∀ (m todo off : Nat), off + 8 * m = buf.length → m < todo →
      prin_work_rkey_loop buf todo (off : Int) = .error .oob := by
  intro m
  induction m with
  | zero =>
    intro todo off h hlt
    obtain ⟨t, rfl⟩ : ∃ t, todo = t + 1 := ⟨todo - 1, by omega⟩
    have h8 := ull_loop_oob buf off (by omega)
    simp only [prin_work_rkey_loop, h8, bind, Except.bind]
  | succ n ih =>
    intro todo off h hlt
    obtain ⟨t, rfl⟩ : ∃ t, todo = t + 1 := ⟨todo - 1, by omega⟩
    have h8 := ull_loop_eq buf off (by omega) hb
    have hrest := ih t (off + 8) (by omega) (by omega)
    have e : ((off + 8 : Nat) : Int) = (off : Int) + 8 := by push_cast; rfl
    rw [e] at hrest
    simp only [prin_work_rkey_loop, h8, hrest, bind, Except.bind]

theorem dStrHex_eq (buf : List Nat) (off len : Nat) (no_ascii : Int)
    (h : off + len ≤ buf.length) :
    dStrHex buf (off : Int) (len : Int) no_ascii =
      .ok (.dStrHex ((buf.drop off).take len) no_ascii) := by
  unfold dStrHex
  by_cases h0 : (len : Int) ≤ 0
  · have : len = 0 := by omega
    subst this
    simp
  · rw [if_neg h0, if_pos ⟨by omega, by omega⟩]
    simp only [Int.toNat_ofNat]

/-- C11: a Read Keys response whose additional-length field is 8192 or more
(and positive as an int) makes the Read Keys branch of prin_work read
`pr_buff` at index 8192, outside the array, while the hex branch, given
the same response, clamps the length and dumps the 8184 bytes that are there. -/
theorem read_keys_reads_past_buffer (execute : Transport) (buf : List Nat) (do_verbose : Int)
    (fuel : Nat) (h : prin_response execute PRIN_RKEY_SA buf)
    (hlo : 8192 ≤ be_value ((buf.drop 4).take 4))
    (hhi : be_value ((buf.drop 4).take 4) < 2147483648) :
    prin_work execute PRIN_RKEY_SA do_verbose 0 fuel = .error .oob ∧
    ∃ R, prin_work execute PRIN_RKEY_SA do_verbose 1 fuel = .ok R ∧ R.ret = 0 ∧
      R.out =
        [Line.printf "  PR generation=0x%x, " [.int (be_value (buf.take 4))],
         Line.printf "Additional length too large=%d, truncate\n"
           [.int (be_value ((buf.drop 4).take 4))],
         Line.dStrHex ((buf.drop 8).take 8184) 1] := by
  have hlen := prin_response_length execute _ buf h
  have hti := toInt32_small _ hhi
  constructor
  · obtain ⟨r0, -, hwork⟩ := prin_work_noncap execute PRIN_RKEY_SA buf do_verbose 0 fuel
      (by decide) (by decide) h
    rw [hwork]
    have hnum : Int.tdiv ((be_value ((buf.drop 4).take 4) : Nat) : Int) 8 =
        ((be_value ((buf.drop 4).take 4) / 8 : Nat) : Int) := by
      rw [Int.tdiv_eq_ediv (by omega) (by decide)]
      omega
    have hloop := prin_work_rkey_loop_oob buf h.2.2 1023
      (be_value ((buf.drop 4).take 4) / 8) 8 (by omega) (by omega)
    have e8 : ((8 : Nat) : Int) = 8 := rfl
    rw [e8] at hloop
    have hpos : ((be_value ((buf.drop 4).take 4) / 8 : Nat) : Int) > 0 := by omega
    simp only [ne_eq, not_true_eq_false, if_false, if_true, hti, prin_work_rkey, hnum, hpos,
      Int.toNat_ofNat, hloop, bind, Except.bind]
  · obtain ⟨r0, -, hwork⟩ := prin_work_noncap execute PRIN_RKEY_SA buf do_verbose 1 fuel
      (by decide) (by decide) h
    rw [hwork]
    have hd := dStrHex_eq buf 8 8184 1 (by omega)
    have e8 : ((8 : Nat) : Int) = 8 := rfl
    have e2 : ((8184 : Nat) : Int) = (MX_ALLOC_LEN : Int) - 8 := rfl
    rw [e8, e2] at hd
    have hgt : ((be_value ((buf.drop 4).take 4) : Nat) : Int) > (MX_ALLOC_LEN : Int) - 8 := by
      have : ((MX_ALLOC_LEN : Nat) : Int) = 8192 := rfl
      omega
    have hnp : ¬ (((be_value ((buf.drop 4).take 4) : Nat) : Int) ≤ 0) := by omega
    have h10 : ¬ ((1 : Int) = 0) := by decide
    simp only [ne_eq, h10, not_false_eq_true, if_true, hti, prin_work_hex, hgt, hnp, if_false,
      hd, bind, Except.bind, pure, Except.pure, List.append_nil, List.singleton_append,
      List.cons_append, List.nil_append]
    exact ⟨_, rfl, rfl, rfl⟩


theorem read_keys_reads_past_buffer_witness :
    prin_work (fun _ => (Outcome.Success, [0, 0, 0, 1, 0, 0, 0x20, 0])) PRIN_RKEY_SA 0 0 0
      = .error .oob ∧
    ∃ R, prin_work (fun _ => (Outcome.Success, [0, 0, 0, 1, 0, 0, 0x20, 0])) PRIN_RKEY_SA 0 1 0
        = .ok R ∧ R.ret = 0 ∧
      R.out =
        [Line.printf "  PR generation=0x%x, " [.int 1],
         Line.printf "Additional length too large=%d, truncate\n" [.int 8192],
         Line.dStrHex ((([0, 0, 0, 1, 0, 0, 0x20, 0] ++
           List.replicate (MX_ALLOC_LEN - 8) 0).drop 8).take 8184) 1] :=
  read_keys_reads_past_buffer (fun _ => (Outcome.Success, [0, 0, 0, 1, 0, 0, 0x20, 0]))
    ([0, 0, 0, 1, 0, 0, 0x20, 0] ++ List.replicate (MX_ALLOC_LEN - 8) 0) 0 0
    (prin_response_short PRIN_RKEY_SA _ (by decide) (by decide)) (by decide) (by decide)

/-! ## prin_work: Report Capabilities -/

/-- The lines of the six flags of a Report Capabilities response with the
bytes b2 and b3 at offsets 2 and 3. -/
theorem rcap_mask (b : Nat) :
    bit_set b 0x80 = bit_of b 7 ∧ bit_set b 0x40 = bit_of b 6 ∧ bit_set b 0x20 = bit_of b 5 ∧
    bit_set b 0x10 = bit_of b 4 ∧ bit_set b 0x8 = bit_of b 3 ∧ bit_set b 0x4 = bit_of b 2 ∧
    bit_set b 0x2 = bit_of b 1 ∧ bit_set b 0x1 = bit_of b 0 :=
  ⟨bit_set_eq b 7, bit_set_eq b 6, bit_set_eq b 5, bit_set_eq b 4, bit_set_eq b 3,
   bit_set_eq b 2, bit_set_eq b 1, bit_set_eq b 0⟩

theorem and_128 (b : Nat) : (b &&& 0x80 ≠ 0) ↔ b.testBit 7 = true := by
  have := Nat.and_two_pow b 7
  simp only [Nat.reducePow] at this
  rw [this]
  cases b.testBit 7 <;> simp

/-- The Report Capabilities branch on a buffer of at least 8 bytes. -/
theorem prin_work_rcap_eq (buf : List Nat) (hlen : 8 ≤ buf.length) (do_hex : Int) :
    prin_work_rcap buf do_hex = .ok
      (if 8 ≠ buf.getD 1 0 then
        (1, [], [Line.printf "Unexpected response for PRIN Report Capabilities\n" []])
       else if do_hex ≠ 0 then (0, [Line.dStrHex (buf.take 8) 1], [])
       else
        (0,
         [Line.printf "Report capabilities response:\n" [],
          Line.printf "  Compatible Reservation handling(CRH): %d\n"
            [.int (bit_of (buf.getD 2 0) 4)],
          Line.printf "  Specify Initiator Ports capable(SIP_C): %d\n"
            [.int (bit_of (buf.getD 2 0) 3)],
          Line.printf "  All target ports capable(ATP_C): %d\n"
            [.int (bit_of (buf.getD 2 0) 2)],
          Line.printf "  Persist Through Power Loss capable(PTPL_C): %d\n"
            [.int (bit_of (buf.getD 2 0) 0)],
          Line.printf "  Type Mask Valid(TMV): %d\n" [.int (bit_of (buf.getD 3 0) 7)],
          Line.printf "  Persist Through Power Loss active(PTPL_A): %d\n"
            [.int (bit_of (buf.getD 3 0) 0)]] ++
         (if (buf.getD 3 0).testBit 7 then
           [Line.printf "    Support indicated in Type mask:\n" [],
            Line.printf "      %s: %d\n"
              [.str (pr_type_strs.getD 7 ""), .int (bit_of (buf.getD 4 0) 7)],
            Line.printf "      %s: %d\n"
              [.str (pr_type_strs.getD 6 ""), .int (bit_of (buf.getD 4 0) 6)],
            Line.printf "      %s: %d\n"
              [.str (pr_type_strs.getD 5 ""), .int (bit_of (buf.getD 4 0) 5)],
            Line.printf "      %s: %d\n"
              [.str (pr_type_strs.getD 3 ""), .int (bit_of (buf.getD 4 0) 3)],
            Line.printf "      %s: %d\n"
              [.str (pr_type_strs.getD 1 ""), .int (bit_of (buf.getD 4 0) 1)],
            Line.printf "      %s: %d\n"
              [.str (pr_type_strs.getD 8 ""), .int (bit_of (buf.getD 5 0) 0)]]
          else []), [])) := by
  have r1 : rd buf 1 = .ok (buf.getD 1 0) := rd_getD buf 1 (by omega)
  have r2 : rd buf 2 = .ok (buf.getD 2 0) := rd_getD buf 2 (by omega)
  have r3 : rd buf 3 = .ok (buf.getD 3 0) := rd_getD buf 3 (by omega)
  have r4 : rd buf 4 = .ok (buf.getD 4 0) := rd_getD buf 4 (by omega)
  have r5 : rd buf 5 = .ok (buf.getD 5 0) := rd_getD buf 5 (by omega)
  have hd : dStrHex buf 0 8 1 = .ok (.dStrHex (buf.take 8) 1) := by
    simpa using dStrHex_eq buf 0 8 1 (by omega)
  have s7 : rdStr pr_type_strs 7 = .ok (pr_type_strs.getD 7 "") := rfl
  have s6 : rdStr pr_type_strs 6 = .ok (pr_type_strs.getD 6 "") := rfl
  have s5 : rdStr pr_type_strs 5 = .ok (pr_type_strs.getD 5 "") := rfl
  have s3 : rdStr pr_type_strs 3 = .ok (pr_type_strs.getD 3 "") := rfl
  have s1 : rdStr pr_type_strs 1 = .ok (pr_type_strs.getD 1 "") := rfl
  have s8 : rdStr pr_type_strs 8 = .ok (pr_type_strs.getD 8 "") := rfl
  obtain ⟨m7, m6, m5, m4, m3, m2, m1, m0⟩ := rcap_mask (buf.getD 2 0)
  obtain ⟨n7, n6, n5, n4, n3, n2, n1, n0⟩ := rcap_mask (buf.getD 3 0)
  obtain ⟨p7, p6, p5, p4, p3, p2, p1, p0⟩ := rcap_mask (buf.getD 4 0)
  obtain ⟨q7, q6, q5, q4, q3, q2, q1, q0⟩ := rcap_mask (buf.getD 5 0)
  unfold prin_work_rcap
  simp only [r1, r2, r3, r4, r5, hd, s7, s6, s5, s3, s1, s8, bind, Except.bind, pure,
    Except.pure, m4, m3, m2, m0, n7, n0, p7, p6, p5, p3, p1, q0, and_128]
  clear r1 r2 r3 r4 r5 m7 m6 m5 m4 m3 m2 m1 m0 n7 n6 n5 n4 n3 n2 n1 n0 p7 p6 p5 p4 p3 p2 p1 p0
    q7 q6 q5 q4 q3 q2 q1 q0
  generalize buf.getD 1 0 = b1
  generalize buf.getD 2 0 = b2
  generalize buf.getD 3 0 = b3
  generalize buf.getD 4 0 = b4
  generalize buf.getD 5 0 = b5
  by_cases h8 : 8 = b1
  · subst h8
    by_cases hh : do_hex = 0
    · subst hh
      by_cases ht : b3.testBit 7 = true
      · simp only [ne_eq, not_true_eq_false, if_false, ht, if_true]
      · simp only [ne_eq, not_true_eq_false, if_false, ht, List.append_nil]
        rfl
    · simp only [ne_eq, not_true_eq_false, if_false, hh, not_false_eq_true, if_true]
  · simp only [ne_eq, h8, not_false_eq_true, if_true]

/-- The run of `prin_work` for Report Capabilities: return value and standard
output are those of the Report Capabilities branch. -/
theorem prin_work_rcap_run (execute : Transport) (buf : List Nat) (do_verbose do_hex : Int)
    (fuel : Nat) (h : prin_response execute PRIN_RCAP_SA buf) :
    ∃ R ret o e, prin_work_rcap buf do_hex = .ok (ret, o, e) ∧
      prin_work execute PRIN_RCAP_SA do_verbose do_hex fuel = .ok R ∧ R.ret = ret ∧ R.out = o := by
  have hlen := prin_response_length execute _ buf h
  obtain ⟨r0, -, hwork⟩ := prin_work_cap execute buf do_verbose do_hex fuel h
  have hcap := prin_work_rcap_eq buf (by omega) do_hex
  rw [hwork]
  generalize prin_work_rcap buf do_hex = x at hcap ⊢
  subst hcap
  exact ⟨_, _, _, _, rfl, rfl, rfl, rfl⟩

/-- C14: the Report Capabilities branch of prin_work returns 1 exactly when
byte 1 of the response is not 8, and then it prints nothing on standard output
(no flag is decoded); when byte 1 is 8 it returns 0, whatever the other bytes
are, with or without `--hex`. -/
theorem report_capabilities_length_check (execute : Transport) (buf : List Nat)
    (do_verbose do_hex : Int) (fuel : Nat) (h : prin_response execute PRIN_RCAP_SA buf) :
    ∃ R, prin_work execute PRIN_RCAP_SA do_verbose do_hex fuel = .ok R ∧
      (R.ret = 1 ↔ buf.getD 1 0 ≠ 8) ∧ (buf.getD 1 0 ≠ 8 → R.out = []) ∧
      (buf.getD 1 0 = 8 → R.ret = 0 ∧ R.out ≠ []) := by
  have hlen := prin_response_length execute _ buf h
  obtain ⟨R, ret, o, e, hcap, hR, hret, hout⟩ :=
    prin_work_rcap_run execute buf do_verbose do_hex fuel h
  rw [prin_work_rcap_eq buf (by omega) do_hex] at hcap
  refine ⟨R, hR, ?_⟩
  by_cases h8 : buf.getD 1 0 = 8
  · rw [if_neg (not_not.mpr h8.symm)] at hcap
    by_cases hh : do_hex = 0
    · rw [if_neg (not_not.mpr hh)] at hcap
      injection hcap with hcap
      injection hcap with h1 h2
      injection h2 with h2 h3
      subst h1 h2
      rw [hret, hout]
      exact ⟨⟨fun h => absurd h (by decide), fun h => absurd h8 h⟩, fun h => absurd h8 h,
        fun _ => ⟨rfl, List.cons_ne_nil _ _⟩⟩
    · rw [if_pos hh] at hcap
      injection hcap with hcap
      injection hcap with h1 h2
      injection h2 with h2 h3
      subst h1 h2
      rw [hret, hout]
      exact ⟨⟨fun h => absurd h (by decide), fun h => absurd h8 h⟩, fun h => absurd h8 h,
        fun _ => ⟨rfl, List.cons_ne_nil _ _⟩⟩
  · rw [if_pos (Ne.symm h8)] at hcap
    injection hcap with hcap
    injection hcap with h1 h2
    injection h2 with h2 h3
    subst h1 h2
    rw [hret, hout]
    exact ⟨⟨fun _ => h8, fun _ => rfl⟩, fun _ => rfl, fun h => absurd h h8⟩

theorem report_capabilities_length_check_witness :
    ∃ R, prin_work (fun _ => (Outcome.Success, [0, 7, 0x11, 0x81, 0x0a, 0x01, 0, 0]))
        PRIN_RCAP_SA 0 0 0 = .ok R ∧
      (R.ret = 1 ↔ ([0, 7, 0x11, 0x81, 0x0a, 0x01, 0, 0] ++
          List.replicate (MX_ALLOC_LEN - 8) 0).getD 1 0 ≠ 8) ∧
      (([0, 7, 0x11, 0x81, 0x0a, 0x01, 0, 0] ++
          List.replicate (MX_ALLOC_LEN - 8) 0).getD 1 0 ≠ 8 → R.out = []) ∧
      (([0, 7, 0x11, 0x81, 0x0a, 0x01, 0, 0] ++
          List.replicate (MX_ALLOC_LEN - 8) 0).getD 1 0 = 8 → R.ret = 0 ∧ R.out ≠ []) :=
  report_capabilities_length_check
    (fun _ => (Outcome.Success, [0, 7, 0x11, 0x81, 0x0a, 0x01, 0, 0]))
    ([0, 7, 0x11, 0x81, 0x0a, 0x01, 0, 0] ++ List.replicate (MX_ALLOC_LEN - 8) 0) 0 0 0
    (prin_response_short PRIN_RCAP_SA _ (by decide) (by decide))

/-- C16: for a Report Capabilities response with byte 1 = 8, prin_work returns
0 and prints CRH, SIP_C, ATP_C and PTPL_C as bits 4, 3, 2 and 0 of byte 2 and
TMV and PTPL_A as bits 7 and 0 of byte 3; the per-type lines are printed
exactly when bit 7 of byte 3 is set, and then the line of reservation type t,
for t = 7, 6, 5, 3, 1, 8 in this order, carries bit t of the 16-bit value
byte 4 + 256 * byte 5. Nothing else of the response enters the output. -/
theorem report_capabilities_bit_table (execute : Transport) (buf : List Nat)
    (do_verbose : Int) (fuel : Nat) (h : prin_response execute PRIN_RCAP_SA buf)
    (h8 : buf.getD 1 0 = 8) :
    ∃ R, prin_work execute PRIN_RCAP_SA do_verbose 0 fuel = .ok R ∧ R.ret = 0 ∧
      R.out =
        [Line.printf "Report capabilities response:\n" [],
         Line.printf "  Compatible Reservation handling(CRH): %d\n"
           [.int (bit_of (buf.getD 2 0) 4)],
         Line.printf "  Specify Initiator Ports capable(SIP_C): %d\n"
           [.int (bit_of (buf.getD 2 0) 3)],
         Line.printf "  All target ports capable(ATP_C): %d\n"
           [.int (bit_of (buf.getD 2 0) 2)],
         Line.printf "  Persist Through Power Loss capable(PTPL_C): %d\n"
           [.int (bit_of (buf.getD 2 0) 0)],
         Line.printf "  Type Mask Valid(TMV): %d\n" [.int (bit_of (buf.getD 3 0) 7)],
         Line.printf "  Persist Through Power Loss active(PTPL_A): %d\n"
           [.int (bit_of (buf.getD 3 0) 0)]] ++
        (if (buf.getD 3 0).testBit 7 then
          Line.printf "    Support indicated in Type mask:\n" [] ::
          ([7, 6, 5, 3, 1, 8] : List Nat).map (fun t =>
            Line.printf "      %s: %d\n"
              [.str (pr_type_strs.getD t ""),
               .int (bit_of (buf.getD 4 0 + 256 * buf.getD 5 0) t)])
         else []) := by
  have hlen := prin_response_length execute _ buf h
  obtain ⟨R, ret, o, e, hcap, hR, hret, hout⟩ :=
    prin_work_rcap_run execute buf do_verbose 0 fuel h
  rw [prin_work_rcap_eq buf (by omega) 0, if_neg (not_not.mpr h8.symm),
    if_neg (not_not.mpr rfl)] at hcap
  injection hcap with hcap
  injection hcap with h1 h2
  injection h2 with h2 h3
  subst h1 h2
  refine ⟨R, hR, hret, ?_⟩
  rw [hout]
  have hb4 := getD_lt buf h.2.2 4
  have t7 := testBit_low (buf.getD 4 0) (buf.getD 5 0) 7 hb4 (by decide)
  have t6 := testBit_low (buf.getD 4 0) (buf.getD 5 0) 6 hb4 (by decide)
  have t5 := testBit_low (buf.getD 4 0) (buf.getD 5 0) 5 hb4 (by decide)
  have t3 := testBit_low (buf.getD 4 0) (buf.getD 5 0) 3 hb4 (by decide)
  have t1 := testBit_low (buf.getD 4 0) (buf.getD 5 0) 1 hb4 (by decide)
  have t8 := testBit_high (buf.getD 4 0) (buf.getD 5 0) 0 hb4
  simp only [List.map_cons, List.map_nil, bit_of, t7, t6, t5, t3, t1, t8, Nat.add_zero]


theorem report_capabilities_bit_table_witness :
    ∃ R, prin_work (fun _ => (Outcome.Success, [0, 8, 0x1c, 0x80, 0x60, 0x01, 0xff, 0xff]))
        PRIN_RCAP_SA 0 0 0 = .ok R ∧ R.ret = 0 ∧
      R.out =
        [Line.printf "Report capabilities response:\n" [],
         Line.printf "  Compatible Reservation handling(CRH): %d\n" [.int 1],
         Line.printf "  Specify Initiator Ports capable(SIP_C): %d\n" [.int 1],
         Line.printf "  All target ports capable(ATP_C): %d\n" [.int 1],
         Line.printf "  Persist Through Power Loss capable(PTPL_C): %d\n" [.int 0],
         Line.printf "  Type Mask Valid(TMV): %d\n" [.int 1],
         Line.printf "  Persist Through Power Loss active(PTPL_A): %d\n" [.int 0],
         Line.printf "    Support indicated in Type mask:\n" [],
         Line.printf "      %s: %d\n" [.str "Write Exclusive, all registrants", .int 0],
         Line.printf "      %s: %d\n" [.str "Exclusive Access, registrants only", .int 1],
         Line.printf "      %s: %d\n" [.str "Write Exclusive, registrants only", .int 1],
         Line.printf "      %s: %d\n" [.str "Exclusive Access", .int 0],
         Line.printf "      %s: %d\n" [.str "Write Exclusive", .int 0],
         Line.printf "      %s: %d\n" [.str "Exclusive Access, all registrants", .int 1]] :=
  report_capabilities_bit_table
    (fun _ => (Outcome.Success, [0, 8, 0x1c, 0x80, 0x60, 0x01, 0xff, 0xff]))
    ([0, 8, 0x1c, 0x80, 0x60, 0x01, 0xff, 0xff] ++ List.replicate (MX_ALLOC_LEN - 8) 0) 0 0
    (prin_response_short PRIN_RCAP_SA _ (by decide) (by decide)) (by rfl)

/-- The run of `prin_work` on the response of the example of the spec. -/
theorem prin_work_rcap_example :
    ∃ R, prin_work (fun _ => (Outcome.Success, [0x00, 0x08, 0x11, 0x81, 0x0A, 0x01, 0x00, 0x00]))
        PRIN_RCAP_SA 0 0 0 = .ok R ∧ R.ret = 0 ∧
      R.out =
        [Line.printf "Report capabilities response:\n" [],
         Line.printf "  Compatible Reservation handling(CRH): %d\n" [.int 1],
         Line.printf "  Specify Initiator Ports capable(SIP_C): %d\n" [.int 0],
         Line.printf "  All target ports capable(ATP_C): %d\n" [.int 0],
         Line.printf "  Persist Through Power Loss capable(PTPL_C): %d\n" [.int 1],
         Line.printf "  Type Mask Valid(TMV): %d\n" [.int 1],
         Line.printf "  Persist Through Power Loss active(PTPL_A): %d\n" [.int 1],
         Line.printf "    Support indicated in Type mask:\n" [],
         Line.printf "      %s: %d\n" [.str "Write Exclusive, all registrants", .int 0],
         Line.printf "      %s: %d\n" [.str "Exclusive Access, registrants only", .int 0],
         Line.printf "      %s: %d\n" [.str "Write Exclusive, registrants only", .int 0],
         Line.printf "      %s: %d\n" [.str "Exclusive Access", .int 1],
         Line.printf "      %s: %d\n" [.str "Write Exclusive", .int 1],
         Line.printf "      %s: %d\n" [.str "Exclusive Access, all registrants", .int 1]] := by
  obtain ⟨R, ret, o, e, hcap, hR, hret, hout⟩ := prin_work_rcap_run
    (fun _ => (Outcome.Success, [0x00, 0x08, 0x11, 0x81, 0x0A, 0x01, 0x00, 0x00]))
    ([0x00, 0x08, 0x11, 0x81, 0x0A, 0x01, 0x00, 0x00] ++ List.replicate (MX_ALLOC_LEN - 8) 0)
    0 0 0 (prin_response_short PRIN_RCAP_SA _ (by decide) (by decide))
  rw [prin_work_rcap_eq _ (by simp) 0] at hcap
  injection hcap with hcap
  injection hcap with h1 h2
  injection h2 with h2 h3
  refine ⟨R, hR, ?_, ?_⟩
  · rw [hret, ← h1]
  · rw [hout, ← h2]; rfl

/-- C15, counterexample: for the response [0x00, 0x08, 0x11, 0x81, 0x0A, 0x01,
0x00, 0x00] the type-mask line of Exclusive Access, registrants only reports 0,
while those of Exclusive Access and of Exclusive Access, all registrants
report 1. -/
theorem report_capabilities_example_registrants_only_clear :
    ∃ R, prin_work (fun _ => (Outcome.Success, [0x00, 0x08, 0x11, 0x81, 0x0A, 0x01, 0x00, 0x00]))
        PRIN_RCAP_SA 0 0 0 = .ok R ∧
      Line.printf "      %s: %d\n" [.str "Exclusive Access, registrants only", .int 0] ∈ R.out ∧
      Line.printf "      %s: %d\n" [.str "Exclusive Access", .int 1] ∈ R.out ∧
      Line.printf "      %s: %d\n" [.str "Exclusive Access, all registrants", .int 1] ∈ R.out := by
  obtain ⟨R, hR, -, hout⟩ := prin_work_rcap_example
  refine ⟨R, hR, ?_, ?_, ?_⟩ <;> rw [hout] <;> decide

/-- C15, amended: the response [0x00, 0x08, 0x11, 0x81, 0x0A, 0x01, 0x00, 0x00]
decodes to CRH = 1, SIP_C = 0, ATP_C = 0, PTPL_C = 1, TMV = 1, PTPL_A = 1 with
the type mask present, and in that type mask the types reported as supported
are Exclusive Access, Write Exclusive and Exclusive Access, all registrants;
the three others, Exclusive Access, registrants only among them, are reported
as not supported. -/
theorem report_capabilities_example :
    ∃ R, prin_work (fun _ => (Outcome.Success, [0x00, 0x08, 0x11, 0x81, 0x0A, 0x01, 0x00, 0x00]))
        PRIN_RCAP_SA 0 0 0 = .ok R ∧ R.ret = 0 ∧
      R.out =
        [Line.printf "Report capabilities response:\n" [],
         Line.printf "  Compatible Reservation handling(CRH): %d\n" [.int 1],
         Line.printf "  Specify Initiator Ports capable(SIP_C): %d\n" [.int 0],
         Line.printf "  All target ports capable(ATP_C): %d\n" [.int 0],
         Line.printf "  Persist Through Power Loss capable(PTPL_C): %d\n" [.int 1],
         Line.printf "  Type Mask Valid(TMV): %d\n" [.int 1],
         Line.printf "  Persist Through Power Loss active(PTPL_A): %d\n" [.int 1],
         Line.printf "    Support indicated in Type mask:\n" [],
         Line.printf "      %s: %d\n" [.str "Write Exclusive, all registrants", .int 0],
         Line.printf "      %s: %d\n" [.str "Exclusive Access, registrants only", .int 0],
         Line.printf "      %s: %d\n" [.str "Write Exclusive, registrants only", .int 0],
         Line.printf "      %s: %d\n" [.str "Exclusive Access", .int 1],
         Line.printf "      %s: %d\n" [.str "Write Exclusive", .int 1],
         Line.printf "      %s: %d\n" [.str "Exclusive Access, all registrants", .int 1]] :=
  prin_work_rcap_example

/-! ## decode_transport_id: records other than iSCSI -/

theorem rd_add (buf : List Nat) (off j : Nat) (h : off + j < buf.length) :
    rd buf ((off : Int) + (j : Int)) = .ok (buf.getD (off + j) 0) := by
  rw [rd_at buf off j h, getD_eq_getElem buf (off + j) h]

theorem dStrHex_ok_at (buf : List Nat) (off len no_ascii : Int) (h0 : 0 ≤ off)
    (h : off + len ≤ buf.length) : ∃ l, dStrHex buf off len no_ascii = .ok l := by
  unfold dStrHex
  by_cases hl : len ≤ 0
  · exact ⟨_, if_pos hl⟩
  · rw [if_neg hl, if_pos ⟨h0, h⟩]
    exact ⟨_, rfl⟩

theorem rd_chars_eq (buf : List Nat) :
    ∀ (n off : Nat), off + n ≤ buf.length →
      rd_chars buf (off : Int) n = .ok (((buf.drop off).take n).takeWhile (fun b => b != 0)) := by
  intro n
  induction n with
  | zero => intro off _; rfl
  | succ n ih =>
    intro off h
    have r0 := rd_at buf off 0 (by omega)
    simp only [Nat.cast_zero, add_zero, Nat.add_zero] at r0
    have hd : buf.drop off = buf[off] :: buf.drop (off + 1) :=
      List.drop_eq_getElem_cons (by omega)
    have hrest := ih (off + 1) (by omega)
    have e : ((off + 1 : Nat) : Int) = (off : Int) + 1 := by push_cast; rfl
    rw [e] at hrest
    rw [hd, List.take_succ_cons, List.takeWhile_cons]
    simp only [rd_chars, r0, hrest, bind, Except.bind, pure, Except.pure]
    by_cases h0 : buf[off] = 0
    · simp [h0]
    · simp [h0]

theorem shl8_or (b2 b3 : Nat) (h3 : b3 < 256) : (b2 <<< 8) ||| b3 = b2 * 256 + b3 := by
  have := Nat.mul_add_lt_is_or (i := 8) (b := b3) (by omega) b2
  rw [Nat.shiftLeft_eq, Nat.mul_comm b2, ← this]

theorem drop_take_2 (buf : List Nat) (off : Nat) (h : off + 2 ≤ buf.length) :
    (buf.drop off).take 2 = [buf[off], buf[off + 1]] := by
  apply List.ext_getElem?
  intro i
  rw [List.getElem?_take, List.getElem?_drop]
  by_cases hi : i < 2
  · rw [if_pos hi, List.getElem?_eq_getElem (by omega)]
    interval_cases i <;> simp
  · rw [if_neg hi]
    symm
    apply List.getElem?_eq_none
    simp; omega

/-- The two bytes at off and off + 1, combined as `(b2 << 8) | b3`, are their
big-endian value. -/
theorem rd_16_eq (buf : List Nat) (off : Nat) (h : off + 2 ≤ buf.length)
    (hb : ∀ b ∈ buf, b < 256) :
    (buf.getD off 0 <<< 8) ||| buf.getD (off + 1) 0 = be_value ((buf.drop off).take 2) := by
  rw [drop_take_2 buf off h, getD_eq_getElem buf off (by omega),
    getD_eq_getElem buf (off + 1) (by omega), shl8_or _ _ (hb _ (List.getElem_mem _))]
  simp [be_value]

/-- The pass of the loop body of `decode_transport_id` on an iSCSI record with
format code 0 whose declared length is L. -/
theorem decode_transport_id_body_iscsi (buf : List Nat) (u L : Nat) (len : Int)
    (hb : ∀ b ∈ buf, b < 256) (hproto : buf.getD u 0 % 16 = 5) (hfmt : buf.getD u 0 / 64 = 0)
    (hL : be_value ((buf.drop (u + 2)).take 2) = L) (hfit : u + 4 + L ≤ buf.length) :
    decode_transport_id_body buf (u : Int) len = .ok
      ([(if len < 24 ∨ 0 ≠ Int.tmod len 4 then
           Line.printf "      Transport Id short or not multiple of 4 [length=%d]:\n" [.int len]
         else Line.printf "      Transport Id of initiator:\n" []),
        Line.printf "        iSCSI " [],
        Line.printf "name: %.*s\n"
          [.int L, .chars (((buf.drop (u + 4)).take L).takeWhile (fun b => b != 0))]],
       [], ((max 24 (4 + L) : Nat) : Int)) := by
  have r0 := rd_add buf u 0 (by omega)
  have r2 := rd_add buf u 2 (by omega)
  have r3 := rd_add buf u 3 (by omega)
  simp only [Nat.cast_zero, Nat.cast_ofNat, add_zero, Nat.add_zero] at r0 r2 r3
  have h16 := rd_16_eq buf (u + 2) (by omega) hb
  rw [hL] at h16
  have e3 : u + 2 + 1 = u + 3 := rfl
  rw [e3] at h16
  have hp : buf.getD u 0 &&& 0xf = 5 := by rw [and_15]; exact hproto
  have hf : (buf.getD u 0 >>> 6) &&& 0x3 = 0 := by
    have e : buf.getD u 0 >>> 6 = buf.getD u 0 / 64 := Nat.shiftRight_eq_div_pow _ 6
    rw [e, hfmt]; rfl
  have hc := rd_chars_eq buf L (u + 4) (by omega)
  have e4 : ((u + 4 : Nat) : Int) = (u : Int) + 4 := by push_cast; rfl
  rw [e4] at hc
  have hbump : (if (L : Int) + 4 < 24 then (24 : Int) else (L : Int) + 4)
      = ((max 24 (4 + L) : Nat) : Int) := by
    split_ifs with h <;> omega
  unfold decode_transport_id_body
  simp only [r0, bind, Except.bind, pure, Except.pure, hp, r2, r3, h16, hf, if_true,
    Int.toNat_ofNat, hc, hbump]


/-- C19, counterexample: an iSCSI record with format code 0 and declared length
8 whose 8 bytes at offset 4 are the ASCII bytes of "iqn.a" followed by three
NUL bytes is reported with a name of 5 bytes, not of the 8 bytes declared. -/
theorem iscsi_name_stops_at_nul :
    decode_transport_id
        [0x05, 0, 0, 8, 105, 113, 110, 46, 97, 0, 0, 0, 0, 0, 0, 0, 0, 0, 0, 0, 0, 0, 0, 0]
        0 24 = .ok
      ([Line.printf "      Transport Id of initiator:\n" [],
        Line.printf "        iSCSI " [],
        Line.printf "name: %.*s\n" [.int 8, .chars [105, 113, 110, 46, 97]]], []) := by
  rfl

/-- C19, amended: for a record with protocol identifier 5, format code 0 and
declared length L (big-endian bytes 2-3) whose L bytes at offset 4 lie in the
buffer, the pass of decode_transport_id on it prints as the name the bytes at
offset 4 up to the first NUL byte among these L bytes (all L of them when none
is NUL), and the loop goes on with the record max(24, 4 + L) bytes later,
4 + L being used as it is, also when it is not a multiple of 4. -/
theorem iscsi_transport_id (buf : List Nat) (u L : Nat) (len : Int)
    (hb : ∀ b ∈ buf, b < 256) (hproto : buf.getD u 0 % 16 = 5) (hfmt : buf.getD u 0 / 64 = 0)
    (hL : be_value ((buf.drop (u + 2)).take 2) = L) (hfit : u + 4 + L ≤ buf.length) :
    ∃ rec_lines : List Line,
      rec_lines =
        [(if len < 24 ∨ 0 ≠ Int.tmod len 4 then
            Line.printf "      Transport Id short or not multiple of 4 [length=%d]:\n" [.int len]
          else Line.printf "      Transport Id of initiator:\n" []),
         Line.printf "        iSCSI " [],
         Line.printf "name: %.*s\n"
           [.int L, .chars (((buf.drop (u + 4)).take L).takeWhile (fun b => b != 0))]] ∧
      decode_transport_id_body buf (u : Int) len
        = .ok (rec_lines, [], ((max 24 (4 + L) : Nat) : Int)) ∧
      ∀ (fuel : Nat) (k : Int), k < len →
        decode_transport_id_loop buf len (fuel + 1) k (u : Int) =
          Except.map (fun p => (rec_lines ++ p.1, p.2))
            (decode_transport_id_loop buf len fuel (k + ((max 24 (4 + L) : Nat) : Int))
              ((u : Int) + ((max 24 (4 + L) : Nat) : Int))) := by
  have hbody := decode_transport_id_body_iscsi buf u L len hb hproto hfmt hL hfit
  refine ⟨_, rfl, hbody, ?_⟩
  intro fuel k hk
  simp only [decode_transport_id_loop, hk, if_true, hbody, bind, Except.bind]
  cases decode_transport_id_loop buf len fuel (k + ((max 24 (4 + L) : Nat) : Int))
      ((u : Int) + ((max 24 (4 + L) : Nat) : Int)) with
  | error f => rfl
  | ok p => rfl

theorem iscsi_transport_id_witness :
    ∃ rec_lines : List Line,
      rec_lines =
        [Line.printf "      Transport Id of initiator:\n" [],
         Line.printf "        iSCSI " [],
         Line.printf "name: %.*s\n"
           [.int 21, .chars [105, 113, 110, 46, 50, 48, 48, 49, 45, 48, 52, 46, 99, 111, 109,
              46, 101, 120, 58, 97, 98]]] ∧
      decode_transport_id_body
          [0x05, 0, 0, 21, 105, 113, 110, 46, 50, 48, 48, 49, 45, 48, 52, 46, 99, 111, 109,
           46, 101, 120, 58, 97, 98, 0, 0, 0]
          ((0 : Nat) : Int) 28
        = .ok (rec_lines, [], 25) ∧
      ∀ (fuel : Nat) (k : Int), k < 28 →
        decode_transport_id_loop
            [0x05, 0, 0, 21, 105, 113, 110, 46, 50, 48, 48, 49, 45, 48, 52, 46, 99, 111, 109,
             46, 101, 120, 58, 97, 98, 0, 0, 0] 28 (fuel + 1) k ((0 : Nat) : Int) =
          Except.map (fun p => (rec_lines ++ p.1, p.2))
            (decode_transport_id_loop
              [0x05, 0, 0, 21, 105, 113, 110, 46, 50, 48, 48, 49, 45, 48, 52, 46, 99, 111, 109,
               46, 101, 120, 58, 97, 98, 0, 0, 0] 28 fuel (k + 25) (((0 : Nat) : Int) + 25)) :=
  iscsi_transport_id
    [0x05, 0, 0, 21, 105, 113, 110, 46, 50, 48, 48, 49, 45, 48, 52, 46, 99, 111, 109,
     46, 101, 120, 58, 97, 98, 0, 0, 0] 0 21 28 (by decide) (by decide) (by decide)
    (by rfl) (by decide)

/-! ## prin_work: Read Full Status -/

theorem and_2 (b : Nat) : (b &&& 0x2 ≠ 0) ↔ b.testBit 1 = true := by
  have := Nat.and_two_pow b 1
  simp only [Nat.reducePow] at this
  rw [this]
  cases b.testBit 1 <;> simp

theorem and_1 (b : Nat) : (b &&& 0x1 ≠ 0) ↔ b.testBit 0 = true := by
  have := Nat.and_two_pow b 0
  simp only [Nat.reducePow] at this
  rw [this]
  cases b.testBit 0 <;> simp

theorem bytes_of_all (data : List Nat) (h : data.all (fun b => decide (b < 256)) = true) :
    ∀ b ∈ data, b < 256 := by
  intro b hb
  have := List.all_eq_true.mp h b hb
  simpa using this

/-! ## decode_transport_id: a single record -/

/-- The pass of the loop body of `decode_transport_id` on a SAS record
(protocol identifier 6) with format code 0. -/
theorem decode_transport_id_body_sas (buf : List Nat) (u : Nat) (len : Int)
    (hb : ∀ b ∈ buf, b < 256) (hproto : buf.getD u 0 % 16 = 6) (hfmt : buf.getD u 0 / 64 = 0)
    (hfit : u + 12 ≤ buf.length) :
    decode_transport_id_body buf (u : Int) len = .ok
      ([(if len < 24 ∨ 0 ≠ Int.tmod len 4 then
           Line.printf "      Transport Id short or not multiple of 4 [length=%d]:\n" [.int len]
         else Line.printf "      Transport Id of initiator:\n" []),
        Line.printf "        SAS address: 0x%llx\n"
          [.int (be_value ((buf.drop (u + 4)).take 8))]], [], 24) := by
  have r0 := rd_add buf u 0 (by omega)
  simp only [Nat.cast_zero, add_zero, Nat.add_zero] at r0
  have hp : buf.getD u 0 &&& 0xf = 6 := by rw [and_15]; exact hproto
  have hf : (buf.getD u 0 >>> 6) &&& 0x3 = 0 := by
    have e : buf.getD u 0 >>> 6 = buf.getD u 0 / 64 := Nat.shiftRight_eq_div_pow _ 6
    rw [e, hfmt]; rfl
  have hull := ull_loop_eq buf (u + 4) (by omega) hb
  have e4 : ((u + 4 : Nat) : Int) = (u : Int) + 4 := by push_cast; rfl
  rw [e4] at hull
  unfold decode_transport_id_body
  simp only [r0, bind, Except.bind, pure, Except.pure, hp, hf, hull, unexpected_format, ne_eq,
    not_true_eq_false, if_false, List.append_nil]


theorem wr_append (p t : List Nat) (i h : Nat) (p2 : List Nat) (hw : wr p i h = .ok p2) :
    wr (p ++ t) i h = .ok (p2 ++ t) := by
  unfold wr at hw ⊢
  by_cases hi : i < p.length
  · rw [if_pos hi] at hw
    injection hw with hw
    subst hw
    rw [if_pos (by rw [List.length_append]; omega), List.set_append, if_pos hi]
  · rw [if_neg hi] at hw
    exact absurd hw (by simp)

/-- The command-line loop writes the same bytes at the same places when the
array is longer than the part it writes to. -/
theorem build_transportid_hex_loop_append (inp : List Char) (t : List Nat) :
    ∀ (todo k lcp : Nat) (p p2 : List Nat) (r : Line ⊕ Nat),
      build_transportid_hex_loop inp todo k lcp p = .ok (p2, r) →
      build_transportid_hex_loop inp todo k lcp (p ++ t) = .ok (p2 ++ t, r) := by
  intro todo
  induction todo with
  | zero =>
    intro k lcp p p2 r h
    simp only [build_transportid_hex_loop] at h ⊢
    injection h with h
    injection h with h1 h2
    subst h1 h2
    rfl
  | succ n ih =>
    intro k lcp p p2 r h
    simp only [build_transportid_hex_loop, bind, Except.bind] at h ⊢
    cases hs : sscanf_x (inp.drop lcp) with
    | error f => rw [hs] at h; exact absurd h (by simp)
    | ok v =>
      rw [hs] at h
      simp only at h ⊢
      cases v with
      | none =>
        simp only [pure, Except.pure] at h ⊢
        injection h with h
        injection h with h1 h2
        subst h1 h2
        rfl
      | some hx =>
        simp only at h ⊢
        by_cases hgt : hx > 0xff
        · simp only [hgt, if_true, pure, Except.pure] at h ⊢
          injection h with h
          injection h with h1 h2
          subst h1 h2
          rfl
        · simp only [hgt, if_false] at h ⊢
          cases hw : wr p k hx with
          | error f => rw [hw] at h; exact absurd h (by simp)
          | ok p3 =>
            rw [hw] at h
            rw [wr_append p t k hx p3 hw]
            simp only at h ⊢
            cases hc : strchr (inp.drop lcp) ',' with
            | none =>
              rw [hc] at h
              simp only [pure, Except.pure] at h ⊢
              injection h with h
              injection h with h1 h2
              subst h1 h2
              rfl
            | some cp =>
              rw [hc] at h
              simp only at h ⊢
              exact ih _ _ _ _ _ h


/-- On a command-line argument, `build_transportid` leaves the same result
when the array is longer than the part it writes to. -/
theorem build_transportid_append (inp stdin : List Char) (p t : List Nat) (a b : Int)
    (r : TidResult) (hdash : ¬ (inp.head? = some '-'))
    (h : build_transportid inp stdin p a b = .ok r) :
    build_transportid inp stdin (p ++ t) a b =
      .ok { ret := r.ret, tid_arr := r.tid_arr ++ t, tid_arr_len := r.tid_arr_len,
            num_tids := r.num_tids, err := r.err } := by
  simp only [build_transportid, hdash, if_false, bind, Except.bind, pure, Except.pure] at h ⊢
  by_cases hk : inp.length ≠ strspn inp "0123456789aAbBcCdDeEfF,".toList
  · rw [if_pos hk] at h ⊢
    injection h with h
    subst h
    rfl
  · rw [if_neg hk] at h ⊢
    cases hl : build_transportid_hex_loop inp 1024 0 0 p with
    | error f => rw [hl] at h; exact absurd h (by simp)
    | ok v =>
      obtain ⟨p2, res⟩ := v
      rw [hl] at h
      rw [build_transportid_hex_loop_append inp t 1024 0 0 p p2 res hl]
      cases res with
      | inl msg =>
        simp only at h ⊢
        injection h with h
        subst h
        rfl
      | inr k =>
        simp only at h ⊢
        injection h with h
        subst h
        rfl

/-- The run of `build_transportid` on a list of 25 tokens with an array of 28
bytes. -/
theorem build_transportid_25_short :
    build_transportid "0,1,2,3,4,5,6,7,8,9,a,b,c,d,e,f,10,11,12,13,14,15,16,17,18".toList
        [] (List.replicate 28 0) 0 0 =
      .ok { ret := 0,
            tid_arr := [0, 1, 2, 3, 4, 5, 6, 7, 8, 9, 10, 11, 12, 13, 14, 15, 16, 17, 18, 19,
                        20, 21, 22, 23, 24, 0, 0, 0],
            tid_arr_len := 24, num_tids := 1, err := [] } := by
  rfl


/-- C20: on the comma-separated list of the 25 byte tokens 0, 1, .. , 18 (hex)
build_transportid returns 0, writes the 25 bytes to the start of the array
and reports the length 24: the byte 0x18 at index 24 lies outside the
reported length, and the smallest multiple of 4 that is at least max(24, 25)
is 28, not 24. -/
theorem transport_id_length_excludes_last_byte :
    ∃ r, build_transportid "0,1,2,3,4,5,6,7,8,9,a,b,c,d,e,f,10,11,12,13,14,15,16,17,18".toList
        [] (List.replicate MX_ALLOC_LEN 0) 0 0 = .ok r ∧
      r.ret = 0 ∧ r.num_tids = 1 ∧ r.tid_arr_len = 24 ∧
      r.tid_arr.take 25 =
        [0, 1, 2, 3, 4, 5, 6, 7, 8, 9, 10, 11, 12, 13, 14, 15, 16, 17, 18, 19, 20, 21, 22, 23,
         24] ∧
      r.tid_arr.getD 24 0 = 0x18 ∧ pad_k 25 = 28 := by
  have h := build_transportid_append _ [] (List.replicate 28 0)
    (List.replicate (MX_ALLOC_LEN - 28) 0) 0 0 _ (by decide) build_transportid_25_short
  rw [← replicate_split 28 (by decide)] at h
  exact ⟨_, h, rfl, rfl, rfl, rfl, rfl, rfl⟩

/-! ## prin_work: the generation -/

theorem be_value_take_4 (buf : List Nat) (h : 4 ≤ buf.length) :
    be_value (buf.take 4) =
      buf.getD 0 0 * 2 ^ 24 + buf.getD 1 0 * 2 ^ 16 + buf.getD 2 0 * 2 ^ 8 + buf.getD 3 0 := by
  have e := drop_take_4 buf 0 (by omega)
  rw [List.drop_zero] at e
  rw [e, getD_eq_getElem buf 0 (by omega), getD_eq_getElem buf 1 (by omega),
    getD_eq_getElem buf 2 (by omega), getD_eq_getElem buf 3 (by omega)]
  simp only [be_value, List.foldl_cons, List.foldl_nil, Nat.zero_add]
  ring

theorem prin_work_hex_head (buf : List Nat) (pr_gen : Nat) (add_len : Int) (o : List Line)
    (h : prin_work_hex buf pr_gen add_len = .ok o) :
    o.head? = some (Line.printf "  PR generation=0x%x, " [.int pr_gen]) := by
  unfold prin_work_hex at h
  simp only [bind, Except.bind, pure, Except.pure] at h
  split_ifs at h <;>
  · split at h
    · exact absurd h (by simp)
    · injection h with h
      subst h
      rfl

theorem prin_work_hex_ok (buf : List Nat) (pr_gen : Nat) (add_len : Int)
    (hlen : buf.length = 8192) : ∃ o, prin_work_hex buf pr_gen add_len = .ok o := by
  unfold prin_work_hex
  by_cases hgt : add_len > (MX_ALLOC_LEN : Int) - 8
  · obtain ⟨d, hd⟩ := dStrHex_ok_at buf 8 ((MX_ALLOC_LEN : Int) - 8) 1 (by decide)
      (by rw [hlen]; decide)
    simp only [hgt, if_true, hd, bind, Except.bind, pure, Except.pure]
    exact ⟨_, rfl⟩
  · have hM : ((MX_ALLOC_LEN : Nat) : Int) = 8192 := rfl
    obtain ⟨d, hd⟩ := dStrHex_ok_at buf 8 add_len 1 (by decide)
      (by rw [hlen]; push_cast; omega)
    simp only [hgt, if_false, hd, bind, Except.bind, pure, Except.pure]
    exact ⟨_, rfl⟩

theorem prin_work_rkey_head (buf : List Nat) (pr_gen : Nat) (add_len : Int) (o : List Line)
    (h : prin_work_rkey buf pr_gen add_len = .ok o) :
    o.head? = some (Line.printf "  PR generation=0x%x, " [.int pr_gen]) := by
  unfold prin_work_rkey at h
  simp only [bind, Except.bind, pure, Except.pure] at h
  by_cases hnum : Int.tdiv add_len 8 > 0
  · rw [if_pos hnum] at h
    cases hl : prin_work_rkey_loop buf (Int.tdiv add_len 8).toNat 8 with
    | error f => rw [hl] at h; exact absurd h (by simp)
    | ok keys =>
      rw [hl] at h
      injection h with h
      subst h
      rfl
  · rw [if_neg hnum] at h
    injection h with h
    subst h
    rfl

theorem prin_work_rres_head (buf : List Nat) (pr_gen : Nat) (add_len : Int) (o : List Line)
    (h : prin_work_rres buf pr_gen add_len = .ok o) :
    o.head? = some (Line.printf "  PR generation=0x%x, " [.int pr_gen]) := by
  unfold prin_work_rres at h
  simp only [bind, Except.bind, pure, Except.pure] at h
  split_ifs at h
  · split at h
    · exact absurd h (by simp)
    · split at h
      · exact absurd h (by simp)
      · split at h
        · exact absurd h (by simp)
        · injection h with h
          subst h
          rfl
  · injection h with h
    subst h
    rfl


/-- C24: for Read Keys, Read Reservation and Read Full Status, with or without
`--hex`, whenever prin_work returns, the first thing it has printed is the
generation, and the number printed is b0 * 2^24 + b1 * 2^16 + b2 * 2^8 + b3
for the bytes b0 .. b3 at offsets 0-3 of the response, a value that is never
negative (also when b0 >= 0x80) and in which no other byte of the buffer
enters; with `--hex`, and for Read Reservation, prin_work always returns. -/
theorem generation_counter (execute : Transport) (buf : List Nat) (prin_sa : Int)
    (do_verbose do_hex : Int) (fuel : Nat) (h : prin_response execute prin_sa buf)
    (hsa : prin_sa = PRIN_RKEY_SA ∨ prin_sa = PRIN_RRES_SA ∨ prin_sa = PRIN_RFSTAT_SA) :
    (∀ R, prin_work execute prin_sa do_verbose do_hex fuel = .ok R →
      R.out.head? = some (Line.printf
        (if do_hex = 0 ∧ prin_sa = PRIN_RFSTAT_SA then "  PR generation=0x%x\n"
         else "  PR generation=0x%x, ")
        [.int ((buf.getD 0 0 * 2 ^ 24 + buf.getD 1 0 * 2 ^ 16 + buf.getD 2 0 * 2 ^ 8
          + buf.getD 3 0 : Nat) : Int)])) ∧
    ((do_hex ≠ 0 ∨ prin_sa = PRIN_RRES_SA) →
      ∃ R, prin_work execute prin_sa do_verbose do_hex fuel = .ok R) := by
  have hlen := prin_response_length execute _ buf h
  have hpos : 0 ≤ prin_sa := by rcases hsa with h | h | h <;> rw [h] <;> decide
  have hne : ¬ (PRIN_RCAP_SA = prin_sa) := by
    rcases hsa with h | h | h <;> rw [h] <;> decide
  obtain ⟨r0, -, hwork⟩ := prin_work_noncap execute prin_sa buf do_verbose do_hex fuel hpos hne h
  have hg := be_value_take_4 buf (by omega)
  rw [hwork, ← hg]
  constructor
  · intro R hR
    by_cases hh : do_hex = 0
    · subst hh
      simp only [ne_eq, not_true_eq_false, if_false, bind, Except.bind, pure, Except.pure] at hR
      rcases hsa with hs | hs | hs
      · subst hs
        simp only [if_true] at hR
        have hn : ¬ (PRIN_RKEY_SA = PRIN_RFSTAT_SA) := by decide
        rw [if_neg (fun hc => hn hc.2)]
        cases hk : prin_work_rkey buf (be_value (buf.take 4))
            (toInt32 (be_value ((buf.drop 4).take 4))) with
        | error f => rw [hk] at hR; exact absurd hR (by simp)
        | ok o =>
          rw [hk] at hR
          injection hR with hR
          subst hR
          exact prin_work_rkey_head _ _ _ _ hk
      · subst hs
        have hn1 : ¬ (PRIN_RKEY_SA = PRIN_RRES_SA) := by decide
        have hn : ¬ (PRIN_RRES_SA = PRIN_RFSTAT_SA) := by decide
        simp only [hn1, if_false, if_true] at hR
        rw [if_neg (fun hc => hn hc.2)]
        cases hk : prin_work_rres buf (be_value (buf.take 4))
            (toInt32 (be_value ((buf.drop 4).take 4))) with
        | error f => rw [hk] at hR; exact absurd hR (by simp)
        | ok o =>
          rw [hk] at hR
          injection hR with hR
          subst hR
          exact prin_work_rres_head _ _ _ _ hk
      · subst hs
        have hn1 : ¬ (PRIN_RKEY_SA = PRIN_RFSTAT_SA) := by decide
        have hn2 : ¬ (PRIN_RRES_SA = PRIN_RFSTAT_SA) := by decide
        simp only [hn1, hn2, if_false, if_true] at hR
        rw [if_pos ⟨rfl, rfl⟩]
        cases hk : prin_work_rfstat_loop buf (toInt32 (be_value ((buf.drop 4).take 4)))
            fuel 0 8 with
        | error f => rw [hk] at hR; exact absurd hR (by simp)
        | ok o =>
          rw [hk] at hR
          injection hR with hR
          subst hR
          rfl
    · simp only [ne_eq, hh, not_false_eq_true, if_true, bind, Except.bind, pure,
        Except.pure] at hR
      rw [if_neg (fun hc => hh hc.1)]
      cases hk : prin_work_hex buf (be_value (buf.take 4))
          (toInt32 (be_value ((buf.drop 4).take 4))) with
      | error f => rw [hk] at hR; exact absurd hR (by simp)
      | ok o =>
        rw [hk] at hR
        injection hR with hR
        subst hR
        exact prin_work_hex_head _ _ _ _ hk
  · intro hcase
    by_cases hh : do_hex = 0
    · have hs : prin_sa = PRIN_RRES_SA := by
        rcases hcase with hc | hc
        · exact absurd hh hc
        · exact hc
      subst hs hh
      obtain ⟨R, hR, -, -⟩ := prin_work_rres_run execute buf do_verbose fuel h
      rw [hwork] at hR
      exact ⟨R, hR⟩
    · obtain ⟨o, ho⟩ := prin_work_hex_ok buf (be_value (buf.take 4))
        (toInt32 (be_value ((buf.drop 4).take 4))) hlen
      simp only [ne_eq, hh, not_false_eq_true, if_true, ho, bind, Except.bind, pure,
        Except.pure]
      exact ⟨_, rfl⟩

theorem generation_counter_witness :
    (∀ R, prin_work (fun _ => (Outcome.Success, [0x80, 0x01, 0x02, 0x03, 0, 0, 0, 0, 0xff]))
        PRIN_RRES_SA 0 0 0 = .ok R →
      R.out.head? = some (Line.printf "  PR generation=0x%x, " [.int 0x80010203])) ∧
    ((((0 : Int) ≠ 0) ∨ PRIN_RRES_SA = PRIN_RRES_SA) →
      ∃ R, prin_work (fun _ => (Outcome.Success, [0x80, 0x01, 0x02, 0x03, 0, 0, 0, 0, 0xff]))
        PRIN_RRES_SA 0 0 0 = .ok R) :=
  generation_counter (fun _ => (Outcome.Success, [0x80, 0x01, 0x02, 0x03, 0, 0, 0, 0, 0xff]))
    ([0x80, 0x01, 0x02, 0x03, 0, 0, 0, 0, 0xff] ++ List.replicate (MX_ALLOC_LEN - 9) 0)
    PRIN_RRES_SA 0 0 0 (prin_response_short PRIN_RRES_SA _ (by decide) (by decide))
    (Or.inr (Or.inl rfl))

/-! ## The table of reservation types -/

/-- C25: for every byte b the index `b & 0xf` lies inside the 16-entry table
`pr_type_strs`, so the lookup returns a label and no value is rejected. For
the values 0, 2, 4 and 9 to 15 the label is `obsolete [n]` with the value n
written in decimal below 10 and as 0xa .. 0xf from 10 on; for the values
1, 3, 5, 6, 7, 8 the label does not start with `obsolete` and the six labels
are pairwise distinct. -/
theorem reservation_type_table (b : Nat) :
    ∃ s, rdStr pr_type_strs ((b &&& 0xf : Nat) : Int) = .ok s ∧
      pr_type_strs.length = 16 ∧
      (b % 16 ∈ [0, 2, 4, 9, 10, 11, 12, 13, 14, 15] →
        s = "obsolete [" ++
            (if b % 16 < 10 then String.singleton (Char.ofNat (48 + b % 16))
             else "0x" ++ String.singleton (Char.ofNat (87 + b % 16))) ++ "]") ∧
      (b % 16 ∈ [1, 3, 5, 6, 7, 8] →
        s.toList.take 8 ≠ "obsolete".toList ∧
        ∀ c : Nat, c % 16 ∈ [1, 3, 5, 6, 7, 8] →
          pr_type_strs.getD (c % 16) "" = s → c % 16 = b % 16) := by
  have e : b &&& 0xf = b % 16 := and_15 b
  have hlt : b % 16 < 16 := Nat.mod_lt _ (by decide)
  rw [e]
  generalize b % 16 = n at hlt
  have key : ∀ m, m < 16 →
      rdStr pr_type_strs ((m : Nat) : Int) = .ok (pr_type_strs.getD m "") := by
    intro m hm
    interval_cases m <;> rfl
  refine ⟨_, key n hlt, rfl, ?_, ?_⟩
  · intro hmem
    interval_cases n <;> first | rfl | exact absurd hmem (by decide)
  · intro hmem
    constructor
    · interval_cases n <;> first | exact absurd hmem (by decide) | decide
    · intro c hc hs
      have hc16 : c % 16 < 16 := Nat.mod_lt _ (by decide)
      generalize c % 16 = m at hc hs hc16
      interval_cases n <;> first
        | exact absurd hmem (by decide)
        | (interval_cases m <;> first
            | rfl
            | exact absurd hc (by decide)
            | exact absurd hs (by decide))

theorem reservation_type_table_obsolete_example :
    rdStr pr_type_strs ((0xfa &&& 0xf : Nat) : Int) = .ok "obsolete [0xa]" := rfl

/-! ## decode_transport_id: the fields of a record -/

theorem format_code_eq (b0 : Nat) (h : b0 < 256) : (b0 >>> 6) &&& 0x3 = b0 / 64 := by
  have e : b0 >>> 6 = b0 / 64 := Nat.shiftRight_eq_div_pow _ 6
  have e3 : (b0 / 64) &&& 3 = (b0 / 64) % 4 := Nat.and_pow_two_sub_one_eq_mod _ 2
  rw [e, e3]
  exact Nat.mod_eq_of_lt (by omega)

/-- C27: for a record of 24 bytes at offset u, whatever the declared length,
the pass of decode_transport_id on it takes its branch from `byte0 & 0xf`
alone and reports, for protocol identifier 6, the SAS address as the
big-endian value of bytes 4-11; for 1, the initiator address as the big-endian
value of bytes 2-3 and the relative port as that of bytes 6-7; for 0 and 3,
the eight bytes 8-15; for 4, the sixteen bytes 8-23. The format code
`(byte0 >> 6) & 3`, which is byte0 / 64, only adds the line that reports it
when it is not 0; bits 4-5 of byte 0 enter nowhere. -/
theorem transport_id_fields (buf : List Nat) (u : Nat) (len : Int)
    (hb : ∀ b ∈ buf, b < 256) (hfit : u + 24 ≤ buf.length) :
    (buf.getD u 0 % 16 = 0 →
      decode_transport_id_body buf (u : Int) len = .ok
        ([(if len < 24 ∨ 0 ≠ Int.tmod len 4 then
             Line.printf "      Transport Id short or not multiple of 4 [length=%d]:\n" [.int len]
           else Line.printf "      Transport Id of initiator:\n" []),
          Line.printf "        FCP-2 World Wide Name:\n" []] ++
         unexpected_format (buf.getD u 0 / 64) ++
         [Line.dStrHex ((buf.drop (u + 8)).take 8) 0], [], 24)) ∧
    (buf.getD u 0 % 16 = 1 →
      decode_transport_id_body buf (u : Int) len = .ok
        ([(if len < 24 ∨ 0 ≠ Int.tmod len 4 then
             Line.printf "      Transport Id short or not multiple of 4 [length=%d]:\n" [.int len]
           else Line.printf "      Transport Id of initiator:\n" []),
          Line.printf "        Parallel SCSI initiator SCSI address: 0x%x\n"
            [.int (be_value ((buf.drop (u + 2)).take 2))]] ++
         unexpected_format (buf.getD u 0 / 64) ++
         [Line.printf "        relative port number (of target): 0x%x\n"
            [.int (be_value ((buf.drop (u + 6)).take 2))]], [], 24)) ∧
    (buf.getD u 0 % 16 = 3 →
      decode_transport_id_body buf (u : Int) len = .ok
        ([(if len < 24 ∨ 0 ≠ Int.tmod len 4 then
             Line.printf "      Transport Id short or not multiple of 4 [length=%d]:\n" [.int len]
           else Line.printf "      Transport Id of initiator:\n" []),
          Line.printf "        IEEE 1394 EUI-64 name:\n" []] ++
         unexpected_format (buf.getD u 0 / 64) ++
         [Line.dStrHex ((buf.drop (u + 8)).take 8) 0], [], 24)) ∧
    (buf.getD u 0 % 16 = 4 →
      decode_transport_id_body buf (u : Int) len = .ok
        ([(if len < 24 ∨ 0 ≠ Int.tmod len 4 then
             Line.printf "      Transport Id short or not multiple of 4 [length=%d]:\n" [.int len]
           else Line.printf "      Transport Id of initiator:\n" []),
          Line.printf "        RDMA initiator port identifier:\n" []] ++
         unexpected_format (buf.getD u 0 / 64) ++
         [Line.dStrHex ((buf.drop (u + 8)).take 16) 0], [], 24)) ∧
    (buf.getD u 0 % 16 = 6 →
      decode_transport_id_body buf (u : Int) len = .ok
        ([(if len < 24 ∨ 0 ≠ Int.tmod len 4 then
             Line.printf "      Transport Id short or not multiple of 4 [length=%d]:\n" [.int len]
           else Line.printf "      Transport Id of initiator:\n" []),
          Line.printf "        SAS address: 0x%llx\n"
            [.int (be_value ((buf.drop (u + 4)).take 8))]] ++
         unexpected_format (buf.getD u 0 / 64), [], 24)) := by
  have r0 := rd_add buf u 0 (by omega)
  have r2 := rd_add buf u 2 (by omega)
  have r3 := rd_add buf u 3 (by omega)
  have r6 := rd_add buf u 6 (by omega)
  have r7 := rd_add buf u 7 (by omega)
  simp only [Nat.cast_zero, Nat.cast_ofNat, add_zero, Nat.add_zero] at r0 r2 r3 r6 r7
  have hf := format_code_eq (buf.getD u 0) (getD_lt buf hb u)
  have hp : buf.getD u 0 &&& 0xf = buf.getD u 0 % 16 := and_15 _
  have h23 := rd_16_eq buf (u + 2) (by omega) hb
  have h67 := rd_16_eq buf (u + 6) (by omega) hb
  have e3 : u + 2 + 1 = u + 3 := rfl
  have e7 : u + 6 + 1 = u + 7 := rfl
  rw [e3] at h23
  rw [e7] at h67
  have hd8 := dStrHex_eq buf (u + 8) 8 0 (by omega)
  have hd16 := dStrHex_eq buf (u + 8) 16 0 (by omega)
  have e8 : ((u + 8 : Nat) : Int) = (u : Int) + 8 := by push_cast; rfl
  have c8 : ((8 : Nat) : Int) = 8 := rfl
  have c16 : ((16 : Nat) : Int) = 16 := rfl
  rw [e8, c8] at hd8
  rw [e8, c16] at hd16
  have hull := ull_loop_eq buf (u + 4) (by omega) hb
  have e4 : ((u + 4 : Nat) : Int) = (u : Int) + 4 := by push_cast; rfl
  rw [e4] at hull
  refine ⟨?_, ?_, ?_, ?_, ?_⟩ <;> intro hproto <;> unfold decode_transport_id_body <;>
    simp only [r0, bind, Except.bind, pure, Except.pure, hp, hproto, hf, r2, r3, r6, r7, h23,
      h67, hd8, hd16, hull]


theorem transport_id_fields_witness :
    decode_transport_id_body
        [0x76, 0, 0, 0, 0x50, 1, 2, 3, 4, 5, 6, 7, 0, 0, 0, 0, 0, 0, 0, 0, 0, 0, 0, 0]
        ((0 : Nat) : Int) 24 = .ok
      ([Line.printf "      Transport Id of initiator:\n" [],
        Line.printf "        SAS address: 0x%llx\n" [.int 0x5001020304050607],
        Line.printf "        [Unexpected format code: %d]\n" [.int 1]], [], 24) :=
  (transport_id_fields
    [0x76, 0, 0, 0, 0x50, 1, 2, 3, 4, 5, 6, 7, 0, 0, 0, 0, 0, 0, 0, 0, 0, 0, 0, 0] 0 24
    (by decide) (by decide)).2.2.2.2 (by rfl)

/-! ## decode_transport_id: the raw dump of an SSA record -/

/-- For a record with protocol identifier 2 (SSA) whose 24 bytes lie in the
buffer and a declared length len >= 1, the raw dump covers the first
min(24, len) bytes of the record: the whole declared length, not what is left
of it at the record, is compared with 24. -/
theorem ssa_dump_length (buf : List Nat) (u len : Nat) (hb : ∀ b ∈ buf, b < 256)
    (hlen : 1 ≤ len) (hfit : u + 24 ≤ buf.length) (hproto : buf.getD u 0 % 16 = 2) :
    decode_transport_id_body buf (u : Int) (len : Int) = .ok
      ([(if (len : Int) < 24 ∨ 0 ≠ Int.tmod (len : Int) 4 then
           Line.printf "      Transport Id short or not multiple of 4 [length=%d]:\n"
             [.int (len : Int)]
         else Line.printf "      Transport Id of initiator:\n" []),
        Line.printf "        SSA (transport id not defined):\n" [],
        Line.printf "        format code: %d\n" [.int (buf.getD u 0 / 64 : Nat)],
        Line.dStrHex ((buf.drop u).take (min 24 len)) 0], [], 24) := by
  have r0 := rd_add buf u 0 (by omega)
  simp only [Nat.cast_zero, add_zero, Nat.add_zero] at r0
  have hf := format_code_eq (buf.getD u 0) (getD_lt buf hb u)
  have hp : buf.getD u 0 &&& 0xf = 2 := by rw [and_15]; exact hproto
  have hd := dStrHex_eq buf u (min 24 len) 0 (by omega)
  have hmin : (if (len : Int) > 24 then (24 : Int) else (len : Int)) = ((min 24 len : Nat) : Int) := by
    split_ifs with h <;> omega
  unfold decode_transport_id_body
  simp only [r0, bind, Except.bind, pure, Except.pure, hp, hf, hmin, hd]

theorem ssa_dump_length_witness :
    decode_transport_id_body
        [0x02, 1, 2, 3, 4, 5, 6, 7, 8, 9, 10, 11, 12, 13, 14, 15, 16, 17, 18, 19, 20, 21, 22, 23]
        ((0 : Nat) : Int) ((10 : Nat) : Int) = .ok
      ([Line.printf "      Transport Id short or not multiple of 4 [length=%d]:\n" [.int 10],
        Line.printf "        SSA (transport id not defined):\n" [],
        Line.printf "        format code: %d\n" [.int 0],
        Line.dStrHex [0x02, 1, 2, 3, 4, 5, 6, 7, 8, 9] 0], [], 24) :=
  ssa_dump_length
    [0x02, 1, 2, 3, 4, 5, 6, 7, 8, 9, 10, 11, 12, 13, 14, 15, 16, 17, 18, 19, 20, 21, 22, 23]
    0 10 (by decide) (by decide) (by decide) (by rfl)

theorem getD_append_replicate (k : Nat) (blk : List Nat) (i j : Nat) (h : i = k + j) :
    (List.replicate k 0 ++ blk).getD i 0 = blk.getD j 0 := by
  subst h
  rw [List.getD_eq_getElem?_getD, List.getD_eq_getElem?_getD,
    List.getElem?_append_right (by simp)]
  simp

theorem bytes_append_replicate (k : Nat) (blk : List Nat) (h : ∀ b ∈ blk, b < 256) :
    ∀ b ∈ List.replicate k 0 ++ blk, b < 256 := by
  intro b hb
  rcases List.mem_append.mp hb with h0 | h1
  · rw [List.eq_of_mem_replicate h0]; decide
  · exact h b h1

theorem length_append_replicate (k : Nat) (blk : List Nat) :
    (List.replicate k 0 ++ blk).length = k + blk.length := by
  rw [List.length_append, List.length_replicate]

/-- An SSA record that starts inside the buffer with fewer than 24 bytes
behind it, under a declared length above 24: the dump of 24 bytes reads
outside the buffer. -/
theorem decode_transport_id_body_ssa_short (buf : List Nat) (u len : Nat)
    (hlen : 24 < len) (hin : u < buf.length) (hout : buf.length < u + 24)
    (hproto : buf.getD u 0 % 16 = 2) :
    decode_transport_id_body buf (u : Int) (len : Int) = .error .oob := by
  have r0 := rd_add buf u 0 (by omega)
  simp only [Nat.cast_zero, add_zero, Nat.add_zero] at r0
  have hp : buf.getD u 0 &&& 0xf = 2 := by rw [and_15]; exact hproto
  have hgt : (len : Int) > 24 := by omega
  have hd : dStrHex buf (u : Int) 24 0 = .error .oob := by
    unfold dStrHex
    rw [if_neg (by omega), if_neg (by omega)]
  unfold decode_transport_id_body
  simp only [r0, bind, Except.bind, pure, Except.pure, hp, hgt, if_true, hd]

/-- C26: the raw dump of an SSA record is not limited to what is left of the
declared length. Take a transport-id block of declared length len,
24 < len < 48, that lies in the buffer and holds a SAS record followed by an
SSA record at offset k = 24, so that min(24, len - k) = len - 24 < 24 bytes
are left. When the buffer has 48 bytes from the start of the block, the dump
of the SSA record covers 24 bytes, the last 48 - len of them past the declared
length; when the buffer ends before that, as when the block ends at the end
of the array, decode_transport_id reads outside the buffer. -/
theorem ssa_dump_reaches_past_declared_length (buf : List Nat) (u len : Nat)
    (hb : ∀ b ∈ buf, b < 256) (hlo : 24 < len) (hhi : len < 48)
    (hfit : u + len ≤ buf.length)
    (hsas : buf.getD u 0 % 16 = 6) (hfmt : buf.getD u 0 / 64 = 0)
    (hssa : buf.getD (u + 24) 0 % 16 = 2) :
    (u + 48 ≤ buf.length →
      decode_transport_id buf (u : Int) (len : Int) = .ok
        ([(if (len : Int) < 24 ∨ 0 ≠ Int.tmod (len : Int) 4 then
             Line.printf "      Transport Id short or not multiple of 4 [length=%d]:\n"
               [.int (len : Int)]
           else Line.printf "      Transport Id of initiator:\n" []),
          Line.printf "        SAS address: 0x%llx\n"
            [.int (be_value ((buf.drop (u + 4)).take 8))],
          (if (len : Int) < 24 ∨ 0 ≠ Int.tmod (len : Int) 4 then
             Line.printf "      Transport Id short or not multiple of 4 [length=%d]:\n"
               [.int (len : Int)]
           else Line.printf "      Transport Id of initiator:\n" []),
          Line.printf "        SSA (transport id not defined):\n" [],
          Line.printf "        format code: %d\n" [.int (buf.getD (u + 24) 0 / 64 : Nat)],
          Line.dStrHex ((buf.drop (u + 24)).take 24) 0], [])) ∧
    (buf.length < u + 48 →
      decode_transport_id buf (u : Int) (len : Int) = .error .oob) := by
  have hb1 := decode_transport_id_body_sas buf u (len : Int) hb hsas hfmt (by omega)
  have hfuel : (len : Int).toNat = (len - 3) + 1 + 1 + 1 := by
    rw [Int.toNat_ofNat]; omega
  have e24 : (u : Int) + 24 = ((u + 24 : Nat) : Int) := by push_cast; rfl
  have c1 : (0 : Int) < (len : Int) := by omega
  have c2 : (0 : Int) + 24 < (len : Int) := by omega
  have c3 : ¬ ((0 : Int) + 24 + 24 < (len : Int)) := by omega
  constructor
  · intro h48
    have hb2 := ssa_dump_length buf (u + 24) len hb (by omega) (by omega) hssa
    have hmin : min 24 len = 24 := by omega
    rw [hmin] at hb2
    unfold decode_transport_id
    rw [hfuel]
    simp only [decode_transport_id_loop, c1, c2, c3, if_true, if_false, hb1, e24, hb2, bind,
      Except.bind, pure, Except.pure, List.append_nil, List.cons_append, List.nil_append]
  · intro hshort
    have hb2 := decode_transport_id_body_ssa_short buf (u + 24) len hlo (by omega) (by omega) hssa
    unfold decode_transport_id
    rw [hfuel]
    simp only [decode_transport_id_loop, c1, c2, c3, if_true, if_false, hb1, e24, hb2, bind,
      Except.bind, pure, Except.pure]

theorem ssa_dump_reaches_past_declared_length_witness :
    decode_transport_id
        [0x06, 0, 0, 0, 0x50, 1, 2, 3, 4, 5, 6, 7, 0, 0, 0, 0, 0, 0, 0, 0, 0, 0, 0, 0,
         0x02, 1, 2, 3, 4, 5, 6, 7, 8, 9, 10, 11, 12, 13, 14, 15, 16, 17, 18, 19, 20, 21, 22, 23]
        ((0 : Nat) : Int) ((40 : Nat) : Int) = .ok
      ([Line.printf "      Transport Id of initiator:\n" [],
        Line.printf "        SAS address: 0x%llx\n" [.int 0x5001020304050607],
        Line.printf "      Transport Id of initiator:\n" [],
        Line.printf "        SSA (transport id not defined):\n" [],
        Line.printf "        format code: %d\n" [.int 0],
        Line.dStrHex [0x02, 1, 2, 3, 4, 5, 6, 7, 8, 9, 10, 11, 12, 13, 14, 15, 16, 17, 18, 19,
          20, 21, 22, 23] 0], []) ∧
    decode_transport_id
        (List.replicate 8152 0 ++
          [0x06, 0, 0, 0, 0x50, 1, 2, 3, 4, 5, 6, 7, 0, 0, 0, 0, 0, 0, 0, 0, 0, 0, 0, 0,
           0x02, 1, 2, 3, 4, 5, 6, 7, 8, 9, 10, 11, 12, 13, 14, 15])
        ((8152 : Nat) : Int) ((40 : Nat) : Int) = .error Fault.oob :=
  ⟨(ssa_dump_reaches_past_declared_length
      [0x06, 0, 0, 0, 0x50, 1, 2, 3, 4, 5, 6, 7, 0, 0, 0, 0, 0, 0, 0, 0, 0, 0, 0, 0,
       0x02, 1, 2, 3, 4, 5, 6, 7, 8, 9, 10, 11, 12, 13, 14, 15, 16, 17, 18, 19, 20, 21, 22, 23]
      0 40 (by decide) (by decide) (by decide) (by decide) (by rfl) (by rfl) (by rfl)).1
      (by decide),
   (ssa_dump_reaches_past_declared_length
      (List.replicate 8152 0 ++
        [0x06, 0, 0, 0, 0x50, 1, 2, 3, 4, 5, 6, 7, 0, 0, 0, 0, 0, 0, 0, 0, 0, 0, 0, 0,
         0x02, 1, 2, 3, 4, 5, 6, 7, 8, 9, 10, 11, 12, 13, 14, 15])
      8152 40 (bytes_append_replicate _ _ (by decide)) (by decide) (by decide)
      (by rw [length_append_replicate]; decide)
      (by rw [getD_append_replicate 8152 _ 8152 0 rfl]; rfl)
      (by rw [getD_append_replicate 8152 _ 8152 0 rfl]; rfl)
      (by rw [getD_append_replicate 8152 _ (8152 + 24) 24 rfl]; rfl)).2
      (by rw [length_append_replicate]; decide)⟩

/-! ## prin_work: a Read Full Status descriptor that does not advance -/

/-- The Read Full Status loop on a first descriptor whose sub-length field
holds 0xFFFFFFE8, which is -24 as an int: `num = 24 + add_desc_len` is 0, so
the loop comes back to the same descriptor, whatever the number of passes
allowed. -/
theorem prin_work_rfstat_loop_stuck (buf : List Nat) (hb : ∀ b ∈ buf, b < 256) (A : Nat)
    (hlen : 32 ≤ buf.length) (hA : 1 ≤ A)
    (hsub : be_value ((buf.drop 28).take 4) = 0xFFFFFFE8) :
    ∀ fuel : Nat, prin_work_rfstat_loop buf (A : Int) fuel 0 8 = .error .fuel := by
  have hlt : (0 : Int) < (A : Int) := by omega
  have r32 := rd_32_eq buf 28 (by omega) hb
  rw [hsub] at r32
  have e28 : ((28 : Nat) : Int) = (8 : Int) + 20 := rfl
  rw [e28] at r32
  have hti : toInt32 0xFFFFFFE8 = -24 := by decide
  have hnum : toInt32 (bits32 (24 + (-24 : Int))) = 0 := by decide
  have hk : toInt32 (bits32 (0 : Int)) = 0 := by decide
  have hull := ull_loop_eq buf 8 (by omega) hb
  have e8 : ((8 : Nat) : Int) = 8 := rfl
  rw [e8] at hull
  have r12 := rd_add buf 8 12 (by omega)
  have r13 := rd_add buf 8 13 (by omega)
  have r18 := rd_add buf 8 18 (by omega)
  have r19 := rd_add buf 8 19 (by omega)
  simp only [Nat.cast_ofNat] at r12 r13 r18 r19
  have hst := scope_type_lines_eq "      " (buf.getD (8 + 13) 0) (getD_lt buf hb (8 + 13))
  have hnp : ¬ ((-24 : Int) > 0) := by decide
  intro fuel
  induction fuel with
  | zero => simp only [prin_work_rfstat_loop, hlt, if_true]
  | succ f ih =>
    simp only [prin_work_rfstat_loop, hlt, if_true, r32, hti, hnum, hull, r12, r13, r18, r19,
      hst, hk, hnp, if_false, add_zero, ih, and_2, and_1, bind, Except.bind, pure, Except.pure]
    by_cases h1 : (buf.getD (8 + 12) 0).testBit 1 = true <;>
    by_cases h0 : (buf.getD (8 + 12) 0).testBit 0 = true <;>
    simp only [h1, h0, if_true, if_false, Bool.false_eq_true, hk, ih]

/-- C29: a Read Full Status response with a positive additional length whose
first descriptor carries the sub-length 0xFFFFFFE8 (-24 as an int) makes the
descriptor loop of prin_work advance by `num = 24 + add_desc_len = 0`: the
loop stays on this descriptor and does not finish, whatever the number of
passes allowed. -/
theorem read_full_status_loop_does_not_advance (execute : Transport) (buf : List Nat)
    (do_verbose : Int) (fuel : Nat) (h : prin_response execute PRIN_RFSTAT_SA buf)
    (hlo : 1 ≤ be_value ((buf.drop 4).take 4))
    (hhi : be_value ((buf.drop 4).take 4) < 2147483648)
    (hsub : be_value ((buf.drop 28).take 4) = 0xFFFFFFE8) :
    prin_work execute PRIN_RFSTAT_SA do_verbose 0 fuel = .error .fuel := by
  have hlen := prin_response_length execute _ buf h
  obtain ⟨r0, -, hwork⟩ := prin_work_noncap execute PRIN_RFSTAT_SA buf do_verbose 0 fuel
    (by decide) (by decide) h
  have hti := toInt32_small _ hhi
  have hloop := prin_work_rfstat_loop_stuck buf h.2.2 (be_value ((buf.drop 4).take 4))
    (by omega) hlo hsub fuel
  have hne1 : ¬ (PRIN_RKEY_SA = PRIN_RFSTAT_SA) := by decide
  have hne2 : ¬ (PRIN_RRES_SA = PRIN_RFSTAT_SA) := by decide
  rw [hwork]
  simp only [ne_eq, not_true_eq_false, if_false, hne1, hne2, if_true, hti, hloop, bind,
    Except.bind]

theorem read_full_status_loop_does_not_advance_witness :
    prin_work (fun _ => (Outcome.Success,
        [0, 0, 0, 1, 0, 0, 0, 24,
         0, 0, 0, 0, 0, 0, 0, 1, 0, 0, 0, 0, 0, 0, 0, 0, 0, 0, 0, 0, 0xff, 0xff, 0xff, 0xe8]))
      PRIN_RFSTAT_SA 0 0 1000 = .error .fuel :=
  read_full_status_loop_does_not_advance (fun _ => (Outcome.Success,
      [0, 0, 0, 1, 0, 0, 0, 24,
       0, 0, 0, 0, 0, 0, 0, 1, 0, 0, 0, 0, 0, 0, 0, 0, 0, 0, 0, 0, 0xff, 0xff, 0xff, 0xe8]))
    ([0, 0, 0, 1, 0, 0, 0, 24,
      0, 0, 0, 0, 0, 0, 0, 1, 0, 0, 0, 0, 0, 0, 0, 0, 0, 0, 0, 0, 0xff, 0xff, 0xff, 0xe8] ++
      List.replicate (MX_ALLOC_LEN - 32) 0) 0 1000
    (prin_response_short PRIN_RFSTAT_SA _ (by decide) (bytes_of_all _ (by rfl)))
    (by decide) (by decide) (by rfl)

/-! ## build_transportid: the reported length -/

theorem pad_k_ge (k : Nat) : 24 ≤ pad_k k := by
  unfold pad_k
  split_ifs <;> omega

theorem pad_k_mod (k : Nat) : pad_k k % 4 = 0 := by
  unfold pad_k
  split_ifs <;> omega

theorem pad_k_le (k n : Nat) (h : k ≤ n) (hn : n % 4 = 0) (h24 : 24 ≤ n) : pad_k k ≤ n := by
  unfold pad_k
  split_ifs <;> omega

/-- The loop over the lines of standard input keeps the total length a
multiple of 4 and at least 24 times the number of records. -/
theorem build_transportid_stdin_loop_inv :
    ∀ (todo j : Nat) (stdin : List Char) (off num : Nat) (tid_arr t2 : List Nat)
      (off2 num2 : Nat),
      build_transportid_stdin_loop todo j stdin off num tid_arr = .ok (t2, .inr (off2, num2)) →
      off % 4 = 0 → 24 * num ≤ off → off2 % 4 = 0 ∧ 24 * num2 ≤ off2 := by
  intro todo
  induction todo with
  | zero =>
    intro j stdin off num tid_arr t2 off2 num2 h h4 h24
    simp only [build_transportid_stdin_loop] at h
    injection h with h
    injection h with h1 h2
    injection h2 with h2
    injection h2 with h3 h4
    subst h3 h4
    exact ⟨h4, h24⟩
  | succ n ih =>
    intro j stdin off num tid_arr t2 off2 num2 h h4 h24
    simp only [build_transportid_stdin_loop] at h
    split at h
    · injection h with h
      injection h with h1 h2
      injection h2 with h2
      injection h2 with h3 h5
      subst h3 h5
      exact ⟨h4, h24⟩
    · split_ifs at h
      all_goals first
        | exact ih _ _ _ _ _ _ _ _ h h4 h24
        | exact absurd h (by simp)
        | (simp only [bind, Except.bind] at h
           split at h
           · exact absurd h (by simp)
           · rename_i v hv
             obtain ⟨t3, res⟩ := v
             cases res with
             | inl msg => exact absurd h (by simp [pure, Except.pure])
             | inr k =>
               simp only at h
               refine ih _ _ _ _ _ _ _ _ h ?_ ?_
               · have := pad_k_mod k; omega
               · have := pad_k_ge k; omega)


/-- C21: whenever build_transportid accepts its input (returns 0), the length
it reports is a multiple of 4 and at least 24 times the number of transport
ids it reports; for a comma-separated list on the command line that number is
1, so the length is at least 24, and for lines read from standard input with
at least one data line it is at least 24 times the number of records. -/
theorem transport_id_length_invariant (inp stdin : List Char) (tid_arr : List Nat)
    (tid_arr_len num_tids : Int) (r : TidResult)
    (h : build_transportid inp stdin tid_arr tid_arr_len num_tids = .ok r) (hret : r.ret = 0) :
    r.tid_arr_len % 4 = 0 ∧ 24 * r.num_tids ≤ r.tid_arr_len ∧
      (¬ (inp.head? = some '-') → r.num_tids = 1 ∧ 24 ≤ r.tid_arr_len) := by
  simp only [build_transportid, bind, Except.bind, pure, Except.pure] at h
  generalize (if 0 = inp.length then ((0 : Int), (0 : Int)) else (tid_arr_len, num_tids)) = pre
    at h
  by_cases hd : inp.head? = some '-'
  · rw [if_pos hd] at h
    cases hl : build_transportid_stdin_loop 512 0 stdin 0 0 tid_arr with
    | error f => rw [hl] at h; exact absurd h (by simp)
    | ok v =>
      obtain ⟨t2, res⟩ := v
      rw [hl] at h
      cases res with
      | inl msg =>
        simp only at h
        injection h with h
        subst h
        exact absurd hret (by simp)
      | inr p =>
        obtain ⟨off, num⟩ := p
        simp only at h
        injection h with h
        subst h
        obtain ⟨h4, h24⟩ := build_transportid_stdin_loop_inv 512 0 stdin 0 0 tid_arr t2 off num hl
          (by decide) (by decide)
        refine ⟨?_, ?_, fun hn => absurd hd hn⟩
        · show (off : Int) % 4 = 0
          omega
        · show 24 * (num : Int) ≤ (off : Int)
          omega
  · rw [if_neg hd] at h
    by_cases hk : inp.length ≠ strspn inp "0123456789aAbBcCdDeEfF,".toList
    · rw [if_pos hk] at h
      injection h with h
      subst h
      exact absurd hret (by simp)
    · rw [if_neg hk] at h
      cases hl : build_transportid_hex_loop inp 1024 0 0 tid_arr with
      | error f => rw [hl] at h; exact absurd h (by simp)
      | ok v =>
        obtain ⟨t2, res⟩ := v
        rw [hl] at h
        cases res with
        | inl msg =>
          simp only at h
          injection h with h
          subst h
          exact absurd hret (by simp)
        | inr k =>
          simp only at h
          injection h with h
          subst h
          have h4 := pad_k_mod k
          have h24 := pad_k_ge k
          refine ⟨?_, ?_, fun _ => ⟨rfl, ?_⟩⟩
          · show ((pad_k k : Nat) : Int) % 4 = 0
            omega
          · show 24 * (1 : Int) ≤ ((pad_k k : Nat) : Int)
            omega
          · show (24 : Int) ≤ ((pad_k k : Nat) : Int)
            omega

theorem transport_id_length_invariant_witness :
    (28 : Int) % 4 = 0 ∧ 24 * (1 : Int) ≤ 28 ∧
      (¬ ("0,1,2,3,4,5,6,7,8,9,a,b,c,d,e,f,10,11,12,13,14,15,16,17,18,19".toList.head?
          = some '-') → (1 : Int) = 1 ∧ (24 : Int) ≤ 28) :=
  transport_id_length_invariant
    "0,1,2,3,4,5,6,7,8,9,a,b,c,d,e,f,10,11,12,13,14,15,16,17,18,19".toList []
    (List.replicate 32 0) 0 0
    { ret := 0,
      tid_arr := [0, 1, 2, 3, 4, 5, 6, 7, 8, 9, 10, 11, 12, 13, 14, 15, 16, 17, 18, 19, 20, 21,
                  22, 23, 24, 25, 0, 0, 0, 0, 0, 0],
      tid_arr_len := 28, num_tids := 1, err := [] }
    (by rfl) (by rfl)

/-! ## build_transportid: lines that fill the array -/

theorem fgets_zero_line (rest : List Char) :
    fgets 512 ('0' :: '\n' :: rest) = some (['0', '\n'], rest) := by
  simp [fgets, List.takeWhile]

theorem set_replicate_self (n i : Nat) (a : Nat) :
    (List.replicate n a).set i a = List.replicate n a := by
  apply List.ext_getElem?
  intro j
  rw [List.getElem?_set]
  split_ifs with h1 h2
  · subst h1
    rw [List.getElem?_eq_getElem (by simpa using h2)]
    simp
  · subst h1
    rw [List.getElem?_eq_none (by simpa using h2)]
  · rfl

theorem wr_replicate (n off : Nat) :
    wr (List.replicate n 0) off 0 =
      if off < n then .ok (List.replicate n 0) else .error .oob := by
  unfold wr
  rw [List.length_replicate, set_replicate_self]

/-- One pass of the loop over the lines of standard input on the line `0`:
the byte 0 is stored at `tid_arr[off]` and the record takes 24 bytes. -/
theorem build_transportid_stdin_loop_zero_line (todo j off num : Nat) (rest : List Char)
    (tid_arr : List Nat) :
    build_transportid_stdin_loop (todo + 1) j ('0' :: '\n' :: rest) off num tid_arr =
      (do
        let tid_arr ← wr tid_arr off 0
        build_transportid_stdin_loop todo (j + 1) rest (off + 24) (num + 1) tid_arr) := by
  have hs : sscanf_x ['0'] = .ok (some 0) := by rfl
  have hp : strpbrk ['0'] [' ', ',', '\t'] = none := by decide
  have h1 : strspn ['0'] [' ', '\t'] = 0 := by decide
  have h2 : strspn ['0'] "0123456789aAbBcCdDeEfF ,\t".toList = 1 := by decide
  have hl : build_transportid_line_loop ['0'] j off 1024 0 0 tid_arr =
      (do
        let tid_arr ← wr tid_arr off 0
        pure (tid_arr, Sum.inr 0)) := by
    rw [build_transportid_line_loop]
    simp only [List.drop_zero, hs, hp, Nat.add_zero, bind, Except.bind, pure, Except.pure]
    cases wr tid_arr off 0 <;> simp
  rw [build_transportid_stdin_loop, fgets_zero_line]
  simp only [List.getLast?_cons_cons, List.getLast?_singleton, if_true, List.dropLast_cons₂,
    List.dropLast_single, List.length_singleton, h1, List.drop_zero, List.head?_cons, h2, hl,
    bind, Except.bind, pure, Except.pure]
  cases wr tid_arr off 0 with
  | error f => simp
  | ok t => simp [pad_k]


/-- The loop over the lines of standard input on n lines `0` that fit the
zeroed array: n records of 24 bytes are counted and the array is unchanged. -/
theorem build_transportid_stdin_loop_zero_lines (N : Nat) (rest : List Char) :
    ∀ (n todo j off num : Nat), n ≤ todo → off + 24 * n ≤ N + 23 →
      build_transportid_stdin_loop todo j
          ((List.replicate n ['0', '\n']).flatten ++ rest) off num (List.replicate N 0) =
        build_transportid_stdin_loop (todo - n) (j + n) rest (off + 24 * n) (num + n)
          (List.replicate N 0) := by
  intro n
  induction n with
  | zero => intro todo j off num _ _; rfl
  | succ n ih =>
    intro todo j off num htodo hfit
    obtain ⟨t, rfl⟩ : ∃ t, todo = t + 1 := ⟨todo - 1, by omega⟩
    have hstep := build_transportid_stdin_loop_zero_line t j off num
      ((List.replicate n ['0', '\n']).flatten ++ rest) (List.replicate N 0)
    have hw : wr (List.replicate N 0) off 0 = .ok (List.replicate N 0) := by
      rw [wr_replicate, if_pos (by omega)]
    have e : (List.replicate (n + 1) ['0', '\n']).flatten ++ rest =
        '0' :: '\n' :: ((List.replicate n ['0', '\n']).flatten ++ rest) := by
      simp [List.replicate_succ]
    rw [e, hstep, hw]
    simp only [bind, Except.bind]
    rw [ih t (j + 1) (off + 24) (num + 1) (by omega) (by omega)]
    have e1 : t + 1 - (n + 1) = t - n := by omega
    have e2 : j + 1 + n = j + (n + 1) := by omega
    have e3 : off + 24 + 24 * n = off + 24 * (n + 1) := by omega
    have e4 : num + 1 + n = num + (n + 1) := by omega
    rw [e1, e2, e3, e4]

theorem flatten_replicate_succ (n : Nat) (x : List Char) :
    (List.replicate n x).flatten ++ x = (List.replicate (n + 1) x).flatten := by
  rw [List.replicate_succ' n, List.flatten_append]
  simp

theorem build_transportid_stdin_loop_eof (todo j off num : Nat) (tid_arr : List Nat) :
    build_transportid_stdin_loop (todo + 1) j [] off num tid_arr =
      .ok (tid_arr, .inr (off, num)) := by
  rw [build_transportid_stdin_loop]
  rfl

theorem build_transportid_stdin_ok (stdin : List Char) (tid_arr : List Nat) (a b : Int)
    (t2 : List Nat) (off num : Nat)
    (h : build_transportid_stdin_loop 512 0 stdin 0 0 tid_arr = .ok (t2, .inr (off, num))) :
    build_transportid ['-'] stdin tid_arr a b =
      .ok { ret := 0, tid_arr := t2, tid_arr_len := off, num_tids := num, err := [] } := by
  simp only [build_transportid, List.head?_cons, if_true, h, bind, Except.bind, pure,
    Except.pure]

theorem build_transportid_stdin_error (stdin : List Char) (tid_arr : List Nat) (a b : Int)
    (f : Fault) (h : build_transportid_stdin_loop 512 0 stdin 0 0 tid_arr = .error f) :
    build_transportid ['-'] stdin tid_arr a b = .error f := by
  simp only [build_transportid, List.head?_cons, if_true, h, bind, Except.bind]

/-- C30: in line mode build_transportid does not stay inside the 8192-byte
array of its caller. On 342 lines `0` it returns 0 and reports the total
length 8208, more than the 8192 bytes of the array; on 343 such lines the
byte of the last line is stored at index 8208, outside the array. -/
theorem transport_id_lines_overrun_array :
    (∃ r, build_transportid ['-'] (List.replicate 342 ['0', '\n']).flatten
        (List.replicate MX_ALLOC_LEN 0) 0 0 = .ok r ∧
      r.ret = 0 ∧ r.num_tids = 342 ∧ r.tid_arr_len = 8208 ∧
      (MX_ALLOC_LEN : Int) < r.tid_arr_len) ∧
    build_transportid ['-'] (List.replicate 343 ['0', '\n']).flatten
        (List.replicate MX_ALLOC_LEN 0) 0 0 = .error .oob := by
  have h1 := build_transportid_stdin_loop_zero_lines MX_ALLOC_LEN [] 342 512 0 0 0
    (by decide) (by decide)
  have h2 := build_transportid_stdin_loop_zero_lines MX_ALLOC_LEN ['0', '\n'] 342 512 0 0 0
    (by decide) (by decide)
  rw [List.append_nil] at h1
  rw [flatten_replicate_succ 342] at h2
  have hstep := build_transportid_stdin_loop_zero_line 169 342 8208 342 []
    (List.replicate MX_ALLOC_LEN 0)
  have hw : wr (List.replicate MX_ALLOC_LEN 0) 8208 0 = .error .oob := by
    rw [wr_replicate, if_neg (by decide)]
  have heof := build_transportid_stdin_loop_eof 169 342 8208 342 (List.replicate MX_ALLOC_LEN 0)
  constructor
  · exact ⟨_, build_transportid_stdin_ok _ _ 0 0 _ _ _ (h1.trans heof), rfl, rfl, rfl,
      by decide⟩
  · apply build_transportid_stdin_error
    rw [h2]
    refine hstep.trans ?_
    rw [hw]
    rfl

/-! ## build_transportid: characters and the library calls -/

theorem hexcomma_facts :
    ∀ c ∈ "0123456789aAbBcCdDeEfF,".toList,
      (c = ',' ∨ (hex_digit c).isSome = true) ∧ isspace c = false ∧ c ≠ ' ' ∧ c ≠ '\t' ∧
      c ≠ '\n' ∧ c ≠ '#' ∧ c ≠ '-' ∧
      ([' ', ',', '\t'].contains c = (c == ',')) ∧
      "0123456789aAbBcCdDeEfF ,\t".toList.contains c = true ∧
      ((hex_digit c).isSome = true → c ≠ ',') := by
  decide

theorem strspn_eq_length (s acc : List Char) :
    strspn s acc = s.length ↔ ∀ c ∈ s, acc.contains c = true := by
  unfold strspn
  induction s with
  | nil => simp
  | cons c s ih =>
    by_cases hc : acc.contains c = true
    · rw [List.takeWhile_cons_of_pos hc]
      simp only [List.length_cons, Nat.add_right_cancel_iff, List.mem_cons, forall_eq_or_imp, hc,
        true_and]
      exact ih
    · rw [List.takeWhile_cons_of_neg hc]
      constructor
      · intro h
        simp at h
      · intro h
        exact absurd (h c (List.mem_cons_self _ _)) hc

theorem findIdx_congr (t : List Char) (p q : Char → Bool) (h : ∀ c ∈ t, p c = q c) :
    t.findIdx p = t.findIdx q := by
  induction t with
  | nil => rfl
  | cons c t ih =>
    have hc := h c (List.mem_cons_self _ _)
    have ht := ih (fun d hd => h d (List.mem_cons_of_mem _ hd))
    simp only [List.findIdx_cons, hc, ht]


theorem sscanf_x_nil : sscanf_x [] = .ok none := rfl

theorem sscanf_x_not_hex (c : Char) (rest : List Char) (hs : isspace c = false)
    (hh : (hex_digit c).isSome = false) : sscanf_x (c :: rest) = .ok none := by
  unfold sscanf_x
  have hd : List.dropWhile isspace (c :: rest) = c :: rest :=
    List.dropWhile_cons_of_neg (by simp [hs])
  have ht : List.takeWhile (fun c => (hex_digit c).isSome) (c :: rest) = [] :=
    List.takeWhile_cons_of_neg (by simp [hh])
  simp only [hd, ht, if_true]

/-- A successful conversion on a text without white space starts at a
hexadecimal digit. -/
theorem sscanf_x_some_head (s : List Char) (h : Nat) (hs : ∀ c ∈ s, isspace c = false)
    (hx : sscanf_x s = .ok (some h)) :
    ∃ c rest, s = c :: rest ∧ (hex_digit c).isSome = true := by
  cases s with
  | nil => rw [sscanf_x_nil] at hx; exact absurd hx (by simp)
  | cons c rest =>
    by_cases hh : (hex_digit c).isSome = true
    · exact ⟨c, rest, rfl, hh⟩
    · rw [sscanf_x_not_hex c rest (hs c (List.mem_cons_self _ _)) (by simpa using hh)] at hx
      exact absurd hx (by simp)

theorem strchr_some (t : List Char) (cp : Nat) (h : strchr t ',' = some cp) :
    cp < t.length ∧ t.drop cp = ',' :: t.drop (cp + 1) := by
  unfold strchr at h
  simp only at h
  split_ifs at h with hlt
  injection h with h
  subst h
  refine ⟨hlt, ?_⟩
  have hg := List.findIdx_getElem (w := hlt)
  have hg2 : t[List.findIdx (fun d => d == ',') t] = ',' := by simpa using hg
  rw [List.drop_eq_getElem_cons hlt, hg2]

theorem strchr_pos (c : Char) (rest : List Char) (cp : Nat) (hc : c ≠ ',')
    (h : strchr (c :: rest) ',' = some cp) : 1 ≤ cp := by
  unfold strchr at h
  simp only at h
  split_ifs at h with hlt
  injection h with h
  subst h
  rw [List.findIdx_cons]
  have : (c == ',') = false := by simpa using hc
  rw [this]
  simp

theorem strpbrk_eq_strchr (t : List Char)
    (ht : ∀ c ∈ t, "0123456789aAbBcCdDeEfF,".toList.contains c = true) :
    strpbrk t [' ', ',', '\t'] = strchr t ',' := by
  unfold strpbrk strchr
  have := findIdx_congr t (fun d => [' ', ',', '\t'].contains d) (fun d => d == ',')
    (fun c hc => (hexcomma_facts c (by simpa using ht c hc)).2.2.2.2.2.2.2.1)
  simp only [this]

theorem mem_of_mem_drop (s : List Char) (n : Nat) (c : Char) (h : c ∈ s.drop n) : c ∈ s :=
  List.mem_of_mem_drop h

theorem hex_loop_inr_sscanf (s : List Char) (n k lcp : Nat) (tid_arr t2 : List Nat) (k2 : Nat)
    (h : build_transportid_hex_loop s (n + 1) k lcp tid_arr = .ok (t2, .inr k2)) :
    ∃ hx, sscanf_x (s.drop lcp) = .ok (some hx) := by
  simp only [build_transportid_hex_loop, bind, Except.bind] at h
  cases hs : sscanf_x (s.drop lcp) with
  | error f => rw [hs] at h; exact absurd h (by simp)
  | ok v =>
    cases v with
    | none => rw [hs] at h; exact absurd h (by simp [pure, Except.pure])
    | some hx => exact ⟨hx, rfl⟩

/-! ## build_transportid: the two loops on the same text -/

/-- On a text of hexadecimal digits and commas that the command-line loop
accepts, the loop for a line of standard input stores the same bytes and
leaves with the same k. -/
theorem line_loop_of_hex_loop (s : List Char) (j : Nat)
    (hc : ∀ c ∈ s, "0123456789aAbBcCdDeEfF,".toList.contains c = true) :
    ∀ (todo k lcp : Nat) (tid_arr t2 : List Nat) (k2 : Nat),
      s.length < lcp + 2 * todo →
      build_transportid_hex_loop s todo k lcp tid_arr = .ok (t2, .inr k2) →
      build_transportid_line_loop s j 0 todo k lcp tid_arr = .ok (t2, .inr k2) := by
  have hns : ∀ n, ∀ c ∈ s.drop n, isspace c = false := fun n c hmem =>
    (hexcomma_facts c (by simpa using hc c (List.mem_of_mem_drop hmem))).2.1
  intro todo
  induction todo with
  | zero =>
    intro k lcp tid_arr t2 k2 _ h
    simp only [build_transportid_hex_loop] at h
    simp only [build_transportid_line_loop, h]
  | succ n ih =>
    intro k lcp tid_arr t2 k2 hm h
    obtain ⟨hx, hsx⟩ := hex_loop_inr_sscanf s n k lcp tid_arr t2 k2 h
    obtain ⟨c0, rest0, hd0, hh0⟩ := sscanf_x_some_head _ hx (hns lcp) hsx
    have hc0 : c0 ≠ ',' := by
      have hmem : c0 ∈ s.drop lcp := by rw [hd0]; exact List.mem_cons_self _ _
      exact (hexcomma_facts c0 (by simpa using hc c0 (List.mem_of_mem_drop hmem))).2.2.2.2.2.2.2.2.2 hh0
    have hpb := strpbrk_eq_strchr (s.drop lcp) (fun c hmem => hc c (List.mem_of_mem_drop hmem))
    simp only [build_transportid_hex_loop, hsx, bind, Except.bind] at h
    simp only [build_transportid_line_loop, hsx, hpb, Nat.zero_add, bind, Except.bind]
    by_cases hgt : hx > 0xff
    · rw [if_pos hgt] at h
      exact absurd h (by simp [pure, Except.pure])
    · rw [if_neg hgt] at h
      rw [if_neg hgt]
      cases hw : wr tid_arr k hx with
      | error f => rw [hw] at h; exact absurd h (by simp)
      | ok t3 =>
        rw [hw] at h
        simp only at h ⊢
        cases hch : strchr (s.drop lcp) ',' with
        | none =>
          rw [hch] at h
          simp only at h ⊢
          exact h
        | some cp =>
          rw [hch] at h
          simp only at h ⊢
          obtain ⟨hlt, hdrop⟩ := strchr_some _ _ hch
          have hcp : 1 ≤ cp := by
            rw [hd0] at hch
            exact strchr_pos c0 rest0 cp hc0 hch
          rw [List.length_drop] at hlt
          rw [List.drop_drop] at hdrop
          rw [List.drop_drop] at hdrop
          obtain ⟨m, rfl⟩ : ∃ m, n = m + 1 := ⟨n - 1, by omega⟩
          obtain ⟨hx2, hsx2⟩ := hex_loop_inr_sscanf s m (k + 1) (lcp + cp + 1) t3 t2 k2 h
          obtain ⟨c1, rest1, hd1, hh1⟩ := sscanf_x_some_head _ hx2 (hns _) hsx2
          have hc1 : [' ', ',', '\t'].contains c1 = false := by
            have hmem : c1 ∈ s.drop (lcp + cp + 1) := by rw [hd1]; exact List.mem_cons_self _ _
            have hf := hexcomma_facts c1 (by simpa using hc c1 (List.mem_of_mem_drop hmem))
            rw [hf.2.2.2.2.2.2.2.1]
            simpa using hf.2.2.2.2.2.2.2.2.2 hh1
          have e2 : lcp + (cp + 1) = lcp + cp + 1 := by omega
          rw [e2] at hdrop
          have hspn : strspn (s.drop (lcp + cp)) [' ', ',', '\t'] = 1 := by
            unfold strspn
            rw [hdrop, hd1, List.takeWhile_cons_of_pos (by decide),
              List.takeWhile_cons_of_neg
                (by show ¬ ([' ', ',', '\t'].contains c1 = true); rw [hc1]; simp)]
            rfl
          have hne : ¬ (s.drop (lcp + cp + 1) = []) := by rw [hd1]; simp
          rw [hspn, if_neg hne]
          exact ih (k + 1) (lcp + cp + 1) t3 t2 k2 (by omega) h

/-! ## build_transportid: reading a line -/

theorem fgets_line_nl (l rest : List Char) (hn : ∀ c ∈ l, c ≠ '\n') (hlen : l.length ≤ 510) :
    fgets 512 (l ++ '\n' :: rest) = some (l ++ ['\n'], rest) := by
  have hne : ¬ (l ++ '\n' :: rest = []) := by simp
  have htw : List.takeWhile (fun c => c != '\n') (l ++ '\n' :: rest) = l := by
    rw [List.takeWhile_append_of_pos (fun c hc => by simpa using hn c hc)]
    simp
  have hlt : l.length < (l ++ '\n' :: rest).length := by
    rw [List.length_append, List.length_cons]; omega
  have htake : List.take (512 - 1) (l ++ ['\n']) = l ++ ['\n'] :=
    List.take_of_length_le (by rw [List.length_append, List.length_singleton]; omega)
  have hdrop : List.drop (l ++ ['\n']).length (l ++ '\n' :: rest) = rest := by
    have e : l ++ '\n' :: rest = (l ++ ['\n']) ++ rest := by simp
    rw [e, List.drop_left]
  unfold fgets
  simp only [hne, if_false, htw, hlt, if_true, htake, hdrop]

theorem fgets_line_eof (l : List Char) (hn : ∀ c ∈ l, c ≠ '\n') (hne : l ≠ [])
    (hlen : l.length ≤ 511) : fgets 512 l = some (l, []) := by
  have htw : List.takeWhile (fun c => c != '\n') l = l := by
    rw [List.takeWhile_eq_self_iff]
    intro c hc
    simpa using hn c hc
  have htake : List.take (512 - 1) l = l := List.take_of_length_le (by omega)
  unfold fgets
  simp only [hne, if_false, htw, lt_self_iff_false, htake, List.drop_length]

theorem getLast_ne_nl (l : List Char) (hn : ∀ c ∈ l, c ≠ '\n') : ¬ (l.getLast? = some '\n') := by
  intro h
  exact hn _ (List.mem_of_getLast?_eq_some h) rfl

theorem strspn_le (s acc : List Char) : strspn s acc ≤ s.length := by
  unfold strspn
  induction s with
  | nil => simp
  | cons c s ih =>
    rw [List.takeWhile_cons]
    split_ifs
    · simp only [List.length_cons]; omega
    · simp

theorem strip_nl (l : List Char) :
    (if (l ++ ['\n']).getLast? = some '\n' then (l ++ ['\n']).dropLast else l ++ ['\n']) = l := by
  rw [if_pos (by simp), List.dropLast_concat]

theorem strip_none (l : List Char) (hn : ∀ c ∈ l, c ≠ '\n') :
    (if l.getLast? = some '\n' then l.dropLast else l) = l := by
  rw [if_neg (getLast_ne_nl l hn)]

/-- One pass of the loop over the lines of standard input, once `fgets` has
returned a line that holds l after the removal of its newline and l is a data
line: not empty, not blank, not a comment and made of the characters allowed. -/
theorem build_transportid_stdin_loop_data (todo j off num : Nat) (tid_arr : List Nat)
    (stdin line l rest : List Char) (hf : fgets 512 stdin = some (line, rest))
    (hl : (if line.getLast? = some '\n' then line.dropLast else line) = l)
    (hm : strspn l [' ', '\t'] ≠ l.length)
    (hhash : ¬ ((l.drop (strspn l [' ', '\t'])).head? = some '#'))
    (hk : strspn (l.drop (strspn l [' ', '\t'])) "0123456789aAbBcCdDeEfF ,\t".toList
      = l.length - strspn l [' ', '\t']) :
    build_transportid_stdin_loop (todo + 1) j stdin off num tid_arr =
      (do
        let (tid_arr, r) ←
          build_transportid_line_loop l j off 1024 0 (strspn l [' ', '\t']) tid_arr
        match r with
        | .inl msg => pure (tid_arr, .inl msg)
        | .inr k =>
          build_transportid_stdin_loop todo (j + 1) rest (off + pad_k k) (num + 1) tid_arr) := by
  have hne : ¬ (0 = l.length) := by
    intro h0
    apply hm
    have := strspn_le l [' ', '\t']
    omega
  rw [build_transportid_stdin_loop, hf]
  simp only [hl, hne, if_false, hm, hhash, hk, ne_eq, not_true_eq_false]

/-! ## build_transportid: the command line and a single line of standard input -/

/-- What acceptance on the command line says about the argument: it is made of
hexadecimal digits and commas, it starts with a hexadecimal digit, and the
command-line loop has left with some k. -/
theorem build_transportid_accepted (s stdin : List Char) (tid_arr : List Nat) (a b : Int)
    (r : TidResult) (hdash : ¬ (s.head? = some '-'))
    (h : build_transportid s stdin tid_arr a b = .ok r) (hret : r.ret = 0) :
    (∀ c ∈ s, "0123456789aAbBcCdDeEfF,".toList.contains c = true) ∧
    ∃ k, build_transportid_hex_loop s 1024 0 0 tid_arr = .ok (r.tid_arr, .inr k) ∧
      r.tid_arr_len = (pad_k k : Nat) ∧ r.num_tids = 1 := by
  simp only [build_transportid, bind, Except.bind, pure, Except.pure] at h
  generalize (if 0 = s.length then ((0 : Int), (0 : Int)) else (a, b)) = pre at h
  rw [if_neg hdash] at h
  by_cases hk : s.length ≠ strspn s "0123456789aAbBcCdDeEfF,".toList
  · rw [if_pos hk] at h
    injection h with h
    subst h
    exact absurd hret (by simp)
  · rw [if_neg hk] at h
    have hk2 : strspn s "0123456789aAbBcCdDeEfF,".toList = s.length := by
      by_contra hne
      exact hk (fun e => hne e.symm)
    refine ⟨(strspn_eq_length s _).mp hk2, ?_⟩
    cases hl : build_transportid_hex_loop s 1024 0 0 tid_arr with
    | error f => rw [hl] at h; exact absurd h (by simp)
    | ok v =>
      obtain ⟨t2, res⟩ := v
      rw [hl] at h
      cases res with
      | inl msg =>
        simp only at h
        injection h with h
        subst h
        exact absurd hret (by simp)
      | inr k =>
        simp only at h
        injection h with h
        subst h
        exact ⟨k, rfl, rfl, rfl⟩

/-- C28: a string s of fewer than 511 characters that build_transportid
accepts as a comma-separated list on the command line is also accepted when
it is the only line of standard input, with or without a newline after it,
and the call leaves the same bytes in the array, reports the same total
length, and reports one transport id. -/
theorem adapters_agree (s stdin0 : List Char) (tid_arr : List Nat) (a b a2 b2 : Int)
    (r : TidResult) (hlen : s.length < 511) (hdash : ¬ (s.head? = some '-'))
    (h : build_transportid s stdin0 tid_arr a b = .ok r) (hret : r.ret = 0) :
    ∀ stdin, stdin = s ∨ stdin = s ++ ['\n'] →
      ∃ r2, build_transportid ['-'] stdin tid_arr a2 b2 = .ok r2 ∧ r2.ret = 0 ∧
        r2.tid_arr = r.tid_arr ∧ r2.tid_arr_len = r.tid_arr_len ∧ r2.num_tids = 1 ∧
        r.num_tids = 1 := by
  obtain ⟨hc, k, hloop, hlen2, hnum⟩ :=
    build_transportid_accepted s stdin0 tid_arr a b r hdash h hret
  have hfacts : ∀ c ∈ s, _ := fun c hmem => hexcomma_facts c (by simpa using hc c hmem)
  have hnonl : ∀ c ∈ s, c ≠ '\n' := fun c hmem => (hfacts c hmem).2.2.2.2.1
  obtain ⟨hx, hsx⟩ := hex_loop_inr_sscanf s 1023 0 0 tid_arr r.tid_arr k hloop
  rw [List.drop_zero] at hsx
  obtain ⟨c0, rest0, hd0, hh0⟩ := sscanf_x_some_head s hx (fun c hmem => (hfacts c hmem).2.1) hsx
  have hc0 := hfacts c0 (by rw [hd0]; exact List.mem_cons_self _ _)
  have hm0 : strspn s [' ', '\t'] = 0 := by
    unfold strspn
    rw [hd0, List.takeWhile_cons_of_neg]
    · rfl
    · have h1 := hc0.2.2.1
      have h2 := hc0.2.2.2.1
      simp [h1, h2]
  have hne : s ≠ [] := by rw [hd0]; simp
  have hline := line_loop_of_hex_loop s 0 hc 1024 0 0 tid_arr r.tid_arr k (by omega) hloop
  have hk3 : strspn s "0123456789aAbBcCdDeEfF ,\t".toList = s.length :=
    (strspn_eq_length s _).mpr (fun c hmem => (hfacts c hmem).2.2.2.2.2.2.2.2.1)
  intro stdin hstdin
  have hstep : build_transportid_stdin_loop 512 0 stdin 0 0 tid_arr =
      .ok (r.tid_arr, .inr (pad_k k, 1)) := by
    have hgen : ∀ line rest, fgets 512 stdin = some (line, rest) →
        (if line.getLast? = some '\n' then line.dropLast else line) = s → rest = [] →
        build_transportid_stdin_loop 512 0 stdin 0 0 tid_arr =
          .ok (r.tid_arr, .inr (pad_k k, 1)) := by
      intro line rest hf hl hrest
      have := build_transportid_stdin_loop_data 511 0 0 0 tid_arr stdin line s rest hf hl
        (by rw [hm0]; intro e; exact hne (List.length_eq_zero.mp e.symm))
        (by rw [hm0, List.drop_zero, hd0]
            intro e
            simp only [List.head?_cons, Option.some.injEq] at e
            exact hc0.2.2.2.2.2.1 e)
        (by rw [hm0, List.drop_zero, hk3]; rfl)
      rw [this, hm0, hline, hrest]
      simp only [bind, Except.bind, Nat.zero_add]
      exact build_transportid_stdin_loop_eof 510 1 (pad_k k) 1 r.tid_arr
    rcases hstdin with e | e
    · subst e
      exact hgen stdin [] (fgets_line_eof stdin hnonl hne (by omega)) (strip_none stdin hnonl) rfl
    · subst e
      have hf := fgets_line_nl s [] hnonl (by omega)
      exact hgen (s ++ ['\n']) [] hf (strip_nl s) rfl
  refine ⟨_, build_transportid_stdin_ok stdin tid_arr a2 b2 _ _ _ hstep, rfl, rfl, ?_, rfl, hnum⟩
  rw [hlen2]


theorem adapters_agree_witness :
    ∃ r2, build_transportid ['-'] ("1,2,ff".toList ++ ['\n']) (List.replicate 32 0) 5 7 = .ok r2 ∧
      r2.ret = 0 ∧
      r2.tid_arr = 1 :: 2 :: 0xff :: List.replicate 29 0 ∧ r2.tid_arr_len = 24 ∧
      r2.num_tids = 1 ∧ (1 : Int) = 1 :=
  adapters_agree "1,2,ff".toList [] (List.replicate 32 0) 0 0 5 7
    { ret := 0, tid_arr := 1 :: 2 :: 0xff :: List.replicate 29 0, tid_arr_len := 24,
      num_tids := 1, err := [] }
    (by decide) (by decide) (by rfl) (by rfl) _ (Or.inr rfl)

/-! ## build_transportid: tokens on the command line -/

theorem isspace_not_hex (c : Char) (h : (hex_digit c).isSome = true) : isspace c = false := by
  by_contra hs
  have hs2 : isspace c = true := by simpa using hs
  unfold isspace at hs2
  simp only [Bool.or_eq_true, beq_iff_eq] at hs2
  have key : c = ' ' ∨ c = '\t' ∨ c = '\n' ∨ c = Char.ofNat 11 ∨ c = Char.ofNat 12 ∨ c = '\r' := by
    rcases hs2 with ((((h1 | h1) | h1) | h1) | h1) | h1
    · exact Or.inl h1
    · exact Or.inr (Or.inl h1)
    · exact Or.inr (Or.inr (Or.inl h1))
    · right; right; right; left
      rw [← Char.ofNat_toNat c, h1]
    · right; right; right; right; left
      rw [← Char.ofNat_toNat c, h1]
    · exact Or.inr (Or.inr (Or.inr (Or.inr (Or.inr h1))))
  rcases key with h1 | h1 | h1 | h1 | h1 | h1 <;> rw [h1] at h <;> exact absurd h (by decide)

theorem hex_not_comma (c : Char) (h : (hex_digit c).isSome = true) : c ≠ ',' := by
  intro e
  rw [e] at h
  exact absurd h (by decide)

theorem takeWhile_token (t r : List Char) (ht : ∀ c ∈ t, (hex_digit c).isSome = true)
    (hr : r = [] ∨ ∃ r2, r = ',' :: r2) :
    List.takeWhile (fun c => (hex_digit c).isSome) (t ++ r) = t := by
  rw [List.takeWhile_append_of_pos ht]
  rcases hr with h | ⟨r2, h⟩
  · rw [h]; simp
  · rw [h, List.takeWhile_cons_of_neg (by decide)]; simp

/-- The conversion of a token of hexadecimal digits that is followed by a
comma or by the end of the text. -/
theorem sscanf_x_token (t r : List Char) (hne : t ≠ [])
    (ht : ∀ c ∈ t, (hex_digit c).isSome = true) (hr : r = [] ∨ ∃ r2, r = ',' :: r2) :
    sscanf_x (t ++ r) =
      if hex_value t < 4294967296 then .ok (some (hex_value t)) else .error .range := by
  obtain ⟨c, t2, rfl⟩ : ∃ c t2, t = c :: t2 := by
    cases t with
    | nil => exact absurd rfl hne
    | cons c t2 => exact ⟨c, t2, rfl⟩
  have hs := isspace_not_hex c (ht c (List.mem_cons_self _ _))
  have hd : List.dropWhile isspace (c :: t2 ++ r) = c :: t2 ++ r :=
    List.dropWhile_cons_of_neg (by simp [hs])
  have htw := takeWhile_token (c :: t2) r ht hr
  unfold sscanf_x
  simp only [hd, htw, hex_value]
  rw [if_neg (by simp)]

theorem sscanf_x_empty_token (r : List Char) (hr : r = [] ∨ ∃ r2, r = ',' :: r2) :
    sscanf_x r = .ok none := by
  rcases hr with h | ⟨r2, h⟩
  · rw [h]; rfl
  · rw [h]; exact sscanf_x_not_hex ',' r2 (by decide) (by decide)

theorem findIdx_token (t r : List Char) (ht : ∀ c ∈ t, (hex_digit c).isSome = true) :
    List.findIdx (fun d => d == ',') (t ++ r) = t.length + List.findIdx (fun d => d == ',') r := by
  induction t with
  | nil => simp
  | cons c t ih =>
    have hc : (c == ',') = false := by
      simpa using hex_not_comma c (ht c (List.mem_cons_self _ _))
    have := ih (fun d hd => ht d (List.mem_cons_of_mem _ hd))
    rw [List.cons_append, List.findIdx_cons, hc, this]
    simp only [cond_false, List.length_cons]
    omega

theorem strchr_token_comma (t r : List Char) (ht : ∀ c ∈ t, (hex_digit c).isSome = true) :
    strchr (t ++ ',' :: r) ',' = some t.length := by
  unfold strchr
  simp only [findIdx_token t _ ht, List.findIdx_cons, beq_self_eq_true, cond_true, Nat.add_zero,
    List.length_append, List.length_cons]
  rw [if_pos (by omega)]

theorem strchr_token_end (t : List Char) (ht : ∀ c ∈ t, (hex_digit c).isSome = true) :
    strchr t ',' = none := by
  unfold strchr
  have := findIdx_token t [] ht
  rw [List.append_nil] at this
  simp only [this, List.findIdx_nil, Nat.add_zero, lt_self_iff_false, if_false]

theorem hex_list_cons (t : List Char) (ts : List (List Char)) :
    hex_list (t :: ts) = t ++ (if ts = [] then [] else ',' :: hex_list ts) := by
  cases ts with
  | nil => simp [hex_list]
  | cons u us => simp [hex_list]

theorem hex_list_tail (ts : List (List Char)) :
    (if ts = [] then ([] : List Char) else ',' :: hex_list ts) = [] ∨
      ∃ r2, (if ts = [] then ([] : List Char) else ',' :: hex_list ts) = ',' :: r2 := by
  by_cases h : ts = []
  · left; rw [if_pos h]
  · right; rw [if_neg h]; exact ⟨_, rfl⟩

/-- One pass of the command-line loop at a place where the text that is left
is the comma-separated list of the tokens t :: ts. -/
theorem build_transportid_hex_loop_step (inp : List Char) (t : List Char)
    (ts : List (List Char)) (todo k lcp : Nat) (tid_arr : List Nat)
    (hd : inp.drop lcp = hex_list (t :: ts)) (ht : ∀ c ∈ t, (hex_digit c).isSome = true) :
    build_transportid_hex_loop inp (todo + 1) k lcp tid_arr =
      if t = [] then
        .ok (tid_arr, .inl (.printf "build_transportid: error at pos %d\n"
          [.int (lcp + 1 : Nat)]))
      else if ¬ (hex_value t < 4294967296) then .error .range
      else if hex_value t > 0xff then
        .ok (tid_arr, .inl (.printf
          "build_transportid: hex number larger than 0xff at pos %d\n" [.int (lcp + 1 : Nat)]))
      else
        match wr tid_arr k (hex_value t) with
        | .error f => .error f
        | .ok tid2 =>
          if ts = [] then .ok (tid2, .inr k)
          else build_transportid_hex_loop inp todo (k + 1) (lcp + t.length + 1) tid2 := by
  rw [hex_list_cons] at hd
  have htail := hex_list_tail ts
  rw [build_transportid_hex_loop, hd]
  by_cases hnil : t = []
  · subst hnil
    rw [List.nil_append, sscanf_x_empty_token _ htail]
    simp only [bind, Except.bind, pure, Except.pure, if_true]
  · rw [sscanf_x_token t _ hnil ht htail]
    simp only [hnil, if_false]
    by_cases h32 : hex_value t < 4294967296
    · simp only [h32, if_true, not_true_eq_false, if_false, bind, Except.bind, pure, Except.pure]
      by_cases hgt : hex_value t > 0xff
      · simp only [hgt, if_true]
      · simp only [hgt, if_false]
        cases wr tid_arr k (hex_value t) with
        | error f => rfl
        | ok tid2 =>
          simp only
          by_cases hts : ts = []
          · subst hts
            simp only [if_true, List.append_nil, strchr_token_end t ht]
          · simp only [hts, if_false, strchr_token_comma t _ ht]
    · simp only [h32, if_false, not_false_eq_true, if_true, bind, Except.bind]

theorem hex_list_drop (inp : List Char) (t : List Char) (ts : List (List Char)) (lcp : Nat)
    (hts : ts ≠ []) (hd : inp.drop lcp = hex_list (t :: ts)) :
    inp.drop (lcp + t.length + 1) = hex_list ts := by
  rw [hex_list_cons, if_neg hts] at hd
  have e : lcp + t.length + 1 = lcp + (t.length + 1) := by omega
  rw [e, ← List.drop_drop, hd]
  have e2 : t ++ ',' :: hex_list ts = (t ++ [',']) ++ hex_list ts := by simp
  have e3 : t.length + 1 = (t ++ [',']).length := by simp
  rw [e2, e3, List.drop_left]

theorem wr_ok (tid_arr : List Nat) (i h : Nat) (hi : i < tid_arr.length) :
    wr tid_arr i h = .ok (tid_arr.set i h) := by
  unfold wr
  rw [if_pos hi]

/-- The command-line loop on the comma-separated list of the tokens ts, none
of which overflows an unsigned int among those it looks at: it leaves with a
message when one of them is empty or larger than 0xff, and otherwise with k
at the index of the last token it has stored (or at 1024 when more tokens were
left). -/
theorem build_transportid_hex_loop_tokens (inp : List Char) :
    ∀ (ts : List (List Char)) (todo k lcp : Nat) (tid_arr : List Nat),
      ts ≠ [] → inp.drop lcp = hex_list ts →
      (∀ t ∈ ts, ∀ c ∈ t, (hex_digit c).isSome = true) →
      (∀ t ∈ ts.take todo, hex_value t < 4294967296) →
      k + todo ≤ tid_arr.length →
      ∃ t2 res, build_transportid_hex_loop inp todo k lcp tid_arr = .ok (t2, res) ∧
        t2.length = tid_arr.length ∧
        ((∀ t ∈ ts.take todo, t ≠ [] ∧ hex_value t ≤ 0xff) →
          res = .inr (if ts.length ≤ todo then k + ts.length - 1 else k + todo)) ∧
        (¬ (∀ t ∈ ts.take todo, t ≠ [] ∧ hex_value t ≤ 0xff) → ∃ msg, res = .inl msg) := by
  intro ts
  induction ts with
  | nil => intro todo k lcp tid_arr hne; exact absurd rfl hne
  | cons t ts ih =>
    intro todo k lcp tid_arr _ hd hhex h32 hfit
    cases todo with
    | zero =>
      refine ⟨tid_arr, .inr k, rfl, rfl, ?_, ?_⟩
      · intro _
        rw [if_neg (by simp)]
        rfl
      · intro hnot
        exact absurd (by simp) hnot
    | succ n =>
      have ht := hhex t (List.mem_cons_self _ _)
      rw [build_transportid_hex_loop_step inp t ts n k lcp tid_arr hd ht]
      rw [List.take_succ_cons] at h32 ⊢
      by_cases hnil : t = []
      · rw [if_pos hnil]
        refine ⟨tid_arr, _, rfl, rfl, ?_, fun _ => ⟨_, rfl⟩⟩
        intro hall
        exact absurd hnil (hall t (List.mem_cons_self _ _)).1
      · rw [if_neg hnil, if_neg (not_not.mpr (h32 t (List.mem_cons_self _ _)))]
        by_cases hgt : hex_value t > 0xff
        · rw [if_pos hgt]
          refine ⟨tid_arr, _, rfl, rfl, ?_, fun _ => ⟨_, rfl⟩⟩
          intro hall
          have := (hall t (List.mem_cons_self _ _)).2
          omega
        · rw [if_neg hgt, wr_ok tid_arr k (hex_value t) (by omega)]
          simp only
          by_cases hts : ts = []
          · subst hts
            rw [if_pos rfl]
            refine ⟨_, _, rfl, List.length_set _ _ _, ?_, ?_⟩
            · intro _
              rw [if_pos (by simp)]
              simp
            · intro hnot
              apply absurd _ hnot
              intro u hu
              simp only [List.take_nil, List.mem_singleton] at hu
              subst hu
              exact ⟨hnil, by omega⟩
          · rw [if_neg hts]
            obtain ⟨t2, res, hloop, hlen, hacc, hrej⟩ := ih n (k + 1) (lcp + t.length + 1)
              (tid_arr.set k (hex_value t)) hts (hex_list_drop inp t ts lcp hts hd)
              (fun u hu => hhex u (List.mem_cons_of_mem _ hu))
              (fun u hu => h32 u (List.mem_cons_of_mem _ hu))
              (by rw [List.length_set]; omega)
            refine ⟨t2, res, hloop, by rw [hlen, List.length_set], ?_, ?_⟩
            · intro hall
              rw [hacc (fun u hu => hall u (List.mem_cons_of_mem _ hu))]
              congr 1
              simp only [List.length_cons]
              have hpos : 0 < ts.length := List.length_pos.mpr hts
              split_ifs <;> omega
            · intro hnot
              apply hrej
              intro hall
              apply hnot
              intro u hu
              rcases List.mem_cons.mp hu with e | e
              · subst e
                exact ⟨hnil, by omega⟩
              · exact hall u e

/-! ## build_transportid: what the command line accepts -/

theorem hex_digit_charset (c : Char) (h : (hex_digit c).isSome = true) :
    "0123456789aAbBcCdDeEfF,".toList.contains c = true := by
  unfold hex_digit at h
  have key : (48 ≤ c.toNat ∧ c.toNat ≤ 57) ∨ (97 ≤ c.toNat ∧ c.toNat ≤ 102) ∨
      (65 ≤ c.toNat ∧ c.toNat ≤ 70) := by
    split_ifs at h with h1 h2 h3
    · left
      rw [Char.le_def, Char.le_def] at h1
      exact h1
    · right; left
      rw [Char.le_def, Char.le_def] at h2
      exact h2
    · right; right
      rw [Char.le_def, Char.le_def] at h3
      exact h3
    · exact absurd h (by simp)
  rw [← Char.ofNat_toNat c]
  generalize c.toNat = n at key
  rcases key with ⟨h1, h2⟩ | ⟨h1, h2⟩ | ⟨h1, h2⟩ <;> interval_cases n <;> decide

theorem hex_list_chars (ts : List (List Char))
    (hhex : ∀ t ∈ ts, ∀ c ∈ t, (hex_digit c).isSome = true) :
    ∀ c ∈ hex_list ts, "0123456789aAbBcCdDeEfF,".toList.contains c = true := by
  induction ts with
  | nil => intro c hc; simp [hex_list] at hc
  | cons t ts ih =>
    intro c hc
    rw [hex_list_cons] at hc
    rcases List.mem_append.mp hc with h | h
    · exact hex_digit_charset c (hhex t (List.mem_cons_self _ _) c h)
    · by_cases hts : ts = []
      · rw [if_pos hts] at h
        exact absurd h (List.not_mem_nil _)
      · rw [if_neg hts] at h
        rcases List.mem_cons.mp h with e | e
        · rw [e]; decide
        · exact ih (fun u hu => hhex u (List.mem_cons_of_mem _ hu)) c e

theorem not_dash_of_charset (s : List Char)
    (hc : ∀ c ∈ s, "0123456789aAbBcCdDeEfF,".toList.contains c = true) :
    ¬ (s.head? = some '-') := by
  intro h
  cases s with
  | nil => simp at h
  | cons c rest =>
    simp only [List.head?_cons, Option.some.injEq] at h
    have := (hexcomma_facts c (by simpa using hc c (List.mem_cons_self _ _))).2.2.2.2.2.2.1
    exact this h

/-- `build_transportid` on a command-line argument, from the result of its
loop. -/
theorem build_transportid_of_hex_loop (s stdin : List Char) (tid_arr : List Nat) (a b : Int)
    (t2 : List Nat) (res : Line ⊕ Nat)
    (hc : ∀ c ∈ s, "0123456789aAbBcCdDeEfF,".toList.contains c = true)
    (hl : build_transportid_hex_loop s 1024 0 0 tid_arr = .ok (t2, res)) :
    ∃ r, build_transportid s stdin tid_arr a b = .ok r ∧ r.tid_arr = t2 ∧
      (∀ k, res = .inr k → r.ret = 0 ∧ r.tid_arr_len = (pad_k k : Nat) ∧ r.num_tids = 1) ∧
      (∀ msg, res = .inl msg → r.ret = 1) := by
  have hk : ¬ (s.length ≠ strspn s "0123456789aAbBcCdDeEfF,".toList) := by
    rw [(strspn_eq_length s _).mpr hc]
    simp
  simp only [build_transportid, bind, Except.bind, pure, Except.pure]
  rw [if_neg (not_dash_of_charset s hc), if_neg hk, hl]
  cases res with
  | inl msg =>
    refine ⟨_, rfl, rfl, ?_, fun _ _ => rfl⟩
    intro k hk
    exact absurd hk (by simp)
  | inr k =>
    refine ⟨_, rfl, rfl, ?_, ?_⟩
    · intro k2 hk2
      injection hk2 with hk2
      subst hk2
      exact ⟨rfl, rfl, rfl⟩
    · intro msg hm
      exact absurd hm (by simp)

/-- C22: on the command line, (1) an argument that does not start with `-` and
holds a character other than a hexadecimal digit or a comma is rejected with
return value 1; (2) for the comma-separated list of the tokens ts, each made
of hexadecimal digits and none of the first 1024 with a value of 2^32 or more,
build_transportid returns 1 when one of the first 1024 tokens is empty or has
a value above 0xff, and returns 0 otherwise, the length reported then being
the padding of the index of the last token stored; (3) the single token
100000000, whose value 2^32 is above 0xff, is not rejected with return value
1: its conversion by `sscanf` overflows the unsigned int it is stored in. -/
theorem hex_list_rejection :
    (∀ (inp stdin : List Char) (tid_arr : List Nat) (a b : Int),
      ¬ (inp.head? = some '-') → (∃ c ∈ inp, c ≠ ',' ∧ (hex_digit c).isSome = false) →
      ∃ r, build_transportid inp stdin tid_arr a b = .ok r ∧ r.ret = 1) ∧
    (∀ (ts : List (List Char)) (stdin : List Char) (tid_arr : List Nat) (a b : Int),
      ts ≠ [] → (∀ t ∈ ts, ∀ c ∈ t, (hex_digit c).isSome = true) →
      (∀ t ∈ ts.take 1024, hex_value t < 4294967296) → 1024 ≤ tid_arr.length →
      ∃ r, build_transportid (hex_list ts) stdin tid_arr a b = .ok r ∧
        ((∀ t ∈ ts.take 1024, t ≠ [] ∧ hex_value t ≤ 0xff) →
          r.ret = 0 ∧ r.num_tids = 1 ∧
          r.tid_arr_len = (pad_k (if ts.length ≤ 1024 then ts.length - 1 else 1024) : Nat)) ∧
        (¬ (∀ t ∈ ts.take 1024, t ≠ [] ∧ hex_value t ≤ 0xff) → r.ret = 1)) ∧
    build_transportid "100000000".toList [] (List.replicate MX_ALLOC_LEN 0) 0 0
      = .error .range := by
  refine ⟨?_, ?_, rfl⟩
  · intro inp stdin tid_arr a b hdash hbad
    obtain ⟨c, hmem, hcomma, hhex⟩ := hbad
    have hk : inp.length ≠ strspn inp "0123456789aAbBcCdDeEfF,".toList := by
      intro e
      have hall := (strspn_eq_length inp _).mp e.symm
      have hf := (hexcomma_facts c (by simpa using hall c hmem)).1
      rcases hf with h1 | h1
      · exact hcomma h1
      · rw [hhex] at h1
        exact absurd h1 (by simp)
    simp only [build_transportid, bind, Except.bind, pure, Except.pure]
    rw [if_neg hdash, if_pos hk]
    exact ⟨_, rfl, rfl⟩
  · intro ts stdin tid_arr a b hne hhex h32 hlen
    obtain ⟨t2, res, hloop, -, hacc, hrej⟩ := build_transportid_hex_loop_tokens (hex_list ts)
      ts 1024 0 0 tid_arr hne (List.drop_zero _) hhex h32 (by omega)
    obtain ⟨r, hr, -, hok, hbad⟩ := build_transportid_of_hex_loop (hex_list ts) stdin tid_arr a b
      t2 res (hex_list_chars ts hhex) hloop
    refine ⟨r, hr, ?_, ?_⟩
    · intro hall
      obtain ⟨h1, h2, h3⟩ := hok _ (hacc hall)
      refine ⟨h1, h3, ?_⟩
      rw [h2]
      simp only [Nat.zero_add]
    · intro hnot
      obtain ⟨msg, hm⟩ := hrej hnot
      exact hbad msg hm

theorem hex_list_rejection_witness :
    ∃ r, build_transportid (hex_list ["1".toList, "100".toList, "ff".toList]) []
        (List.replicate MX_ALLOC_LEN 0) 0 0 = .ok r ∧
      ((∀ t ∈ ["1".toList, "100".toList, "ff".toList].take 1024, t ≠ [] ∧ hex_value t ≤ 0xff) →
        r.ret = 0 ∧ r.num_tids = 1 ∧
        r.tid_arr_len = (pad_k (if ["1".toList, "100".toList, "ff".toList].length ≤ 1024
          then ["1".toList, "100".toList, "ff".toList].length - 1 else 1024) : Nat)) ∧
      (¬ (∀ t ∈ ["1".toList, "100".toList, "ff".toList].take 1024,
          t ≠ [] ∧ hex_value t ≤ 0xff) → r.ret = 1) :=
  hex_list_rejection.2.1 ["1".toList, "100".toList, "ff".toList] []
    (List.replicate MX_ALLOC_LEN 0) 0 0 (by decide) (by decide) (by decide)
    (by rw [List.length_replicate]; decide)

/-! ## build_transportid: the tokens of a line -/

theorem hex_facts (c : Char) (h : (hex_digit c).isSome = true) :
    isspace c = false ∧ [' ', '\t'].contains c = false ∧ [' ', ',', '\t'].contains c = false ∧
    c ≠ '#' ∧ c ≠ '\n' ∧ "0123456789aAbBcCdDeEfF ,\t".toList.contains c = true := by
  have hm := hex_digit_charset c h
  have hf := hexcomma_facts c (by simpa using hm)
  have hcomma := hf.2.2.2.2.2.2.2.2.2 h
  refine ⟨hf.2.1, ?_, ?_, hf.2.2.2.2.2.1, hf.2.2.2.2.1, hf.2.2.2.2.2.2.2.2.1⟩
  · have h1 := hf.2.2.1
    have h2 := hf.2.2.2.1
    simp [h1, h2]
  · rw [hf.2.2.2.2.2.2.2.1]
    simpa using hcomma

theorem sep_facts (c : Char) (h : [' ', ',', '\t'].contains c = true) :
    (hex_digit c).isSome = false ∧ c ≠ '\n' ∧
    "0123456789aAbBcCdDeEfF ,\t".toList.contains c = true := by
  have : c = ' ' ∨ c = ',' ∨ c = '\t' := by simpa using h
  rcases this with e | e | e <;> rw [e] <;> decide

theorem blank_facts (c : Char) (h : [' ', '\t'].contains c = true) :
    c ≠ '\n' ∧ c ≠ '#' := by
  have : c = ' ' ∨ c = '\t' := by simpa using h
  rcases this with e | e <;> rw [e] <;> decide

/-- The conversion of a token of hexadecimal digits that is followed by the
end of the text or by a character that is not a hexadecimal digit. -/
theorem sscanf_x_token_sep (t r : List Char) (hne : t ≠ [])
    (ht : ∀ c ∈ t, (hex_digit c).isSome = true)
    (hr : ∀ c ∈ r.head?, (hex_digit c).isSome = false) :
    sscanf_x (t ++ r) =
      if hex_value t < 4294967296 then .ok (some (hex_value t)) else .error .range := by
  obtain ⟨c, t2, rfl⟩ : ∃ c t2, t = c :: t2 := by
    cases t with
    | nil => exact absurd rfl hne
    | cons c t2 => exact ⟨c, t2, rfl⟩
  have hs := isspace_not_hex c (ht c (List.mem_cons_self _ _))
  have hd : List.dropWhile isspace (c :: t2 ++ r) = c :: t2 ++ r :=
    List.dropWhile_cons_of_neg (by simp [hs])
  have htw : List.takeWhile (fun c => (hex_digit c).isSome) (c :: t2 ++ r) = c :: t2 := by
    rw [List.takeWhile_append_of_pos ht]
    cases r with
    | nil => simp
    | cons d r2 =>
      have := hr d (by simp)
      rw [List.takeWhile_cons_of_neg (by simp [this])]
      simp
  unfold sscanf_x
  simp only [hd, htw, hex_value]
  rw [if_neg (by simp)]

theorem findIdx_skip (p : Char → Bool) (t r : List Char) (ht : ∀ c ∈ t, p c = false) :
    List.findIdx p (t ++ r) = t.length + List.findIdx p r := by
  induction t with
  | nil => simp
  | cons c t ih =>
    have hc := ht c (List.mem_cons_self _ _)
    have := ih (fun d hd => ht d (List.mem_cons_of_mem _ hd))
    rw [List.cons_append, List.findIdx_cons, hc, this]
    simp only [cond_false, List.length_cons]
    omega

theorem strpbrk_token (t r : List Char) (ht : ∀ c ∈ t, (hex_digit c).isSome = true) :
    strpbrk (t ++ r) [' ', ',', '\t'] =
      match r with
      | [] => none
      | c :: _ => if [' ', ',', '\t'].contains c then some t.length
                  else (strpbrk r [' ', ',', '\t']).map (fun i => t.length + i) := by
  have hskip := findIdx_skip (fun d => [' ', ',', '\t'].contains d) t r
    (fun c hc => (hex_facts c (ht c hc)).2.2.1)
  unfold strpbrk
  simp only [hskip, List.length_append]
  cases r with
  | nil => simp
  | cons c r2 =>
    simp only [List.findIdx_cons, List.length_cons]
    by_cases hc : [' ', ',', '\t'].contains c = true
    · simp only [hc, cond_true, Nat.add_zero, if_true]
      rw [if_pos (by omega)]
    · have hc2 : [' ', ',', '\t'].contains c = false := by simpa using hc
      simp only [hc2, cond_false, Bool.false_eq_true, if_false]
      split_ifs with h1 h2 h2
      · rfl
      · omega
      · omega
      · rfl

theorem strspn_run (s r : List Char) (acc : List Char) (hs : ∀ c ∈ s, acc.contains c = true)
    (hr : ∀ c ∈ r.head?, acc.contains c = false) : strspn (s ++ r) acc = s.length := by
  unfold strspn
  rw [List.takeWhile_append_of_pos hs]
  cases r with
  | nil => simp
  | cons d r2 =>
    have := hr d (by simp)
    rw [List.takeWhile_cons_of_neg
      (by show ¬ (acc.contains d = true); rw [this]; exact Bool.false_ne_true)]
    simp

theorem drop_after (l : List Char) (lcp : Nat) (a b : List Char) (h : l.drop lcp = a ++ b) :
    l.drop (lcp + a.length) = b := by
  rw [← List.drop_drop, h, List.drop_left]

theorem flatten_more_cons (sep tok : List Char) (more : List (List Char × List Char))
    (trail : List Char) :
    (((sep, tok) :: more).map (fun p => p.1 ++ p.2)).flatten ++ trail =
      sep ++ (tok ++ ((more.map (fun p => p.1 ++ p.2)).flatten ++ trail)) := by
  simp

/-- What follows a token of a well-formed data line does not start with a
hexadecimal digit: it is empty or starts with a separator. -/
theorem more_head (more : List (List Char × List Char)) (trail : List Char)
    (hmore : ∀ p ∈ more, p.1 ≠ [] ∧ ∀ c ∈ p.1, [' ', ',', '\t'].contains c = true)
    (htrail : ∀ c ∈ trail, [' ', ',', '\t'].contains c = true) :
    ∀ c ∈ ((more.map (fun p => p.1 ++ p.2)).flatten ++ trail).head?,
      [' ', ',', '\t'].contains c = true := by
  intro c hc
  cases more with
  | nil =>
    simp only [List.map_nil, List.flatten_nil, List.nil_append] at hc
    cases trail with
    | nil => simp at hc
    | cons d tr =>
      simp only [List.head?_cons, Option.mem_def, Option.some.injEq] at hc
      subst hc
      exact htrail _ (List.mem_cons_self _ _)
  | cons p more =>
    obtain ⟨sep, tok⟩ := p
    rw [flatten_more_cons] at hc
    obtain ⟨hne, hsep⟩ := hmore (sep, tok) (List.mem_cons_self _ _)
    cases sep with
    | nil => exact absurd rfl hne
    | cons d sp =>
      simp only [List.cons_append, List.head?_cons, Option.mem_def, Option.some.injEq] at hc
      subst hc
      exact hsep _ (List.mem_cons_self _ _)

/-- The loop over the tokens of a line, at a place where the text that is left
is a token followed by the further tokens of a well-formed data line: every
token is stored, one byte each, and the loop leaves with k at the index of the
last token. -/
theorem build_transportid_line_loop_tokens (l : List Char) (j off : Nat) (trail : List Char)
    (htrail : ∀ c ∈ trail, [' ', ',', '\t'].contains c = true) :
    ∀ (more : List (List Char × List Char)) (first : List Char) (todo k lcp : Nat)
      (tid_arr : List Nat),
      l.drop lcp = first ++ ((more.map (fun p => p.1 ++ p.2)).flatten ++ trail) →
      (first ≠ [] ∧ (∀ c ∈ first, (hex_digit c).isSome = true) ∧ hex_value first ≤ 0xff) →
      (∀ p ∈ more, p.2 ≠ [] ∧ (∀ c ∈ p.2, (hex_digit c).isSome = true) ∧
        hex_value p.2 ≤ 0xff) →
      (∀ p ∈ more, p.1 ≠ [] ∧ ∀ c ∈ p.1, [' ', ',', '\t'].contains c = true) →
      more.length < todo → off + k + more.length < tid_arr.length →
      build_transportid_line_loop l j off todo k lcp tid_arr =
        .ok (store tid_arr (off + k) (hex_value first :: more.map (fun p => hex_value p.2)),
             .inr (k + more.length)) := by
  intro more
  induction more with
  | nil =>
    intro first todo k lcp tid_arr hd hfirst _ _ htodo hfit
    obtain ⟨n, rfl⟩ : ∃ n, todo = n + 1 := ⟨todo - 1, by omega⟩
    obtain ⟨hne, hhex, hval⟩ := hfirst
    simp only [List.map_nil, List.flatten_nil, List.nil_append, List.length_nil,
      Nat.add_zero] at hd hfit ⊢
    have hsx := sscanf_x_token_sep first trail hne hhex (fun c hc => by
      cases trail with
      | nil => simp at hc
      | cons d tr =>
        simp only [List.head?_cons, Option.mem_def, Option.some.injEq] at hc
        subst hc
        exact (sep_facts _ (htrail _ (List.mem_cons_self _ _))).1)
    rw [if_pos (by omega)] at hsx
    have hpb := strpbrk_token first trail hhex
    rw [build_transportid_line_loop, hd, hsx]
    simp only [bind, Except.bind, pure, Except.pure]
    rw [if_neg (by omega), wr_ok tid_arr (off + k) (hex_value first) hfit]
    simp only [hpb, store]
    cases trail with
    | nil => rfl
    | cons d tr =>
      simp only [htrail d (List.mem_cons_self _ _), if_true]
      have hdr := drop_after l lcp first (d :: tr) hd
      have hspn : strspn (d :: tr) [' ', ',', '\t'] = (d :: tr).length :=
        (strspn_eq_length _ _).mpr htrail
      have hend : l.drop (lcp + first.length + (d :: tr).length) = [] := by
        rw [← List.drop_drop, hdr, List.drop_length]
      rw [hdr, hspn, hend]
      simp
  | cons p more ih =>
    intro first todo k lcp tid_arr hd hfirst htok hsep htodo hfit
    obtain ⟨sep, tok⟩ := p
    obtain ⟨n, rfl⟩ : ∃ n, todo = n + 1 := ⟨todo - 1, by omega⟩
    obtain ⟨hne, hhex, hval⟩ := hfirst
    rw [flatten_more_cons] at hd
    simp only [List.length_cons] at htodo hfit
    obtain ⟨hsne, hschars⟩ := hsep (sep, tok) (List.mem_cons_self _ _)
    obtain ⟨htne, hthex, htval⟩ := htok (sep, tok) (List.mem_cons_self _ _)
    obtain ⟨d, sp, rfl⟩ : ∃ d sp, sep = d :: sp := by
      cases sep with
      | nil => exact absurd rfl hsne
      | cons d sp => exact ⟨d, sp, rfl⟩
    obtain ⟨c1, tk, rfl⟩ : ∃ c1 tk, tok = c1 :: tk := by
      cases tok with
      | nil => exact absurd rfl htne
      | cons c1 tk => exact ⟨c1, tk, rfl⟩
    have hdsep := hschars d (List.mem_cons_self _ _)
    have hsx := sscanf_x_token_sep first
      ((d :: sp) ++ ((c1 :: tk) ++ ((more.map (fun p => p.1 ++ p.2)).flatten ++ trail)))
      hne hhex (fun c hc => by
      simp only [List.cons_append, List.head?_cons, Option.mem_def, Option.some.injEq] at hc
      subst hc
      exact (sep_facts _ hdsep).1)
    rw [if_pos (by omega)] at hsx
    have hpb := strpbrk_token first
      ((d :: sp) ++ ((c1 :: tk) ++ ((more.map (fun p => p.1 ++ p.2)).flatten ++ trail))) hhex
    simp only [List.cons_append, hdsep, if_true] at hpb
    have hdr := drop_after l lcp first _ hd
    have hspn := strspn_run (d :: sp)
      ((c1 :: tk) ++ ((more.map (fun p => p.1 ++ p.2)).flatten ++ trail)) [' ', ',', '\t']
      hschars (fun c hc => by
        simp only [List.cons_append, List.head?_cons, Option.mem_def, Option.some.injEq] at hc
        subst hc
        exact (hex_facts _ (hthex _ (List.mem_cons_self _ _))).2.2.1)
    have hdr2 := drop_after l (lcp + first.length) (d :: sp) _ hdr
    have hne2 : ¬ (l.drop (lcp + first.length + (d :: sp).length) = []) := by
      rw [hdr2]; simp
    have hih := ih (c1 :: tk) n (k + 1) (lcp + first.length + (d :: sp).length)
      (tid_arr.set (off + k) (hex_value first)) hdr2 ⟨htne, hthex, htval⟩
      (fun q hq => htok q (List.mem_cons_of_mem _ hq))
      (fun q hq => hsep q (List.mem_cons_of_mem _ hq)) (by omega)
      (by rw [List.length_set]; omega)
    rw [build_transportid_line_loop, hd, hsx]
    simp only [bind, Except.bind, pure, Except.pure]
    rw [if_neg (by omega), wr_ok tid_arr (off + k) (hex_value first) (by omega)]
    simp only [List.cons_append] at hpb hdr hspn ⊢
    simp only [hpb, hdr, hspn]
    rw [if_neg hne2, hih]
    simp only [List.map_cons, store, List.length_cons]
    have e1 : off + (k + 1) = off + k + 1 := by omega
    have e2 : k + 1 + more.length = k + (more.length + 1) := by omega
    rw [e1, e2]

/-! ## build_transportid: the lines of standard input -/

theorem store_length (bs : List Nat) : ∀ (arr : List Nat) (i : Nat),
    (store arr i bs).length = arr.length := by
  induction bs with
  | nil => intro arr i; rfl
  | cons b bs ih =>
    intro arr i
    simp only [store]
    rw [ih, List.length_set]

theorem drop_strspn (l acc : List Char) :
    l.drop (strspn l acc) = l.dropWhile (fun c => acc.contains c) := by
  unfold strspn
  have h := List.takeWhile_append_dropWhile (fun c => acc.contains c) l
  have h2 : List.drop (List.takeWhile (fun c => acc.contains c) l).length
      (List.takeWhile (fun c => acc.contains c) l ++ List.dropWhile (fun c => acc.contains c) l)
      = List.dropWhile (fun c => acc.contains c) l := List.drop_left _ _
  rw [h] at h2
  exact h2

/-- A line that is skipped leaves the state of the loop over the lines of
standard input as it is. -/
theorem build_transportid_stdin_loop_skip (todo j off num : Nat) (tid_arr : List Nat)
    (l rest : List Char) (hn : ∀ c ∈ l, c ≠ '\n') (hlen : l.length ≤ 510)
    (hs : (∀ c ∈ l, [' ', '\t'].contains c = true) ∨
      (l.dropWhile (fun c => [' ', '\t'].contains c)).head? = some '#') :
    build_transportid_stdin_loop (todo + 1) j (l ++ '\n' :: rest) off num tid_arr =
      build_transportid_stdin_loop todo (j + 1) rest off num tid_arr := by
  rw [build_transportid_stdin_loop, fgets_line_nl l rest hn hlen]
  simp only [strip_nl]
  by_cases h0 : 0 = l.length
  · rw [if_pos h0]
  · rw [if_neg h0]
    by_cases hm : strspn l [' ', '\t'] = l.length
    · rw [if_pos hm]
    · rw [if_neg hm]
      rcases hs with hall | hhash
      · exact absurd ((strspn_eq_length l _).mpr hall) hm
      · rw [drop_strspn, if_pos hhash]

theorem flatten_more_length (more : List (List Char × List Char))
    (htok : ∀ p ∈ more, p.2 ≠ []) (hsep : ∀ p ∈ more, p.1 ≠ []) :
    2 * more.length ≤ ((more.map (fun p => p.1 ++ p.2)).flatten).length := by
  induction more with
  | nil => simp
  | cons p more ih =>
    have h1 := List.length_pos.mpr (htok p (List.mem_cons_self _ _))
    have h2 := List.length_pos.mpr (hsep p (List.mem_cons_self _ _))
    have := ih (fun q hq => htok q (List.mem_cons_of_mem _ hq))
      (fun q hq => hsep q (List.mem_cons_of_mem _ hq))
    simp only [List.map_cons, List.flatten_cons, List.length_append, List.length_cons]
    omega

theorem mem_flatten_more (more : List (List Char × List Char)) (c : Char)
    (hc : c ∈ (more.map (fun p => p.1 ++ p.2)).flatten) :
    ∃ p ∈ more, c ∈ p.1 ∨ c ∈ p.2 := by
  rw [List.mem_flatten] at hc
  obtain ⟨x, hx, hcx⟩ := hc
  rw [List.mem_map] at hx
  obtain ⟨p, hp, rfl⟩ := hx
  exact ⟨p, hp, List.mem_append.mp hcx⟩

/-- One pass of the loop over the lines of standard input on a well-formed
data line: its bytes are stored from `off` on, the offset moves on by the
padded index of the last token, and one more record is counted. -/
theorem build_transportid_stdin_loop_data_line (todo j off num : Nat) (tid_arr : List Nat)
    (d : DataLine) (rest : List Char) (hwf : d.wf) (hlen : d.text.length ≤ 510)
    (hfit : off + d.bytes.length ≤ tid_arr.length) :
    build_transportid_stdin_loop (todo + 1) j (d.text ++ '\n' :: rest) off num tid_arr =
      build_transportid_stdin_loop todo (j + 1) rest (off + pad_k (d.bytes.length - 1)) (num + 1)
        (store tid_arr off d.bytes) := by
  obtain ⟨hb, htoks, hseps, htrail⟩ := hwf
  obtain ⟨hfne, hfhex, hfval⟩ := htoks d.first (List.mem_cons_self _ _)
  have hmtok : ∀ p ∈ d.more, p.2 ≠ [] ∧ (∀ c ∈ p.2, (hex_digit c).isSome = true) ∧
      hex_value p.2 ≤ 0xff := fun p hp =>
    htoks p.2 (List.mem_cons_of_mem _ (List.mem_map_of_mem _ hp))
  obtain ⟨c0, f2, hf0⟩ : ∃ c0 f2, d.first = c0 :: f2 := by
    cases hfe : d.first with
    | nil => exact absurd hfe hfne
    | cons c0 f2 => exact ⟨c0, f2, rfl⟩
  have hc0 := hex_facts c0 (hfhex c0 (by rw [hf0]; exact List.mem_cons_self _ _))
  -- the characters after the blanks
  have hrest : ∀ c ∈ d.first ++ ((d.more.map (fun p => p.1 ++ p.2)).flatten ++ d.trail),
      c ≠ '\n' ∧ "0123456789aAbBcCdDeEfF ,\t".toList.contains c = true := by
    intro c hc
    rcases List.mem_append.mp hc with h | h
    · have := hex_facts c (hfhex c h)
      exact ⟨this.2.2.2.2.1, this.2.2.2.2.2⟩
    · rcases List.mem_append.mp h with h | h
      · obtain ⟨p, hp, hcp⟩ := mem_flatten_more d.more c h
        rcases hcp with h1 | h1
        · have := sep_facts c ((hseps p hp).2 c h1)
          exact ⟨this.2.1, this.2.2⟩
        · have := hex_facts c ((hmtok p hp).2.1 c h1)
          exact ⟨this.2.2.2.2.1, this.2.2.2.2.2⟩
      · have := sep_facts c (htrail c h)
        exact ⟨this.2.1, this.2.2⟩
  have hnonl : ∀ c ∈ d.text, c ≠ '\n' := by
    intro c hc
    unfold DataLine.text at hc
    rcases List.mem_append.mp hc with h | h
    · exact (blank_facts c (hb c h)).1
    · exact (hrest c h).1
  have hm0 : strspn d.text [' ', '\t'] = d.blanks.length := by
    unfold DataLine.text
    apply strspn_run _ _ _ hb
    intro c hc
    rw [hf0] at hc
    simp only [List.cons_append, List.head?_cons, Option.mem_def, Option.some.injEq] at hc
    subst hc
    exact hc0.2.1
  have hdrop : d.text.drop d.blanks.length =
      d.first ++ ((d.more.map (fun p => p.1 ++ p.2)).flatten ++ d.trail) := by
    unfold DataLine.text
    exact List.drop_left _ _
  have htext_len : d.text.length = d.blanks.length +
      (d.first ++ ((d.more.map (fun p => p.1 ++ p.2)).flatten ++ d.trail)).length := by
    unfold DataLine.text
    rw [List.length_append]
  have hflen : 0 < d.first.length := List.length_pos.mpr hfne
  have hmore_len := flatten_more_length d.more (fun p hp => (hmtok p hp).1)
    (fun p hp => (hseps p hp).1)
  have hbytes : d.bytes.length = d.more.length + 1 := by
    simp [DataLine.bytes, DataLine.tokens]
  have hstep := build_transportid_stdin_loop_data todo j off num tid_arr
    (d.text ++ '\n' :: rest) (d.text ++ ['\n']) d.text rest
    (fgets_line_nl d.text rest hnonl hlen) (strip_nl d.text)
    (by rw [hm0, htext_len, List.length_append]; omega)
    (by rw [hm0, hdrop, hf0]
        simp only [List.cons_append, List.head?_cons, Option.some.injEq]
        exact hc0.2.2.2.1)
    (by rw [hm0, hdrop, htext_len]
        rw [(strspn_eq_length _ _).mpr (fun c hc => (hrest c hc).2)]
        omega)
  have hloop := build_transportid_line_loop_tokens d.text j off d.trail htrail d.more d.first
    1024 0 d.blanks.length tid_arr hdrop ⟨hfne, hfhex, hfval⟩ hmtok hseps
    (by simp only [htext_len, List.length_append] at hlen; omega) (by omega)
  have hb2 : d.bytes = hex_value d.first :: d.more.map (fun p => hex_value p.2) := by
    simp only [DataLine.bytes, DataLine.tokens, List.map_cons, List.map_map]
    rfl
  rw [hstep, hm0, hloop]
  simp only [bind, Except.bind, Nat.add_zero, Nat.zero_add, hbytes, Nat.add_sub_cancel]
  rw [hb2]

theorem stream_cons (x : InLine) (ls : List InLine) :
    stream (x :: ls) = x.text ++ '\n' :: stream ls := by
  simp [stream]

/-- The loop over the lines of standard input on well-formed lines whose
records fit the array: the records are placed one after the other and
counted; skipped lines change nothing. -/
theorem build_transportid_stdin_loop_lines :
    ∀ (ls : List InLine) (todo j off num : Nat) (tid_arr : List Nat),
      ls.length ≤ todo → (∀ x ∈ ls, x.wf ∧ x.text.length ≤ 510) →
      records_fit (records ls) off tid_arr.length →
      build_transportid_stdin_loop todo j (stream ls) off num tid_arr =
        .ok ((place (records ls) off tid_arr).1,
             .inr ((place (records ls) off tid_arr).2, num + (records ls).length)) := by
  intro ls
  induction ls with
  | nil =>
    intro todo j off num tid_arr _ _ _
    cases todo with
    | zero => rfl
    | succ n => exact build_transportid_stdin_loop_eof n j off num tid_arr
  | cons x ls ih =>
    intro todo j off num tid_arr htodo hwf hfit
    obtain ⟨n, rfl⟩ : ∃ n, todo = n + 1 := ⟨todo - 1, by simp only [List.length_cons] at htodo; omega⟩
    simp only [List.length_cons] at htodo
    have hx := hwf x (List.mem_cons_self _ _)
    have hrest : ∀ y ∈ ls, y.wf ∧ y.text.length ≤ 510 := fun y hy =>
      hwf y (List.mem_cons_of_mem _ hy)
    rw [stream_cons]
    cases x with
    | skip l =>
      obtain ⟨⟨hn, hs⟩, hl⟩ := hx
      rw [show (InLine.skip l).text = l from rfl] at hl ⊢
      rw [build_transportid_stdin_loop_skip n j off num tid_arr l (stream ls) hn hl hs]
      exact ih n (j + 1) off num tid_arr (by omega) hrest hfit
    | data d =>
      obtain ⟨hd, hl⟩ := hx
      rw [show (InLine.data d).text = d.text from rfl] at hl ⊢
      obtain ⟨hf1, hf2⟩ := hfit
      rw [build_transportid_stdin_loop_data_line n j off num tid_arr d (stream ls) hd hl hf1]
      rw [ih n (j + 1) (off + pad_k (d.bytes.length - 1)) (num + 1) (store tid_arr off d.bytes)
        (by omega) hrest (by rw [store_length]; exact hf2)]
      simp only [records, place, List.length_cons]
      have e : num + 1 + (records ls).length = num + ((records ls).length + 1) := by omega
      rw [e]

theorem stream_zero_lines (n : Nat) :
    stream (List.replicate n (InLine.data
      { blanks := [], first := ['0'], more := [], trail := [] })) =
      (List.replicate n ['0', '\n']).flatten := by
  induction n with
  | zero => rfl
  | succ n ih =>
    rw [List.replicate_succ, stream_cons, ih, List.replicate_succ, List.flatten_cons]
    rfl

/-- C23: (1) for an input of at most 512 lines, each shorter than 511
characters and either a skipped line (empty, blank, or a comment) or a
well-formed list of hex byte tokens, whose records fit the array,
build_transportid in line mode returns 0 and reports as many transport ids as
there are data lines; array and total length are those of the data lines
alone, the skipped lines adding no byte and no length. (2) Without the
condition that the records fit it does not succeed: on 512 data lines `0` the
byte of a line is stored outside the 8192-byte array. -/
theorem line_input_record_count :
    (∀ (ls : List InLine) (tid_arr : List Nat) (a b : Int),
      ls.length ≤ 512 → (∀ x ∈ ls, x.wf ∧ x.text.length < 511) →
      records_fit (records ls) 0 tid_arr.length →
      build_transportid ['-'] (stream ls) tid_arr a b =
        .ok { ret := 0, tid_arr := (place (records ls) 0 tid_arr).1,
              tid_arr_len := ((place (records ls) 0 tid_arr).2 : Nat),
              num_tids := ((records ls).length : Nat), err := [] }) ∧
    build_transportid ['-']
      (stream (List.replicate 512 (InLine.data
        { blanks := [], first := ['0'], more := [], trail := [] })))
      (List.replicate MX_ALLOC_LEN 0) 0 0 = .error .oob := by
  constructor
  · intro ls tid_arr a b hlines hwf hfit
    have h := build_transportid_stdin_loop_lines ls 512 0 0 0 tid_arr hlines
      (fun x hx => ⟨(hwf x hx).1, by have := (hwf x hx).2; omega⟩) hfit
    rw [Nat.zero_add] at h
    exact build_transportid_stdin_ok _ tid_arr a b _ _ _ h
  · rw [stream_zero_lines]
    have h2 := build_transportid_stdin_loop_zero_lines MX_ALLOC_LEN
      ('0' :: '\n' :: (List.replicate 169 ['0', '\n']).flatten) 342 512 0 0 0
      (by decide) (by decide)
    have e : (List.replicate 342 ['0', '\n']).flatten ++
        ('0' :: '\n' :: (List.replicate 169 ['0', '\n']).flatten) =
        (List.replicate 512 ['0', '\n']).flatten := by
      have e1 : (512 : Nat) = 342 + (1 + 169) := rfl
      rw [e1, List.replicate_add, List.flatten_append, List.replicate_add, List.flatten_append]
      rfl
    rw [e] at h2
    have hstep := build_transportid_stdin_loop_zero_line 169 342 8208 342
      (List.replicate 169 ['0', '\n']).flatten (List.replicate MX_ALLOC_LEN 0)
    have hw : wr (List.replicate MX_ALLOC_LEN 0) 8208 0 = .error .oob := by
      rw [wr_replicate, if_neg (by decide)]
    apply build_transportid_stdin_error
    rw [h2]
    refine hstep.trans ?_
    rw [hw]
    rfl

theorem line_input_record_count_witness :
    build_transportid ['-'] "# two records\n 1, 2\tff \n\n  \t\na\n".toList
        (List.replicate 64 0) 0 0 =
      .ok { ret := 0,
            tid_arr :=
              [1, 2, 0xff, 0, 0, 0, 0, 0, 0, 0, 0, 0, 0, 0, 0, 0, 0, 0, 0, 0, 0, 0, 0, 0,
               0x0a, 0, 0, 0, 0, 0, 0, 0, 0, 0, 0, 0, 0, 0, 0, 0, 0, 0, 0, 0, 0, 0, 0, 0,
               0, 0, 0, 0, 0, 0, 0, 0, 0, 0, 0, 0, 0, 0, 0, 0],
            tid_arr_len := 48, num_tids := 2, err := [] } :=
  line_input_record_count.1
    [InLine.skip "# two records".toList,
     InLine.data { blanks := [' '], first := ['1'],
                   more := [([',', ' '], ['2']), (['\t'], ['f', 'f'])], trail := [' '] },
     InLine.skip [],
     InLine.skip [' ', ' ', '\t'],
     InLine.data { blanks := [], first := ['a'], more := [], trail := [] }]
    (List.replicate 64 0) 0 0 (by decide)
    (by
      intro x hx
      simp only [List.mem_cons, List.mem_singleton, List.not_mem_nil, or_false] at hx
      rcases hx with rfl | rfl | rfl | rfl | rfl
      · exact ⟨⟨by decide, Or.inr (by decide)⟩, by decide⟩
      · exact ⟨⟨by decide, by decide, by decide, by decide⟩, by decide⟩
      · exact ⟨⟨by decide, Or.inl (by decide)⟩, by decide⟩
      · exact ⟨⟨by decide, Or.inl (by decide)⟩, by decide⟩
      · exact ⟨⟨by decide, by decide, by decide, by decide⟩, by decide⟩)
    ⟨by decide, by decide, trivial⟩

end SgPersist
